import Mathlib

/-! # 4dapter: shift-register and single-wire controller drivers

A shallow embedding of the controller drivers of the 4dapter firmware:

* `NESController` (`src/NESController.cpp`, `include/NESController.h`),
* `SNESController` (`src/SNESController.cpp`, `include/SNESController.h`),
* `N64Controller` (`4dapter_FW-HID/N64_Controller.cpp`).

Machine integers are natural numbers reduced modulo `2 ^ w` where the C++
variable has width `w`.  The input ports are an environment: a poll reads
them, it never writes them.
-/

namespace FourDapter

/-! ## Control flow -/

/-- The loop `for (i = start; i < start + n; i++) body(i)`, as `forLoop body n start`. -/
def forLoop {σ : Type} (body : Nat → σ → σ) : Nat → Nat → σ → σ
  | 0, _, s => s
  | n + 1, i, s => forLoop body n (i + 1) (body i s)

/-! ## The board: output port D and the sampled input ports -/

/-- What the firmware does to the outside world during a shift-register poll. -/
inductive HwEvent where
  | writePORTD (v : Nat)
  | delayCycles (n : Nat)
  deriving DecidableEq, Repr

/-- The input port registers as the peer drives them.  `PINF c r` is the byte
read from `PINF` by the `r`-th input read (counted from 0) made after exactly
`c` clock pulses have been issued since the latch pulse; likewise the others. -/
structure Pins where
  PINF : Nat → Nat → Nat
  PINB : Nat → Nat → Nat
  PIND : Nat → Nat → Nat

/-- Board state.  `PORTD` is the output register shared by latch (bit 1) and
clock (bit 0); `trace` logs every write and delay in program order; `clocks`
counts the clock pulses since the last latch pulse and `reads` the input reads
since the last latch or clock pulse (both only index `Pins`). -/
structure Hw where
  PORTD : Nat
  trace : List HwEvent
  clocks : Nat
  reads : Nat

def LATCH_PULSE_CYCLES : Nat := 192
def LATCH_LOW_CYCLES : Nat := 72
def CLOCK_HIGH_CYCLES : Nat := 96
def CLOCK_LOW_CYCLES : Nat := 72

/-- Both drivers: `PORTD |= B00000010; delay(192); PORTD &= ~B00000010; delay(72)`. -/
def sendLatch (hw : Hw) : Hw :=
  let hi := (hw.PORTD ||| 0x02) % 256
  let lo := hi &&& 0xFD
  { PORTD := lo
    trace := hw.trace ++ [.writePORTD hi, .delayCycles LATCH_PULSE_CYCLES,
                          .writePORTD lo, .delayCycles LATCH_LOW_CYCLES]
    clocks := 0
    reads := 0 }

/-- Both drivers: `PORTD |= B00000001; delay(96); PORTD &= ~B00000001; delay(72)`. -/
def sendClock (hw : Hw) : Hw :=
  let hi := (hw.PORTD ||| 0x01) % 256
  let lo := hi &&& 0xFE
  { PORTD := lo
    trace := hw.trace ++ [.writePORTD hi, .delayCycles CLOCK_HIGH_CYCLES,
                          .writePORTD lo, .delayCycles CLOCK_LOW_CYCLES]
    clocks := hw.clocks + 1
    reads := 0 }

/-- One read of an input port register: the byte, and the board afterwards. -/
def readPort (port : Nat → Nat → Nat) (hw : Hw) : Nat × Hw :=
  (port hw.clocks hw.reads, { hw with reads := hw.reads + 1 })

/-! ## NESController -/

def NES_BTN_A : Nat := 0x01
def NES_BTN_B : Nat := 0x02
def NES_BTN_SELECT : Nat := 0x04
def NES_BTN_START : Nat := 0x08
def NES_BTN_UP : Nat := 0x10
def NES_BTN_DOWN : Nat := 0x20
def NES_BTN_LEFT : Nat := 0x40
def NES_BTN_RIGHT : Nat := 0x80

def POWERPAD_BTN_1 : Nat := 0x0001
def POWERPAD_BTN_2 : Nat := 0x0002
def POWERPAD_BTN_3 : Nat := 0x0004
def POWERPAD_BTN_4 : Nat := 0x0008
def POWERPAD_BTN_5 : Nat := 0x0010
def POWERPAD_BTN_6 : Nat := 0x0020
def POWERPAD_BTN_7 : Nat := 0x0040
def POWERPAD_BTN_8 : Nat := 0x0080
def POWERPAD_BTN_9 : Nat := 0x0100
def POWERPAD_BTN_10 : Nat := 0x0200
def POWERPAD_BTN_11 : Nat := 0x0400
def POWERPAD_BTN_12 : Nat := 0x0800

/-- The snapshot `NESControllerState`: `uint8_t`, `uint16_t`, `bool`. -/
structure NESControllerState where
  standardButtons : Nat
  powerPadButtons : Nat
  powerPadConnected : Bool
  deriving DecidableEq, Repr

/-- The driver object together with the board it drives. -/
structure NESController where
  currentState : NESControllerState
  controllerConnected : Bool
  hw : Hw

namespace NESController

/-- `currentState.* = 0 / false; controllerConnected = false;` -/
def reset (c : NESController) : NESController :=
  { c with
    currentState := { standardButtons := 0, powerPadButtons := 0, powerPadConnected := false }
    controllerConnected := false }

def getState (c : NESController) : NESControllerState := c.currentState

def isConnected (c : NESController) : Bool := c.controllerConnected

def isPowerPadConnected (c : NESController) : Bool := c.currentState.powerPadConnected

/-- `return (PINF & B10000000) != 0;` -/
def readDataBit (pins : Pins) (hw : Hw) : Bool × Hw :=
  let r := readPort pins.PINF hw
  (r.1 &&& 0x80 != 0, r.2)

/-- `return (PINB & B00100000) != 0;` -/
def readPowerPadD4 (pins : Pins) (hw : Hw) : Bool × Hw :=
  let r := readPort pins.PINB hw
  (r.1 &&& 0x20 != 0, r.2)

/-- `return (PINB & B00010000) != 0;` -/
def readPowerPadD3 (pins : Pins) (hw : Hw) : Bool × Hw :=
  let r := readPort pins.PINB hw
  (r.1 &&& 0x10 != 0, r.2)

/-- The `switch (bit)` under `!readPowerPadD4()`: the mask or-ed in (0: no case). -/
def powerPadD4Case (bit : Nat) : Nat :=
  match bit with
  | 0 => POWERPAD_BTN_4
  | 1 => POWERPAD_BTN_3
  | 2 => POWERPAD_BTN_12
  | 3 => POWERPAD_BTN_8
  | _ => 0

/-- The `switch (bit)` under `!readPowerPadD3()`: the mask or-ed in (0: no case). -/
def powerPadD3Case (bit : Nat) : Nat :=
  match bit with
  | 0 => POWERPAD_BTN_2
  | 1 => POWERPAD_BTN_1
  | 2 => POWERPAD_BTN_5
  | 3 => POWERPAD_BTN_9
  | 4 => POWERPAD_BTN_6
  | 5 => POWERPAD_BTN_10
  | 6 => POWERPAD_BTN_11
  | 7 => POWERPAD_BTN_7
  | _ => 0

/-- `return (currentState.powerPadButtons != 0);` -/
def detectPowerPad (c : NESController) : Bool := c.currentState.powerPadButtons != 0

/-- The body of the `for (uint8_t bit = 0; bit < 8; bit++)` loop of `readController`. -/
def readBit (pins : Pins) (bit : Nat) (c : NESController) : NESController :=
  let d := readDataBit pins c.hw
  let c := { c with hw := d.2 }
  let c := if !d.1 then
      { c with currentState := { c.currentState with
          standardButtons := (c.currentState.standardButtons ||| (1 <<< bit)) % 256 } }
    else c
  let d4 := readPowerPadD4 pins c.hw
  let c := { c with hw := d4.2 }
  let c := if !d4.1 then
      { c with currentState := { c.currentState with
          powerPadButtons := (c.currentState.powerPadButtons ||| powerPadD4Case bit) % 65536 } }
    else c
  let d3 := readPowerPadD3 pins c.hw
  let c := { c with hw := d3.2 }
  let c := if !d3.1 then
      { c with currentState := { c.currentState with
          powerPadButtons := (c.currentState.powerPadButtons ||| powerPadD3Case bit) % 65536 } }
    else c
  { c with hw := sendClock c.hw }

/-- `NESControllerState NESController::readController()`; the returned snapshot
is `currentState` of the result. -/
def readController (pins : Pins) (c : NESController) : NESController :=
  let c := { c with
    currentState := { standardButtons := 0, powerPadButtons := 0, powerPadConnected := false } }
  let c := { c with hw := sendLatch c.hw }
  let c := forLoop (readBit pins) 8 0 c
  let c := { c with currentState := { c.currentState with powerPadConnected := detectPowerPad c } }
  { c with
    controllerConnected :=
      (c.currentState.standardButtons != 0xFF) || c.currentState.powerPadConnected }

end NESController

/-! ## SNESController -/

def SNES_BTN_B : Nat := 0x0001
def SNES_BTN_Y : Nat := 0x0002
def SNES_BTN_SELECT : Nat := 0x0004
def SNES_BTN_START : Nat := 0x0008
def SNES_BTN_UP : Nat := 0x0010
def SNES_BTN_DOWN : Nat := 0x0020
def SNES_BTN_LEFT : Nat := 0x0040
def SNES_BTN_RIGHT : Nat := 0x0080
def SNES_BTN_A : Nat := 0x0100
def SNES_BTN_X : Nat := 0x0200
def SNES_BTN_L : Nat := 0x0400
def SNES_BTN_R : Nat := 0x0800

def NTT_KEY_0 : Nat := 0x00010000
def NTT_KEY_1 : Nat := 0x00020000
def NTT_KEY_2 : Nat := 0x00040000
def NTT_KEY_3 : Nat := 0x00080000
def NTT_KEY_4 : Nat := 0x00100000
def NTT_KEY_5 : Nat := 0x00200000
def NTT_KEY_6 : Nat := 0x00400000
def NTT_KEY_7 : Nat := 0x00800000
def NTT_KEY_8 : Nat := 0x01000000
def NTT_KEY_9 : Nat := 0x02000000
def NTT_KEY_STAR : Nat := 0x04000000
def NTT_KEY_HASH : Nat := 0x08000000
def NTT_KEY_DOT : Nat := 0x10000000
def NTT_KEY_CLEAR : Nat := 0x20000000
def NTT_KEY_END : Nat := 0x80000000

def SNES_STANDARD_BITS : Nat := 16
def SNES_EXTENDED_BITS : Nat := 32
def NTT_INDICATOR_BIT : Nat := 13

/-- The snapshot `SNESControllerState`: `uint16_t`, `uint32_t`, `bool`, `uint8_t`. -/
structure SNESControllerState where
  standardButtons : Nat
  nttKeypad : Nat
  nttConnected : Bool
  playerNumber : Nat
  deriving DecidableEq, Repr

/-- The driver object together with the board it drives. -/
structure SNESController where
  currentState : SNESControllerState
  controllerConnected : Bool
  currentPlayer : Nat
  hw : Hw

namespace SNESController

/-- `currentState.* = 0 / false; playerNumber = currentPlayer; controllerConnected = false;` -/
def reset (c : SNESController) : SNESController :=
  { c with
    currentState := { standardButtons := 0, nttKeypad := 0, nttConnected := false,
                      playerNumber := c.currentPlayer }
    controllerConnected := false }

def getState (c : SNESController) : SNESControllerState := c.currentState

def isConnected (c : SNESController) : Bool := c.controllerConnected

def isNTTConnected (c : SNESController) : Bool := c.currentState.nttConnected

/-- `if (player >= 1 && player <= 4) { currentPlayer = player; playerNumber = player; }` -/
def setPlayerNumber (player : Nat) (c : SNESController) : SNESController :=
  if 1 ≤ player ∧ player ≤ 4 then
    { c with currentPlayer := player
             currentState := { c.currentState with playerNumber := player } }
  else c

/-- `return (PINF & B01000000) != 0;` -/
def readDataBit (pins : Pins) (hw : Hw) : Bool × Hw :=
  let r := readPort pins.PINF hw
  (r.1 &&& 0x40 != 0, r.2)

/-- The `switch (bit - SNES_STANDARD_BITS)` of `readNTTKeypad`, on the `int`
value of the difference: the mask or-ed in (0: no case). -/
def nttKeyCase (d : Int) : Nat :=
  if d = 0 then NTT_KEY_0
  else if d = 1 then NTT_KEY_1
  else if d = 2 then NTT_KEY_2
  else if d = 3 then NTT_KEY_3
  else if d = 4 then NTT_KEY_4
  else if d = 5 then NTT_KEY_5
  else if d = 6 then NTT_KEY_6
  else if d = 7 then NTT_KEY_7
  else if d = 8 then NTT_KEY_8
  else if d = 9 then NTT_KEY_9
  else if d = 10 then NTT_KEY_STAR
  else if d = 11 then NTT_KEY_HASH
  else if d = 12 then NTT_KEY_DOT
  else if d = 13 then NTT_KEY_CLEAR
  else if d = 15 then NTT_KEY_END
  else 0

/-- `uint32_t SNESController::readNTTKeypad(uint8_t bit)`: two reads of `PIND`
(D2 at bit 2, D3 at bit 3); the D3 branch is empty. -/
def readNTTKeypad (pins : Pins) (bit : Nat) (hw : Hw) : Nat × Hw :=
  let keypadData := 0
  let d2 := readPort pins.PIND hw
  let keypadData :=
    if d2.1 &&& 0x04 == 0 then
      (keypadData ||| nttKeyCase ((bit : Int) - (SNES_STANDARD_BITS : Int))) % 2 ^ 32
    else keypadData
  let d3 := readPort pins.PIND d2.2
  let keypadData := if d3.1 &&& 0x08 == 0 then keypadData else keypadData
  (keypadData, d3.2)

def detectNTTKeypad (c : SNESController) : Bool := c.currentState.nttConnected

/-- The body of the loop of `processNTTExtended`. -/
def extendedBit (pins : Pins) (bit : Nat) (c : SNESController) : SNESController :=
  let k := readNTTKeypad pins bit c.hw
  { c with
    currentState := { c.currentState with
      nttKeypad := (c.currentState.nttKeypad ||| k.1) % 2 ^ 32 }
    hw := sendClock k.2 }

/-- `for (uint8_t bit = startBit; bit < SNES_EXTENDED_BITS; bit++) ...` -/
def processNTTExtended (pins : Pins) (startBit : Nat) (c : SNESController) : SNESController :=
  forLoop (extendedBit pins) (SNES_EXTENDED_BITS - startBit) startBit c

/-- The body of the `for (uint8_t bit = 0; bit < SNES_STANDARD_BITS; bit++)` loop
of `readController`.  The indicator check reads the data line a second time,
and only when `bit == NTT_INDICATOR_BIT` (short-circuit `&&`). -/
def readBit (pins : Pins) (bit : Nat) (c : SNESController) : SNESController :=
  let d := readDataBit pins c.hw
  let c := { c with hw := d.2 }
  let c := if !d.1 then
      { c with currentState := { c.currentState with
          standardButtons := (c.currentState.standardButtons ||| (1 <<< bit)) % 65536 } }
    else c
  let c :=
    if bit = NTT_INDICATOR_BIT then
      let i := readDataBit pins c.hw
      let c := { c with hw := i.2 }
      if !i.1 then { c with currentState := { c.currentState with nttConnected := true } }
      else c
    else c
  { c with hw := sendClock c.hw }

/-- `SNESControllerState SNESController::readController()`; the returned
snapshot is `currentState` of the result. -/
def readController (pins : Pins) (c : SNESController) : SNESController :=
  let c := { c with
    currentState := { c.currentState with
      standardButtons := 0, nttKeypad := 0, nttConnected := false } }
  let c := { c with hw := sendLatch c.hw }
  let c := forLoop (readBit pins) SNES_STANDARD_BITS 0 c
  let c := if c.currentState.nttConnected then processNTTExtended pins SNES_STANDARD_BITS c else c
  { c with
    controllerConnected :=
      (c.currentState.standardButtons != 0xFFFF) || c.currentState.nttConnected }

end SNESController

/-! ## N64Controller -/

/-- Modelled from the spec: `N64_EXPANSION_WRITE` is declared in
`N64_Controller.h`, which is not among the sources; the value is the one the
comment at its use states. -/
def N64_EXPANSION_WRITE : Nat := 0x03

/-- Modelled from the spec: `RUMBLEPAK_INIT_ADDRESS` is declared in
`N64_Controller.h`, which is not among the sources; the value is the one the
comment in `initializeRumblePak` states. -/
def RUMBLEPAK_INIT_ADDRESS : Nat := 0x8001

/-- Modelled from the spec: `RUMBLEPAK_CTRL_ADDRESS` is declared in
`N64_Controller.h`, which is not among the sources; the value is the one the
comment in `setRumble` states. -/
def RUMBLEPAK_CTRL_ADDRESS : Nat := 0xC01B

/-- Modelled from the spec: the macros `N64_LOW`, `N64_HIGH` and `N64_QUERY` are
declared in `N64_Controller.h`, which is not among the sources.  The line is
single, bidirectional and idle-high: `N64_LOW` pulls it low, `N64_HIGH` releases
it, and both are kept as events next to `__builtin_avr_delay_cycles`. -/
inductive LineEvent where
  | low
  | high
  | delay (n : Nat)
  deriving DecidableEq, Repr

/-- The wire: what has been driven so far, and how many times `N64_QUERY` has
been evaluated.  The peer is a stream `q : Nat → Nat`: the `k`-th evaluation of
`N64_QUERY` (counted from 0) yields `q k`, non-zero meaning line high. -/
structure Wire where
  events : List LineEvent
  queries : Nat

/-- A byte buffer in memory, addressed from its first element. -/
abbrev Buffer := Nat → Nat

/-- `buf[i] = v` for a `char` / `unsigned char` element. -/
def poke (buf : Buffer) (i v : Nat) : Buffer := fun j => if j = i then v % 256 else buf j

/-- `memcpy(&dst[off], src, n)`. -/
def memcpyAt (dst : Buffer) (off : Nat) (src : Buffer) (n : Nat) : Buffer :=
  fun j => if off ≤ j ∧ j < off + n then src (j - off) % 256 else dst j

/-- `memset(&dst[off], v, n)`. -/
def memsetAt (dst : Buffer) (off v n : Nat) : Buffer :=
  fun j => if off ≤ j ∧ j < off + n then v % 256 else dst j

/-- Modelled from the spec: the struct behind `N64_status` is declared in
`N64_Controller.h`, which is not among the sources; its four fields are the
four response bytes (buttons, extended buttons, two joystick axes), each kept
as a byte 0..255. -/
structure N64Status where
  data1 : Nat
  data2 : Nat
  stick_x : Nat
  stick_y : Nat
  deriving DecidableEq, Repr

structure N64Controller where
  N64_status : N64Status
  N64_raw_dump : Buffer
  rumbleEnabled : Bool
  rumblePakDetected : Bool
  wire : Wire

/-- Outcome of a bounded wait: whether the awaited level arrived before the
timeout counter reached zero, and the wire afterwards. -/
structure Waited where
  arrived : Bool
  wire : Wire

/-- The loop `while (c) { if (!--timeout) return; }` for an `unsigned char timeout`
that starts at a non-zero constant, where `c` is `N64_QUERY` when `busy` is true
and `!N64_QUERY` when it is false. -/
def spinWhile (q : Nat → Nat) (busy : Bool) : Nat → Wire → Waited
  | 0, w => ⟨false, w⟩
  | timeout + 1, w =>
    let level := q w.queries != 0
    let w := { w with queries := w.queries + 1 }
    if level == busy then
      if timeout = 0 then ⟨false, w⟩ else spinWhile q busy timeout w
    else ⟨true, w⟩

namespace N64Controller

/-- The body of `for (int i=0; i<8; i++)` in `translate_N64_data`. -/
def translateBit (i : Nat) (c : N64Controller) : N64Controller :=
  let r := c.N64_raw_dump
  { c with N64_status :=
    { data1 := (c.N64_status.data1 ||| (if r i ≠ 0 then 0x80 >>> i else 0)) % 256
      data2 := (c.N64_status.data2 ||| (if r (8 + i) ≠ 0 then 0x80 >>> i else 0)) % 256
      stick_x := (c.N64_status.stick_x ||| (if r (16 + i) ≠ 0 then 0x80 >>> i else 0)) % 256
      stick_y := (c.N64_status.stick_y ||| (if r (24 + i) ≠ 0 then 0x80 >>> i else 0)) % 256 } }

/-- `void N64Controller::translate_N64_data()`. -/
def translate_N64_data (c : N64Controller) : N64Controller :=
  let c := { c with N64_status := { data1 := 0, data2 := 0, stick_x := 0, stick_y := 0 } }
  forLoop translateBit 8 0 c

/-- One transmitted bit: `N64_LOW`, then the pulse-width encoding of the top
bit of the byte. -/
def sendBitEvents (byte : Nat) : List LineEvent :=
  if byte >>> 7 ≠ 0 then [.low, .delay 5, .high, .delay 40] else [.low, .delay 40, .high]

/-- The `inner_loop:` of `N64_send_data_request`, entered with `bits` bits to
go (`bits` is set to 8 before it). -/
def innerLoop (i : Nat) : Nat → Buffer → List LineEvent → Buffer × List LineEvent
  | 0, buffer, ev => (buffer, ev)
  | bits + 1, buffer, ev =>
    let ev := ev ++ sendBitEvents (buffer i)
    if bits ≠ 0 then innerLoop i bits (poke buffer i (buffer i <<< 1)) (ev ++ [LineEvent.delay 8])
    else (buffer, ev)

/-- The `outer_loop:` of `N64_send_data_request`, entered with `length` bytes to
go (`length must be at least 1`), `i` being the offset of `buffer`. -/
def outerLoop : Nat → Nat → Buffer → List LineEvent → Buffer × List LineEvent
  | 0, _, buffer, ev => (buffer, ev)
  | length + 1, i, buffer, ev =>
    let r := innerLoop i 8 buffer ev
    if length ≠ 0 then outerLoop length (i + 1) r.1 r.2 else r

/-- The stop bit: `delay(8); N64_LOW; delay(16); N64_HIGH;`. -/
def stopBitEvents : List LineEvent := [.delay 8, .low, .delay 16, .high]

/-- Outcome of the receive phase of `N64_send_data_request`: the receive
buffer, the offset `bitbin` has reached (the number of samples stored), and the
wire. -/
structure Received where
  dump : Buffer
  bitbin : Nat
  wire : Wire

/-- The `read_loop:` of `N64_send_data_request`, entered with `bitcount` bits to
go and `bitbin` the offset of the next entry of `N64_raw_dump`. -/
def readLoop (q : Nat → Nat) : Nat → Nat → Buffer → Wire → Received
  | 0, bitbin, dump, w => ⟨dump, bitbin, w⟩
  | bitcount + 1, bitbin, dump, w =>
    let a := spinWhile q true 0x7f w
    if !a.arrived then ⟨dump, bitbin, a.wire⟩ else
    let w := { a.wire with events := a.wire.events ++ [LineEvent.delay 32] }
    let dump := poke dump bitbin (q w.queries)
    let w := { w with queries := w.queries + 1 }
    let bitbin := bitbin + 1
    if bitcount = 0 then ⟨dump, bitbin, w⟩ else
    let b := spinWhile q false 0x3f w
    if !b.arrived then ⟨dump, bitbin, b.wire⟩ else
    readLoop q bitcount bitbin dump b.wire

/-- The receive phase of `N64_send_data_request` (from `timeout = 0x7f;` on),
with `bitcount = 32` and `bitbin = N64_raw_dump`. -/
def receive (q : Nat → Nat) (dump : Buffer) (w : Wire) : Received :=
  let a := spinWhile q false 0x7f w
  if !a.arrived then ⟨dump, 0, a.wire⟩ else
  readLoop q 32 0 dump a.wire

/-- The transmit phase of `N64_send_data_request`, stop bit included: the
caller's buffer as it is left, and the events driven. -/
def transmit (buffer : Buffer) (length : Nat) (ev : List LineEvent) :
    Buffer × List LineEvent :=
  let t := outerLoop length 0 buffer ev
  (t.1, t.2 ++ stopBitEvents)

/-- `void N64Controller::N64_send_data_request(unsigned char *buffer, char length)`;
returns the caller's buffer as the transmit phase leaves it. -/
def N64_send_data_request (q : Nat → Nat) (buffer : Buffer) (length : Nat)
    (c : N64Controller) : Buffer × N64Controller :=
  let t := transmit buffer length c.wire.events
  let r := receive q c.N64_raw_dump { c.wire with events := t.2 }
  (t.1, { c with N64_raw_dump := r.dump, wire := r.wire })

/-- The local `N64Command[] = {0x01}` of `getN64Packet`. -/
def N64Command : Buffer := fun j => if j = 0 then 0x01 else 0

/-- `void N64Controller::getN64Packet()`. -/
def getN64Packet (q : Nat → Nat) (c : N64Controller) : N64Controller :=
  let c := (N64_send_data_request q N64Command 1 c).2
  translate_N64_data c

/-- The `while (bits != 0)` loop of `sendRumbleCommand`. -/
def rumbleBits (i : Nat) : Nat → Buffer → List LineEvent → Buffer × List LineEvent
  | 0, buffer, ev => (buffer, ev)
  | bits + 1, buffer, ev =>
    let ev := ev ++ sendBitEvents (buffer i)
    if bits ≠ 0 then rumbleBits i bits (poke buffer i (buffer i <<< 1)) (ev ++ [LineEvent.delay 8])
    else rumbleBits i bits buffer ev

/-- The body of `for (int i = 0; i < length; i++)` in `sendRumbleCommand`. -/
def rumbleByte (i : Nat) (s : Buffer × List LineEvent) : Buffer × List LineEvent :=
  rumbleBits i 8 s.1 s.2

/-- Outcome of the read phase of `sendRumbleCommand`: whether it ran to the end
(`Response received successfully`) or returned on a timeout, the local
`response_byte`, and the wire afterwards. -/
structure RumbleResponse where
  completed : Bool
  response_byte : Nat
  wire : Wire

/-- The loop `for (int bit = 7; bit >= 0; bit--)` of `sendRumbleCommand`, entered
with `n = bit + 1`. -/
def rumbleReadBits (q : Nat → Nat) : Nat → Nat → Wire → RumbleResponse
  | 0, response_byte, w => ⟨true, response_byte, w⟩
  | bit + 1, response_byte, w =>
    let a := spinWhile q true 0x7f w
    if !a.arrived then ⟨false, response_byte, a.wire⟩ else
    let w := { a.wire with events := a.wire.events ++ [LineEvent.delay 32] }
    let response_byte :=
      if q w.queries ≠ 0 then (response_byte ||| (1 <<< bit)) % 256 else response_byte
    let w := { w with queries := w.queries + 1 }
    let b := spinWhile q false 0x3f w
    if !b.arrived then ⟨false, response_byte, b.wire⟩ else
    rumbleReadBits q bit response_byte b.wire

/-- The read phase of `sendRumbleCommand`. -/
def rumbleResponse (q : Nat → Nat) (w : Wire) : RumbleResponse :=
  let a := spinWhile q false 0x7f w
  if !a.arrived then ⟨false, 0, a.wire⟩ else
  rumbleReadBits q 8 0 a.wire

/-- The whole exchange of `sendRumbleCommand`: the private copy, the transmit
phase with its stop bit, and the read phase. -/
def rumbleExchange (q : Nat → Nat) (buffer : Buffer) (length : Nat) (w : Wire) :
    RumbleResponse :=
  let temp_buffer : Buffer := memcpyAt (fun _ => 0) 0 buffer length
  let t := forLoop rumbleByte length 0 (temp_buffer, w.events)
  rumbleResponse q { w with events := t.2 ++ stopBitEvents }

/-- `void N64Controller::sendRumbleCommand(unsigned char* buffer, int length)`:
the function returns nothing, so of the response only the wire survives. -/
def sendRumbleCommand (q : Nat → Nat) (buffer : Buffer) (length : Nat)
    (c : N64Controller) : N64Controller :=
  { c with wire := (rumbleExchange q buffer length c.wire).wire }

/-- The 35-byte `command` of `writeMemoryPak`, `data = none` standing for `NULL`. -/
def writeMemoryPakCommand (address : Nat) (data : Option Buffer) (length : Int) : Buffer :=
  let command : Buffer := fun _ => 0
  let command := poke command 0 N64_EXPANSION_WRITE
  let command := poke command 1 ((address >>> 8) &&& 0xFF)
  let command := poke command 2 (address &&& 0xFF)
  match data with
  | some d =>
    if length > 0 then
      let command := memcpyAt command 3 d (min length 32).toNat
      if length < 32 then memsetAt command (3 + length.toNat) 0x00 (32 - length).toNat
      else command
    else memsetAt command 3 0x00 32
  | none => memsetAt command 3 0x00 32

/-- `bool N64Controller::writeMemoryPak(unsigned short address, unsigned char* data, int length)`. -/
def writeMemoryPak (q : Nat → Nat) (address : Nat) (data : Option Buffer) (length : Int)
    (c : N64Controller) : Bool × N64Controller :=
  let command := writeMemoryPakCommand address data length
  let c := sendRumbleCommand q command 35 c
  (true, c)

/-- The local `init_data` of `initializeRumblePak`: `memset(init_data, 0x80, 32)`. -/
def init_data : Buffer := memsetAt (fun _ => 0) 0 0x80 32

/-- `bool N64Controller::initializeRumblePak()`. -/
def initializeRumblePak (q : Nat → Nat) (c : N64Controller) : Bool × N64Controller :=
  let r := writeMemoryPak q RUMBLEPAK_INIT_ADDRESS (some init_data) 32 c
  let success := r.1
  let c := if success then { r.2 with rumblePakDetected := true } else r.2
  (success, c)

/-- `bool N64Controller::checkRumblePak()`. -/
def checkRumblePak (q : Nat → Nat) (c : N64Controller) : Bool × N64Controller :=
  initializeRumblePak q c

/-- `void N64Controller::setRumble(bool enable)`. -/
def setRumble (q : Nat → Nat) (enable : Bool) (c : N64Controller) : N64Controller :=
  let r : Bool × N64Controller :=
    if !c.rumblePakDetected then checkRumblePak q c else (true, c)
  if !r.1 then r.2 else
  let c := { r.2 with rumbleEnabled := enable }
  let rumble_data : Buffer :=
    if enable then memsetAt (fun _ => 0) 0 0x01 32 else memsetAt (fun _ => 0) 0 0x00 32
  (writeMemoryPak q RUMBLEPAK_CTRL_ADDRESS (some rumble_data) 32 c).2

end N64Controller

/-! ## Vocabulary of the statements -/

/-- A board before any poll. -/
def Hw.boot : Hw := { PORTD := 0, trace := [], clocks := 0, reads := 0 }

/-- Input ports that show the same three bytes at every read. -/
def Pins.steady (f b d : Nat) : Pins :=
  { PINF := fun _ _ => f, PINB := fun _ _ => b, PIND := fun _ _ => d }

namespace NESController

/-- `NESController::NESController()`: `controllerConnected = false; reset();`. -/
def new (hw : Hw) : NESController :=
  reset { currentState := { standardButtons := 0, powerPadButtons := 0, powerPadConnected := false }
          controllerConnected := false
          hw := hw }

/-- Level of the primary data line (PF7) at the sample of bit `i`: the first
input read after exactly `i` clock pulses. -/
def dataHigh (pins : Pins) (i : Nat) : Bool := pins.PINF i 0 &&& 0x80 != 0

/-- Level of the Power Pad line D4 (PB5) at the sample of bit `i`. -/
def d4High (pins : Pins) (i : Nat) : Bool := pins.PINB i 1 &&& 0x20 != 0

/-- Level of the Power Pad line D3 (PB4) at the sample of bit `i`. -/
def d3High (pins : Pins) (i : Nat) : Bool := pins.PINB i 2 &&& 0x10 != 0

/-- Every sample of the three data lines of the NES port reads logic-high. -/
def idle (pins : Pins) : Prop :=
  ∀ c r, pins.PINF c r &&& 0x80 ≠ 0 ∧ pins.PINB c r &&& 0x20 ≠ 0 ∧ pins.PINB c r &&& 0x10 ≠ 0

/-- The two auxiliary lines of the Power Pad. -/
inductive PadLine where
  | D4
  | D3
  deriving DecidableEq, Repr

/-- The two `switch` tables of `readController`, by line. -/
def powerPadCase : PadLine → Nat → Nat
  | .D4, bit => powerPadD4Case bit
  | .D3, bit => powerPadD3Case bit

/-- Level of an auxiliary line at the sample of bit `i`. -/
def padHigh (pins : Pins) : PadLine → Nat → Bool
  | .D4, i => d4High pins i
  | .D3, i => d3High pins i

end NESController

namespace SNESController

/-- `SNESController::SNESController()`: `controllerConnected = false; currentPlayer = 1; reset();`. -/
def new (hw : Hw) : SNESController :=
  reset { currentState := { standardButtons := 0, nttKeypad := 0, nttConnected := false,
                            playerNumber := 0 }
          controllerConnected := false
          currentPlayer := 1
          hw := hw }

/-- Level of the primary data line (PF6) at the sample of bit `i`: the first
input read after exactly `i` clock pulses. -/
def dataHigh (pins : Pins) (i : Nat) : Bool := pins.PINF i 0 &&& 0x40 != 0

/-- Level of the primary data line at the indicator check: the second read made
after exactly `NTT_INDICATOR_BIT` clock pulses. -/
def indicatorHigh (pins : Pins) : Bool := pins.PINF NTT_INDICATOR_BIT 1 &&& 0x40 != 0

/-- Level of the keypad line D2 (PD2) in extension cycle `k`: the first input
read after exactly `16 + k` clock pulses. -/
def d2High (pins : Pins) (k : Nat) : Bool := pins.PIND (SNES_STANDARD_BITS + k) 0 &&& 0x04 != 0

/-- Every sample of the three data lines of the SNES port reads logic-high. -/
def idle (pins : Pins) : Prop :=
  ∀ c r, pins.PINF c r &&& 0x40 ≠ 0 ∧ pins.PIND c r &&& 0x04 ≠ 0 ∧ pins.PIND c r &&& 0x08 ≠ 0

end SNESController

namespace N64Controller

/-- `N64Controller::N64Controller()`: both rumble flags false; the status and
the receive buffer start zeroed. -/
def new : N64Controller :=
  { N64_status := { data1 := 0, data2 := 0, stick_x := 0, stick_y := 0 }
    N64_raw_dump := fun _ => 0
    rumbleEnabled := false
    rumblePakDetected := false
    wire := { events := [], queries := 0 } }

/-- The bits of a byte sequence as the peer sends them: bytes in order, most
significant bit of each byte first, one entry (1 or 0) per bit. -/
def msbFirstBits (bytes : List Nat) : Buffer :=
  fun j => (bytes.getD (j / 8) 0 >>> (7 - j % 8)) % 2

/-- A line that is never pulled low: every `N64_QUERY` reads high. -/
def silent (q : Nat → Nat) : Prop := ∀ k, q k ≠ 0

/-- The receive phase of the status query made by `getN64Packet`. -/
def statusReceive (q : Nat → Nat) (c : N64Controller) : Received :=
  receive q c.N64_raw_dump { c.wire with events := (transmit N64Command 1 c.wire.events).2 }

/-- The exchange `initializeRumblePak` makes through `writeMemoryPak`. -/
def initExchange (q : Nat → Nat) (c : N64Controller) : RumbleResponse :=
  rumbleExchange q (writeMemoryPakCommand RUMBLEPAK_INIT_ADDRESS (some init_data) 32) 35 c.wire

end N64Controller

/-! ## Loop invariants of the two polls -/

namespace NESController

/-- The driver as the loop of `readController` finds it. -/
def latched (c : NESController) : NESController :=
  { currentState := { standardButtons := 0, powerPadButtons := 0, powerPadConnected := false }
    controllerConnected := c.controllerConnected
    hw := sendLatch c.hw }

/-- State of the poll after the first `k` bits. -/
structure Polled (pins : Pins) (c0 : NESController) (k : Nat) (c : NESController) : Prop where
  clocks : c.hw.clocks = k
  reads : c.hw.reads = 0
  std : ∀ j, c.currentState.standardButtons.testBit j = (decide (j < k) && !dataHigh pins j)
  pad_lt : c.currentState.powerPadButtons < 2 ^ 12
  pad : ∀ j, c.currentState.powerPadButtons.testBit j = true ↔
    ∃ l b, b < k ∧ padHigh pins l b = false ∧ (powerPadCase l b).testBit j = true
  present : c.currentState.powerPadConnected = false
  connected : c.controllerConnected = c0.controllerConnected

end NESController

namespace SNESController

/-- The driver as the loop of `readController` finds it. -/
def latched (c : SNESController) : SNESController :=
  { currentState := { standardButtons := 0, nttKeypad := 0, nttConnected := false,
                      playerNumber := c.currentState.playerNumber }
    controllerConnected := c.controllerConnected
    currentPlayer := c.currentPlayer
    hw := sendLatch c.hw }

/-- State of the poll after the first `k` standard bits. -/
structure Polled (pins : Pins) (c0 : SNESController) (k : Nat) (c : SNESController) : Prop where
  clocks : c.hw.clocks = k
  reads : c.hw.reads = 0
  std : ∀ j, c.currentState.standardButtons.testBit j = (decide (j < k) && !dataHigh pins j)
  keypad : c.currentState.nttKeypad = 0
  present : c.currentState.nttConnected = (decide (NTT_INDICATOR_BIT < k) && !indicatorHigh pins)
  player : c.currentState.playerNumber = c0.currentState.playerNumber
  current : c.currentPlayer = c0.currentPlayer
  connected : c.controllerConnected = c0.controllerConnected

/-- State of the poll after the extension cycles up to bit `i` (from bit 16),
`c1` being the driver at the end of the standard bits. -/
structure Extended (pins : Pins) (c1 : SNESController) (i : Nat) (c : SNESController) : Prop where
  clocks : c.hw.clocks = i
  reads : c.hw.reads = 0
  std : c.currentState.standardButtons = c1.currentState.standardButtons
  keypad_lt : c.currentState.nttKeypad < 2 ^ 32
  keypad : ∀ m, c.currentState.nttKeypad.testBit m = true ↔
    ∃ k, SNES_STANDARD_BITS + k < i ∧ d2High pins k = false ∧ (nttKeyCase (k : Int)).testBit m = true
  present : c.currentState.nttConnected = c1.currentState.nttConnected
  player : c.currentState.playerNumber = c1.currentState.playerNumber
  current : c.currentPlayer = c1.currentPlayer
  connected : c.controllerConnected = c1.controllerConnected

end SNESController

namespace NESController

/-- Where Power Pad button `n` (1..12) sits in the two `switch` tables of
`readController`: its line and bit index. -/
def powerPadPosition : Nat → PadLine × Nat
  | 1 => (.D3, 1)
  | 2 => (.D3, 0)
  | 3 => (.D4, 1)
  | 4 => (.D4, 0)
  | 5 => (.D3, 2)
  | 6 => (.D3, 4)
  | 7 => (.D3, 7)
  | 8 => (.D4, 3)
  | 9 => (.D3, 3)
  | 10 => (.D3, 5)
  | 11 => (.D3, 6)
  | _ => (.D4, 2)

end NESController

namespace N64Controller

/-- State of `translate_N64_data` after the first `k` rounds of its loop, `r`
being the receive buffer. -/
structure Translated (r : Buffer) (k : Nat) (c : N64Controller) : Prop where
  dump : c.N64_raw_dump = r
  d1 : ∀ j, c.N64_status.data1.testBit j = decide (j < 8 ∧ 7 - j < k ∧ r (0 + (7 - j)) ≠ 0)
  d2 : ∀ j, c.N64_status.data2.testBit j = decide (j < 8 ∧ 7 - j < k ∧ r (8 + (7 - j)) ≠ 0)
  sx : ∀ j, c.N64_status.stick_x.testBit j = decide (j < 8 ∧ 7 - j < k ∧ r (16 + (7 - j)) ≠ 0)
  sy : ∀ j, c.N64_status.stick_y.testBit j = decide (j < 8 ∧ 7 - j < k ∧ r (24 + (7 - j)) ≠ 0)

end N64Controller

namespace N64Controller

/-- The wire on entry to round `i` of `read_loop:` when the rounds before it
met no timeout, `w` being the wire on entry to round 0. -/
def roundWire (q : Nat → Nat) (w : Wire) : Nat → Wire
  | 0 => w
  | i + 1 =>
    let a := (spinWhile q true 0x7f (roundWire q w i)).wire
    (spinWhile q false 0x3f
      { events := a.events ++ [LineEvent.delay 32], queries := a.queries + 1 }).wire

/-- The position in the stream of the evaluation of `N64_QUERY` that samples
bit `i` (`*bitbin = N64_QUERY`) in `read_loop:`. -/
def sampleCursor (q : Nat → Nat) (w : Wire) (i : Nat) : Nat :=
  (spinWhile q true 0x7f (roundWire q w i)).wire.queries

/-- The wire on entry to `read_loop:` in the status query of `getN64Packet`. -/
def statusWire (q : Nat → Nat) (c : N64Controller) : Wire :=
  (spinWhile q false 0x7f
    { c.wire with events := (transmit N64Command 1 c.wire.events).2 }).wire

/-- A peer that answers every request with zero bits: the line is high when
first looked at, then for each bit low at the falling edge, low when sampled,
and high again afterwards. -/
def zeroPeer : Nat → Nat := fun k => if k % 3 = 0 then 1 else 0

end N64Controller

namespace N64Controller

/-- The `command` buffer of `writeMemoryPak` as statement by statement it is
built over whatever the stack held before, `stack`; `writeMemoryPakCommand`
is the case of a zeroed stack. -/
def writeMemoryPakCommandOver (stack : Buffer) (address : Nat) (data : Option Buffer)
    (length : Int) : Buffer :=
  let command : Buffer := stack
  let command := poke command 0 N64_EXPANSION_WRITE
  let command := poke command 1 ((address >>> 8) &&& 0xFF)
  let command := poke command 2 (address &&& 0xFF)
  match data with
  | some d =>
    if length > 0 then
      let command := memcpyAt command 3 d (min length 32).toNat
      if length < 32 then memsetAt command (3 + length.toNat) 0x00 (32 - length).toNat
      else command
    else memsetAt command 3 0x00 32
  | none => memsetAt command 3 0x00 32

/-- `void N64Controller::setRumble(bool enable)` with the call `checkRumblePak()`
left open: `check` is whatever that call does and returns. -/
def setRumbleWith (check : N64Controller → Bool × N64Controller) (q : Nat → Nat)
    (enable : Bool) (c : N64Controller) : N64Controller :=
  let r : Bool × N64Controller :=
    if !c.rumblePakDetected then check c else (true, c)
  if !r.1 then r.2 else
  let c := { r.2 with rumbleEnabled := enable }
  let rumble_data : Buffer :=
    if enable then memsetAt (fun _ => 0) 0 0x01 32 else memsetAt (fun _ => 0) 0 0x00 32
  (writeMemoryPak q RUMBLEPAK_CTRL_ADDRESS (some rumble_data) 32 c).2

/-- The command `initializeRumblePak` hands to `sendRumbleCommand`. -/
def initCommand : Buffer := writeMemoryPakCommand RUMBLEPAK_INIT_ADDRESS (some init_data) 32

/-- The command `setRumble(enable)` hands to `sendRumbleCommand`. -/
def ctrlCommand (enable : Bool) : Buffer :=
  writeMemoryPakCommand RUMBLEPAK_CTRL_ADDRESS
    (some (if enable then memsetAt (fun _ => 0) 0 0x01 32 else memsetAt (fun _ => 0) 0 0x00 32)) 32

/-- The `n` bytes of a buffer from offset `i` on. -/
def bytesOf (buffer : Buffer) : Nat → Nat → List Nat
  | _, 0 => []
  | i, n + 1 => buffer i :: bytesOf buffer (i + 1) n

/-- The pulse of one data bit on the wire: the line is pulled low, then a 1 is
low for 5 cycles and high for 40, a 0 is low for 40 cycles and then high. -/
def bitPulse (bit : Bool) : List LineEvent :=
  if bit then [.low, .delay 5, .high, .delay 40] else [.low, .delay 40, .high]

/-- The pulses of the low `n` bits of a byte, most significant first, with the
8 cycles the firmware waits between two bits of a byte. -/
def bitPulses (byte : Nat) : Nat → List LineEvent
  | 0 => []
  | n + 1 =>
    bitPulse (byte.testBit n) ++ (if n ≠ 0 then [LineEvent.delay 8] else []) ++ bitPulses byte n

/-- The pulses of a byte sequence: bytes in order, eight bits each. -/
def bytePulses : List Nat → List LineEvent
  | [] => []
  | b :: bs => bitPulses b 8 ++ bytePulses bs

/-- A whole frame on the wire: the data bits, then one stop bit (low for 16
cycles), then the line released. -/
def framePulses (bytes : List Nat) : List LineEvent :=
  bytePulses bytes ++ [LineEvent.delay 8, .low, .delay 16, .high]

end N64Controller

/-! ## Initialization and reachable driver states -/

/-- Arduino `digitalWrite(pin, LOW)` for a pin of port D: clears the bit `mask`
of `PORTD`. -/
def portDLow (mask : Nat) (hw : Hw) : Hw :=
  let v := hw.PORTD &&& (0xFF - mask)
  { hw with PORTD := v, trace := hw.trace ++ [.writePORTD v] }

/-- Arduino `pinMode(pin, INPUT_PULLUP)` for a pin of port D: sets the bit
`mask` of `PORTD` (the pull-up). -/
def portDPullup (mask : Nat) (hw : Hw) : Hw :=
  let v := (hw.PORTD ||| mask) % 256
  { hw with PORTD := v, trace := hw.trace ++ [.writePORTD v] }

namespace NESController

/-- `void NESController::init()`: latch (pin 2, PD1) and clock (pin 3, PD0) are
made outputs and driven low, the three data pins (ports F and B) get their
pull-ups, then `reset()`. -/
def init (c : NESController) : NESController :=
  reset { c with hw := portDLow 0x01 (portDLow 0x02 c.hw) }

/-- The driver states that construction followed by any sequence of `init`,
`readController` and `reset` can produce. -/
inductive Reachable : NESController → Prop where
  | new (hw : Hw) : Reachable (NESController.new hw)
  | init {c : NESController} : Reachable c → Reachable (init c)
  | readController {c : NESController} (pins : Pins) :
      Reachable c → Reachable (readController pins c)
  | reset {c : NESController} : Reachable c → Reachable (reset c)

end NESController

namespace SNESController

/-- `void SNESController::init()`: latch and clock are made outputs and driven
low, the data pin (port F) and the two NTT pins (pin 0, PD2 and pin 1, PD3)
get their pull-ups, then `reset()`. -/
def init (c : SNESController) : SNESController :=
  reset { c with hw := portDPullup 0x08 (portDPullup 0x04 (portDLow 0x01 (portDLow 0x02 c.hw))) }

/-- The driver states that construction followed by any sequence of `init`,
`readController`, `reset` and `setPlayerNumber` can produce. -/
inductive Reachable : SNESController → Prop where
  | new (hw : Hw) : Reachable (SNESController.new hw)
  | init {c : SNESController} : Reachable c → Reachable (init c)
  | readController {c : SNESController} (pins : Pins) :
      Reachable c → Reachable (readController pins c)
  | reset {c : SNESController} : Reachable c → Reachable (reset c)
  | setPlayerNumber {c : SNESController} (player : Nat) :
      Reachable c → Reachable (setPlayerNumber player c)

end SNESController

/-! ## The Genesis poll of `main.cpp` -/

def SC_BTN_UP : Nat := 1
def SC_BTN_DOWN : Nat := 2
def SC_BTN_LEFT : Nat := 4
def SC_BTN_RIGHT : Nat := 8
def SC_BIT_SH_UP : Nat := 0
def SC_BIT_SH_DOWN : Nat := 1
def SC_BIT_SH_LEFT : Nat := 2
def SC_BIT_SH_RIGHT : Nat := 3

/-- Modelled from the spec: the class `SegaController32U4` is only declared
(`SegaController32U4.h`); its implementation is not among the sources.  The
two methods `processGenesisController` calls are kept open: each acts on the
driver's private state `σ` and returns a `word`. -/
structure SegaController32U4 (σ : Type) where
  updateState : σ → Nat × σ
  getFinalState : σ → Nat × σ

/-- Modelled from the spec: `_GamepadReport` is declared in `Gamepad.h`, which is
not among the sources; these are the three fields the poll assigns, with the
values as written in `main.cpp`. -/
structure GamepadReport where
  buttons : Nat
  X : Nat
  Y : Nat
  deriving DecidableEq, Repr

/-- The report `processGenesisController` builds from `currentGenesisState`. -/
def genesisReport (currentGenesisState : Nat) : GamepadReport :=
  { buttons := currentGenesisState >>> 4
    Y := if (currentGenesisState &&& SC_BTN_DOWN) >>> SC_BIT_SH_DOWN ≠ 0 then 0x7F
      else if (currentGenesisState &&& SC_BTN_UP) >>> SC_BIT_SH_UP ≠ 0 then 0x80
      else 0
    X := if (currentGenesisState &&& SC_BTN_RIGHT) >>> SC_BIT_SH_RIGHT ≠ 0 then 0x7F
      else if (currentGenesisState &&& SC_BTN_LEFT) >>> SC_BIT_SH_LEFT ≠ 0 then 0x80
      else 0 }

/-- What a Genesis poll leaves behind: `Gamepad[GENESIS_CONTROLLER]._GamepadReport`,
the global `currentGenesisState` (`uint16_t`) and the driver. -/
structure GenesisPoll (σ : Type) where
  report : GamepadReport
  currentGenesisState : Nat
  driver : σ

/-- The body of `for(uint8_t i = 0; i < 8; i++)` in `processGenesisController`:
`currentGenesisState = genesisController.updateState();`. -/
def genesisCycle {σ : Type} (drv : SegaController32U4 σ) (_i : Nat) (p : Nat × σ) : Nat × σ :=
  let u := drv.updateState p.2
  (u.1 % 65536, u.2)

/-- `void processGenesisController()`, `cur` being `currentGenesisState` and
`report` the gamepad report before the call. -/
def processGenesisController {σ : Type} (drv : SegaController32U4 σ) (s : σ) (cur : Nat)
    (report : GamepadReport) : GenesisPoll σ :=
  let p := forLoop (genesisCycle drv) 8 0 (cur, s)
  let f := drv.getFinalState p.2
  let cur := f.1 % 65536
  let g := genesisReport cur
  { report := { report with buttons := g.buttons, Y := g.Y, X := g.X }
    currentGenesisState := cur
    driver := f.2 }

/-- The word `getFinalState` returns after eight `updateState` calls from
driver state `s`. -/
def genesisFinalWord {σ : Type} (drv : SegaController32U4 σ) (s : σ) : Nat :=
  (drv.getFinalState ((fun t => (drv.updateState t).2)^[8] s)).1

/-- A driver that counts its `updateState` calls and returns the count. -/
def countingSega : SegaController32U4 Nat :=
  { updateState := fun n => (n + 1, n + 1), getFinalState := fun n => (0x0A5, n) }

/-- A driver that counts its `updateState` calls and returns 0 from them. -/
def quietSega : SegaController32U4 Nat :=
  { updateState := fun n => (0, n + 1), getFinalState := fun n => (0x0A5, n) }

/-! ## Method calls as state transformers -/

namespace NESController

/-- A call of `readController()`: the snapshot returned (`return currentState;`)
and the driver afterwards. -/
def readControllerCall (pins : Pins) (c : NESController) : NESControllerState × NESController :=
  let c := readController pins c
  (c.currentState, c)

/-- A call of `getState()`: `return currentState;`. -/
def getStateCall (c : NESController) : NESControllerState × NESController :=
  (c.currentState, c)

/-- A call of `isConnected()`: `return controllerConnected;`. -/
def isConnectedCall (c : NESController) : Bool × NESController :=
  (c.controllerConnected, c)

/-- A call of `isPowerPadConnected()`: `return currentState.powerPadConnected;`. -/
def isPowerPadConnectedCall (c : NESController) : Bool × NESController :=
  (c.currentState.powerPadConnected, c)

end NESController

namespace SNESController

/-- A call of `readController()`: the snapshot returned (`return currentState;`)
and the driver afterwards. -/
def readControllerCall (pins : Pins) (c : SNESController) :
    SNESControllerState × SNESController :=
  let c := readController pins c
  (c.currentState, c)

/-- A call of `getState()`: `return currentState;`. -/
def getStateCall (c : SNESController) : SNESControllerState × SNESController :=
  (c.currentState, c)

/-- A call of `isConnected()`: `return controllerConnected;`. -/
def isConnectedCall (c : SNESController) : Bool × SNESController :=
  (c.controllerConnected, c)

/-- A call of `isNTTConnected()`: `return currentState.nttConnected;`. -/
def isNTTConnectedCall (c : SNESController) : Bool × SNESController :=
  (c.currentState.nttConnected, c)

end SNESController

/-! ## The drive trace of a poll -/

/-- The board after `n` further clock pulses: `sendClock` applied `n` times. -/
def clocked : Nat → Hw → Hw
  | 0, hw => hw
  | n + 1, hw => sendClock (clocked n hw)

namespace N64Controller

/-- The transmit phase of `sendRumbleCommand`, stop bit included: the private
copy is made, sent, and thrown away; only the events driven remain. -/
def rumbleTransmit (buffer : Buffer) (length : Nat) (ev : List LineEvent) : List LineEvent :=
  (forLoop rumbleByte length 0 (memcpyAt (fun _ => 0) 0 buffer length, ev)).2 ++ stopBitEvents

end N64Controller

/-! ## The SNES report of `main.cpp` -/

def UP : Nat := 0x01
def DOWN : Nat := 0x02
def LEFT : Nat := 0x04
def RIGHT : Nat := 0x08

/-- The statement `if (flag) data |= mask;` on a `uint32_t`. -/
def orIf (data flag mask : Nat) : Nat :=
  if flag ≠ 0 then (data ||| mask) % 2 ^ 32 else data

/-- What a SNES poll of `main.cpp` leaves behind: the driver,
`controllerData[SNES_CONTROLLER][BUTTONS]` and `[AXES]` (`uint32_t`), and
`Gamepad[SNES_CONTROLLER]._GamepadReport`. -/
structure SNESPoll where
  driver : SNESController
  BUTTONS : Nat
  AXES : Nat
  report : GamepadReport

/-- The part of `controllerData[SNES_CONTROLLER][BUTTONS]` that
`processSNESController` builds from the standard buttons (`// Map SNES standard
buttons`). -/
def snesStandardWord (standardButtons : Nat) : Nat :=
  let b := 0
  let b := orIf b (standardButtons &&& SNES_BTN_B) 0x01
  let b := orIf b (standardButtons &&& SNES_BTN_Y) 0x04
  let b := orIf b (standardButtons &&& SNES_BTN_A) 0x02
  let b := orIf b (standardButtons &&& SNES_BTN_X) 0x08
  let b := orIf b (standardButtons &&& SNES_BTN_L) 0x10
  let b := orIf b (standardButtons &&& SNES_BTN_R) 0x20
  let b := orIf b (standardButtons &&& SNES_BTN_START) 0x40
  orIf b (standardButtons &&& SNES_BTN_SELECT) 0x80

/-- `controllerData[SNES_CONTROLLER][BUTTONS]` as `processSNESController`
builds it from the snapshot: the standard buttons, then the two NTT terms. -/
def snesButtons (snesState : SNESControllerState) : Nat :=
  let b := snesStandardWord snesState.standardButtons
  if snesState.nttConnected then
    let b := (b ||| (snesState.nttKeypad &&& 0xFFFF)) % 2 ^ 32
    (b ||| ((((snesState.nttKeypad >>> 16) &&& 0xFF) <<< 16) % 2 ^ 32)) % 2 ^ 32
  else b

/-- `controllerData[SNES_CONTROLLER][AXES]` as `processSNESController` builds it. -/
def snesAxes (snesState : SNESControllerState) : Nat :=
  let a := 0
  let a := orIf a (snesState.standardButtons &&& SNES_BTN_UP) UP
  let a := orIf a (snesState.standardButtons &&& SNES_BTN_DOWN) DOWN
  let a := orIf a (snesState.standardButtons &&& SNES_BTN_LEFT) LEFT
  orIf a (snesState.standardButtons &&& SNES_BTN_RIGHT) RIGHT

/-- `void processSNESController()`, `report` being the gamepad report before
the call. -/
def processSNESController (pins : Pins) (c : SNESController) (report : GamepadReport) :
    SNESPoll :=
  let c := SNESController.readController pins c
  let snesState := c.currentState
  let buttons := snesButtons snesState
  let axes := snesAxes snesState
  { driver := c
    BUTTONS := buttons
    AXES := axes
    report := { report with
      buttons := buttons
      Y := if axes &&& DOWN ≠ 0 then 0x7F else if axes &&& UP ≠ 0 then 0x80 else 0
      X := if axes &&& RIGHT ≠ 0 then 0x7F else if axes &&& LEFT ≠ 0 then 0x80 else 0 } }

/-! ## The NES report of `main.cpp` -/

/-- What a NES poll of `main.cpp` leaves behind: the driver,
`controllerData[NES_CONTROLLER][BUTTONS]` and `[AXES]` (`uint32_t`), and
`Gamepad[NES_CONTROLLER]._GamepadReport`. -/
structure NESPoll where
  driver : NESController
  BUTTONS : Nat
  AXES : Nat
  report : GamepadReport

/-- `controllerData[NES_CONTROLLER][BUTTONS]` as `processNESController` builds it
from the snapshot: the four standard buttons, then the Power Pad word. -/
def nesButtons (nesState : NESControllerState) : Nat :=
  let b := 0
  let b := orIf b (nesState.standardButtons &&& NES_BTN_A) 0x02
  let b := orIf b (nesState.standardButtons &&& NES_BTN_B) 0x01
  let b := orIf b (nesState.standardButtons &&& NES_BTN_START) 0x40
  let b := orIf b (nesState.standardButtons &&& NES_BTN_SELECT) 0x80
  if nesState.powerPadConnected then (b ||| nesState.powerPadButtons) % 2 ^ 32 else b

/-- `controllerData[NES_CONTROLLER][AXES]` as `processNESController` builds it. -/
def nesAxes (nesState : NESControllerState) : Nat :=
  let a := 0
  let a := orIf a (nesState.standardButtons &&& NES_BTN_UP) UP
  let a := orIf a (nesState.standardButtons &&& NES_BTN_DOWN) DOWN
  let a := orIf a (nesState.standardButtons &&& NES_BTN_LEFT) LEFT
  orIf a (nesState.standardButtons &&& NES_BTN_RIGHT) RIGHT

/-- `void processNESController()`, `report` being the gamepad report before the
call. -/
def processNESController (pins : Pins) (c : NESController) (report : GamepadReport) :
    NESPoll :=
  let c := NESController.readController pins c
  let nesState := c.currentState
  let buttons := nesButtons nesState
  let axes := nesAxes nesState
  { driver := c
    BUTTONS := buttons
    AXES := axes
    report := { report with
      buttons := buttons
      Y := if axes &&& DOWN ≠ 0 then 0x7F else if axes &&& UP ≠ 0 then 0x80 else 0
      X := if axes &&& RIGHT ≠ 0 then 0x7F else if axes &&& LEFT ≠ 0 then 0x80 else 0 } }

/-- Input ports that read `0xFF` (every line high) at every read, except after
exactly `i` clock pulses, where `PINF` reads `f` and `PINB` reads `b`. -/
def Pins.lowAt (f b i : Nat) : Pins :=
  { PINF := fun c _ => if c = i then f else 0xFF
    PINB := fun c _ => if c = i then b else 0xFF
    PIND := fun _ _ => 0xFF }

namespace N64Controller

/-- Whether the wait for the line to go low in round `i` of `read_loop:`
(`timeout = 0x7f; while (N64_QUERY) { if (!--timeout) return; }`) ends before
its timeout, `w` being the wire on entry to round 0. -/
def lowArrived (q : Nat → Nat) (w : Wire) (i : Nat) : Bool :=
  (spinWhile q true 0x7f (roundWire q w i)).arrived

/-- Whether the wait for the line to go high again after the sample of round `i`
of `read_loop:` (`timeout = 0x3f; while (!N64_QUERY) { if (!--timeout) return; }`)
ends before its timeout, `w` being the wire on entry to round 0. -/
def highArrived (q : Nat → Nat) (w : Wire) (i : Nat) : Bool :=
  let a := (spinWhile q true 0x7f (roundWire q w i)).wire
  (spinWhile q false 0x3f
    { events := a.events ++ [LineEvent.delay 32], queries := a.queries + 1 }).arrived

end N64Controller

/-! # Theorems -/

/-! ## Loops and bits -/

theorem forLoop_invariant {σ : Type} (body : Nat → σ → σ) (P : Nat → σ → Prop) :
    ∀ (n start : Nat) (s : σ), P start s →
      (∀ i t, start ≤ i → i < start + n → P i t → P (i + 1) (body i t)) →
      P (start + n) (forLoop body n start s) := by
  intro n
  induction n with
  | zero => intro start s h _; simpa [forLoop] using h
  | succ n ih =>
    intro start s h step
    have h1 : P (start + 1) (body start s) := step start s (Nat.le_refl _) (by omega) h
    have := ih (start + 1) (body start s) h1
      (fun i t hi hlt => step i t (by omega) (by omega))
    simpa [forLoop, Nat.add_assoc, Nat.add_comm 1 n] using this

theorem ite_lt_of_lt {c : Prop} [Decidable c] {a b n : Nat} (ha : a < n) (hb : b < n) :
    (if c then a else b) < n := by
  split <;> assumption

theorem testBit_false_of_lt {x n j : Nat} (hx : x < 2 ^ n) (hj : n ≤ j) : x.testBit j = false :=
  Nat.testBit_lt_two_pow (Nat.lt_of_lt_of_le hx (Nat.pow_le_pow_right (by decide) hj))

/-! ## The NES poll -/

namespace NESController

theorem nes_readBit_eq (pins : Pins) (i : Nat) (c : NESController)
    (hc : c.hw.clocks = i) (hr : c.hw.reads = 0) :
    readBit pins i c =
      { currentState :=
          { standardButtons :=
              if dataHigh pins i then c.currentState.standardButtons
              else (c.currentState.standardButtons ||| (1 <<< i)) % 256
            powerPadButtons :=
              let p := if d4High pins i then c.currentState.powerPadButtons
                else (c.currentState.powerPadButtons ||| powerPadD4Case i) % 65536
              if d3High pins i then p else (p ||| powerPadD3Case i) % 65536
            powerPadConnected := c.currentState.powerPadConnected }
        controllerConnected := c.controllerConnected
        hw := { (sendClock c.hw) with clocks := i + 1, reads := 0 } } := by
  obtain ⟨st, cc, hw⟩ := c
  obtain ⟨p, t, cl, rd⟩ := hw
  simp only at hc hr
  subst hc hr
  simp only [readBit, readDataBit, readPowerPadD4, readPowerPadD3, readPort, dataHigh, d4High,
    d3High, sendClock]
  cases h1 : (pins.PINF cl 0 &&& 0x80 != 0) <;> cases h2 : (pins.PINB cl 1 &&& 0x20 != 0) <;>
    cases h3 : (pins.PINB cl 2 &&& 0x10 != 0) <;> simp_all

theorem powerPadCase_lt (l : PadLine) (b : Nat) : powerPadCase l b < 2 ^ 12 := by
  cases l
  · simp only [powerPadCase, powerPadD4Case]; split <;> decide
  · simp only [powerPadCase, powerPadD3Case]; split <;> decide

theorem or_mod_65536 {p t : Nat} (hp : p < 2 ^ 12) (ht : t < 2 ^ 12) :
    (p ||| t) % 65536 = p ||| t :=
  Nat.mod_eq_of_lt (Nat.lt_trans (Nat.or_lt_two_pow hp ht) (by decide))

theorem nes_polled_step (pins : Pins) (c0 c : NESController) (k : Nat) (hk : k < 8)
    (h : Polled pins c0 k c) : Polled pins c0 (k + 1) (readBit pins k c) := by
  have h4 : powerPadD4Case k < 2 ^ 12 := powerPadCase_lt .D4 k
  have h3 : powerPadD3Case k < 2 ^ 12 := powerPadCase_lt .D3 k
  have hp1 : (if d4High pins k = true then c.currentState.powerPadButtons
      else c.currentState.powerPadButtons ||| powerPadD4Case k) < 2 ^ 12 := by
    split
    · exact h.pad_lt
    · exact Nat.or_lt_two_pow h.pad_lt h4
  rw [nes_readBit_eq pins k c h.clocks h.reads]
  simp only [or_mod_65536 h.pad_lt h4]
  simp only [or_mod_65536 hp1 h3]
  refine ⟨rfl, rfl, ?_, ?_, ?_, h.present, h.connected⟩
  · intro j
    simp only
    by_cases hd : dataHigh pins k = true
    · rw [if_pos hd, h.std j]
      by_cases hjk : j = k
      · subst hjk; simp [hd]
      · have : (j < k + 1) = (j < k) := by
          apply propext; omega
        simp [this]
    · have hd' : dataHigh pins k = false := by simpa using hd
      rw [if_neg hd, show (256 : Nat) = 2 ^ 8 from rfl, Nat.testBit_mod_two_pow, Nat.testBit_or,
        h.std j, Nat.one_shiftLeft, Nat.testBit_two_pow]
      by_cases hjk : j = k
      · subst hjk; simp [hd', hk]
      · have h1 : ¬ k = j := fun e => hjk e.symm
        by_cases hlt : j < k
        · have : j < 8 := by omega
          have : j < k + 1 := by omega
          simp [*]
        · have : ¬ j < k + 1 := by omega
          simp [*]
  · simp only
    split
    · exact hp1
    · exact Nat.or_lt_two_pow hp1 h3
  · intro j
    simp only
    have hnew : (if d3High pins k = true then
          (if d4High pins k = true then c.currentState.powerPadButtons
            else c.currentState.powerPadButtons ||| powerPadD4Case k)
        else (if d4High pins k = true then c.currentState.powerPadButtons
            else c.currentState.powerPadButtons ||| powerPadD4Case k) ||| powerPadD3Case k).testBit j
          = true ↔
        c.currentState.powerPadButtons.testBit j = true ∨
          ∃ l, padHigh pins l k = false ∧ (powerPadCase l k).testBit j = true := by
      have hex : (∃ l, padHigh pins l k = false ∧ (powerPadCase l k).testBit j = true) ↔
          (d4High pins k = false ∧ (powerPadD4Case k).testBit j = true) ∨
          (d3High pins k = false ∧ (powerPadD3Case k).testBit j = true) := by
        constructor
        · rintro ⟨l, hl, ht⟩
          cases l
          · exact Or.inl ⟨hl, ht⟩
          · exact Or.inr ⟨hl, ht⟩
        · rintro (⟨hl, ht⟩ | ⟨hl, ht⟩)
          · exact ⟨.D4, hl, ht⟩
          · exact ⟨.D3, hl, ht⟩
      rw [hex]
      cases d4High pins k <;> cases d3High pins k <;> simp [Nat.testBit_or, or_assoc]
    rw [hnew, h.pad j]
    constructor
    · rintro (⟨l, b, hb, hl, ht⟩ | ⟨l, hl, ht⟩)
      · exact ⟨l, b, by omega, hl, ht⟩
      · exact ⟨l, k, by omega, hl, ht⟩
    · rintro ⟨l, b, hb, hl, ht⟩
      by_cases hbk : b = k
      · subst hbk; exact Or.inr ⟨l, hl, ht⟩
      · exact Or.inl ⟨l, b, by omega, hl, ht⟩

theorem nes_polled_latched (pins : Pins) (c : NESController) : Polled pins c 0 (latched c) := by
  refine ⟨rfl, rfl, ?_, ?_, ?_, rfl, rfl⟩
  · intro j; simp [latched]
  · simp [latched]
  · intro j; simp [latched]

theorem nes_polled_loop (pins : Pins) (c : NESController) :
    Polled pins c 8 (forLoop (readBit pins) 8 0 (latched c)) := by
  exact forLoop_invariant (readBit pins) (Polled pins c) 8 0 (latched c)
    (nes_polled_latched pins c) (fun i t _ hi h => nes_polled_step pins c t i (by omega) h)

theorem nes_readController_eq (pins : Pins) (c : NESController) :
    readController pins c =
      let c1 := forLoop (readBit pins) 8 0 (latched c)
      { currentState := { c1.currentState with
          powerPadConnected := c1.currentState.powerPadButtons != 0 }
        controllerConnected :=
          (c1.currentState.standardButtons != 0xFF) || (c1.currentState.powerPadButtons != 0)
        hw := c1.hw } := rfl

end NESController

/-! ## The SNES poll -/

namespace SNESController

theorem snes_readBit_eq (pins : Pins) (i : Nat) (c : SNESController)
    (hc : c.hw.clocks = i) (hr : c.hw.reads = 0) :
    readBit pins i c =
      { currentState :=
          { standardButtons :=
              if dataHigh pins i then c.currentState.standardButtons
              else (c.currentState.standardButtons ||| (1 <<< i)) % 65536
            nttKeypad := c.currentState.nttKeypad
            nttConnected :=
              if i = NTT_INDICATOR_BIT ∧ indicatorHigh pins = false then true
              else c.currentState.nttConnected
            playerNumber := c.currentState.playerNumber }
        controllerConnected := c.controllerConnected
        currentPlayer := c.currentPlayer
        hw := { (sendClock c.hw) with clocks := i + 1, reads := 0 } } := by
  obtain ⟨st, cc, cp, hw⟩ := c
  obtain ⟨p, t, cl, rd⟩ := hw
  simp only at hc hr
  subst hc hr
  simp only [readBit, readDataBit, readPort, dataHigh, indicatorHigh, sendClock]
  by_cases hi : cl = NTT_INDICATOR_BIT
  · subst hi
    cases h1 : (pins.PINF NTT_INDICATOR_BIT 0 &&& 0x40 != 0) <;>
      cases h2 : (pins.PINF NTT_INDICATOR_BIT 1 &&& 0x40 != 0) <;> simp_all
  · cases h1 : (pins.PINF cl 0 &&& 0x40 != 0) <;> simp_all

theorem snes_polled_step (pins : Pins) (c0 c : SNESController) (k : Nat) (hk : k < 16)
    (h : Polled pins c0 k c) : Polled pins c0 (k + 1) (readBit pins k c) := by
  rw [snes_readBit_eq pins k c h.clocks h.reads]
  refine ⟨rfl, rfl, ?_, h.keypad, ?_, h.player, h.current, h.connected⟩
  · intro j
    simp only
    by_cases hd : dataHigh pins k = true
    · rw [if_pos hd, h.std j]
      by_cases hjk : j = k
      · subst hjk; simp [hd]
      · have : (j < k + 1) = (j < k) := by
          apply propext; omega
        simp [this]
    · have hd' : dataHigh pins k = false := by simpa using hd
      rw [if_neg hd, show (65536 : Nat) = 2 ^ 16 from rfl, Nat.testBit_mod_two_pow,
        Nat.testBit_or, h.std j, Nat.one_shiftLeft, Nat.testBit_two_pow]
      by_cases hjk : j = k
      · subst hjk; simp [hd', hk]
      · have h1 : ¬ k = j := fun e => hjk e.symm
        by_cases hlt : j < k
        · have : j < 16 := by omega
          have : j < k + 1 := by omega
          simp [*]
        · have : ¬ j < k + 1 := by omega
          simp [*]
  · simp only [h.present]
    by_cases hi : k = NTT_INDICATOR_BIT
    · subst hi
      cases indicatorHigh pins <;> simp
    · have : (NTT_INDICATOR_BIT < k + 1) = (NTT_INDICATOR_BIT < k) := by
        apply propext; omega
      simp [hi, this]

theorem snes_polled_latched (pins : Pins) (c : SNESController) : Polled pins c 0 (latched c) := by
  refine ⟨rfl, rfl, ?_, rfl, ?_, rfl, rfl, rfl⟩
  · intro j; simp [latched]
  · simp [latched]

theorem snes_polled_loop (pins : Pins) (c : SNESController) :
    Polled pins c 16 (forLoop (readBit pins) SNES_STANDARD_BITS 0 (latched c)) := by
  exact forLoop_invariant (readBit pins) (Polled pins c) 16 0 (latched c)
    (snes_polled_latched pins c) (fun i t _ hi h => snes_polled_step pins c t i (by omega) h)

theorem nttKeyCase_lt (d : Int) : nttKeyCase d < 2 ^ 32 := by
  unfold nttKeyCase
  repeat (refine ite_lt_of_lt (by decide) ?_)
  decide

theorem snes_extendedBit_eq (pins : Pins) (k : Nat) (c : SNESController)
    (hc : c.hw.clocks = SNES_STANDARD_BITS + k) (hr : c.hw.reads = 0)
    (hlt : c.currentState.nttKeypad < 2 ^ 32) :
    extendedBit pins (SNES_STANDARD_BITS + k) c =
      { currentState :=
          { standardButtons := c.currentState.standardButtons
            nttKeypad :=
              if d2High pins k then c.currentState.nttKeypad
              else c.currentState.nttKeypad ||| nttKeyCase (k : Int)
            nttConnected := c.currentState.nttConnected
            playerNumber := c.currentState.playerNumber }
        controllerConnected := c.controllerConnected
        currentPlayer := c.currentPlayer
        hw := { (sendClock c.hw) with clocks := SNES_STANDARD_BITS + k + 1, reads := 0 } } := by
  obtain ⟨st, cc, cp, hw⟩ := c
  obtain ⟨p, t, cl, rd⟩ := hw
  simp only at hc hr hlt
  subst hc hr
  have hd : ((SNES_STANDARD_BITS + k : Nat) : Int) - (SNES_STANDARD_BITS : Int) = (k : Int) := by
    push_cast; omega
  have hk := nttKeyCase_lt (k : Int)
  have e0 : (0 ||| nttKeyCase (k : Int)) % 2 ^ 32 = nttKeyCase (k : Int) := by
    rw [Nat.zero_or]; exact Nat.mod_eq_of_lt hk
  have e1 : (st.nttKeypad ||| nttKeyCase (k : Int)) % 2 ^ 32 = st.nttKeypad ||| nttKeyCase (k : Int) :=
    Nat.mod_eq_of_lt (Nat.or_lt_two_pow hlt hk)
  have e2 : st.nttKeypad % 2 ^ 32 = st.nttKeypad := Nat.mod_eq_of_lt hlt
  simp only [extendedBit, readNTTKeypad, readPort, d2High, sendClock, hd, e0]
  cases h1 : (pins.PIND (SNES_STANDARD_BITS + k) 0 &&& 0x04 != 0) <;> simp_all


theorem snes_extended_step (pins : Pins) (c1 c : SNESController) (k : Nat)
    (h : Extended pins c1 (SNES_STANDARD_BITS + k) c) :
    Extended pins c1 (SNES_STANDARD_BITS + k + 1) (extendedBit pins (SNES_STANDARD_BITS + k) c) := by
  rw [snes_extendedBit_eq pins k c h.clocks h.reads h.keypad_lt]
  refine ⟨rfl, rfl, h.std, ?_, ?_, h.present, h.player, h.current, h.connected⟩
  · simp only
    split
    · exact h.keypad_lt
    · exact Nat.or_lt_two_pow h.keypad_lt (nttKeyCase_lt _)
  · intro m
    simp only
    have hnew : (if d2High pins k = true then c.currentState.nttKeypad
          else c.currentState.nttKeypad ||| nttKeyCase (k : Int)).testBit m = true ↔
        c.currentState.nttKeypad.testBit m = true ∨
          (d2High pins k = false ∧ (nttKeyCase (k : Int)).testBit m = true) := by
      cases d2High pins k <;> simp [Nat.testBit_or]
    rw [hnew, h.keypad m]
    constructor
    · rintro (⟨b, hb, hl, ht⟩ | ⟨hl, ht⟩)
      · exact ⟨b, by omega, hl, ht⟩
      · exact ⟨k, by omega, hl, ht⟩
    · rintro ⟨b, hb, hl, ht⟩
      by_cases hbk : b = k
      · subst hbk; exact Or.inr ⟨hl, ht⟩
      · exact Or.inl ⟨b, by omega, hl, ht⟩

theorem snes_extended_start (pins : Pins) (c1 : SNESController)
    (hc : c1.hw.clocks = SNES_STANDARD_BITS) (hr : c1.hw.reads = 0)
    (hk : c1.currentState.nttKeypad = 0) :
    Extended pins c1 SNES_STANDARD_BITS c1 := by
  refine ⟨hc, hr, rfl, ?_, ?_, rfl, rfl, rfl, rfl⟩
  · rw [hk]; decide
  · intro m
    rw [hk]
    simp

theorem snes_extended_loop (pins : Pins) (c1 : SNESController)
    (hc : c1.hw.clocks = SNES_STANDARD_BITS) (hr : c1.hw.reads = 0)
    (hk : c1.currentState.nttKeypad = 0) :
    Extended pins c1 SNES_EXTENDED_BITS (processNTTExtended pins SNES_STANDARD_BITS c1) := by
  refine forLoop_invariant (extendedBit pins) (Extended pins c1) 16 16 c1
    (snes_extended_start pins c1 hc hr hk) ?_
  intro i t h16 _ h
  obtain ⟨k, rfl⟩ := Nat.exists_eq_add_of_le h16
  exact snes_extended_step pins c1 t k h

theorem snes_readController_eq (pins : Pins) (c : SNESController) :
    readController pins c =
      let c1 := forLoop (readBit pins) SNES_STANDARD_BITS 0 (latched c)
      let c2 := if c1.currentState.nttConnected then
        processNTTExtended pins SNES_STANDARD_BITS c1 else c1
      { c2 with controllerConnected :=
          (c2.currentState.standardButtons != 0xFFFF) || c2.currentState.nttConnected } := rfl

end SNESController

/-! ## Claims C1 to C10 -/

theorem nes_idle_steady : NESController.idle (Pins.steady 0xFF 0xFF 0xFF) := by
  intro c r; simp [Pins.steady]

theorem snes_idle_steady : SNESController.idle (Pins.steady 0xFF 0xFF 0xFF) := by
  intro c r; simp [Pins.steady]

/-- C1 (the code departs from the claim): when every sample of every data line
reads logic-high, `standardButtons` is 0, which differs from the all-ones mask,
so `isConnected()` is true after the poll on both drivers, not false. -/
theorem C1_idle_bus_is_reported_connected (pins : Pins) :
    (∀ c : NESController, NESController.idle pins →
      (NESController.readController pins c).isConnected = true) ∧
    (∀ c : SNESController, SNESController.idle pins →
      (SNESController.readController pins c).isConnected = true) := by
  constructor
  · intro c h
    have P := NESController.nes_polled_loop pins c
    have h0 : (forLoop (NESController.readBit pins) 8 0
        (NESController.latched c)).currentState.standardButtons = 0 := by
      apply Nat.eq_of_testBit_eq
      intro j
      rw [P.std j, Nat.zero_testBit]
      have : NESController.dataHigh pins j = true := by
        simpa [NESController.dataHigh] using (h j 0).1
      simp [this]
    show ((forLoop (NESController.readBit pins) 8 0
        (NESController.latched c)).currentState.standardButtons != 0xFF ||
      (forLoop (NESController.readBit pins) 8 0
        (NESController.latched c)).currentState.powerPadButtons != 0) = true
    rw [h0]; rfl
  · intro c h
    have P := SNESController.snes_polled_loop pins c
    have hi : SNESController.indicatorHigh pins = true := by
      simpa [SNESController.indicatorHigh] using (h NTT_INDICATOR_BIT 1).1
    have h0 : (forLoop (SNESController.readBit pins) SNES_STANDARD_BITS 0
        (SNESController.latched c)).currentState.standardButtons = 0 := by
      apply Nat.eq_of_testBit_eq
      intro j
      rw [P.std j, Nat.zero_testBit]
      have : SNESController.dataHigh pins j = true := by
        simpa [SNESController.dataHigh] using (h j 0).1
      simp [this]
    have hn : (forLoop (SNESController.readBit pins) SNES_STANDARD_BITS 0
        (SNESController.latched c)).currentState.nttConnected = false := by
      rw [P.present, hi]; simp
    rw [SNESController.snes_readController_eq]
    simp only [hn, SNESController.isConnected]
    simp [h0]

theorem C1_idle_bus_is_reported_connected_witness :
    (NESController.idle (Pins.steady 0xFF 0xFF 0xFF) ∧
      (NESController.readController (Pins.steady 0xFF 0xFF 0xFF)
        (NESController.new Hw.boot)).isConnected = true) ∧
    (SNESController.idle (Pins.steady 0xFF 0xFF 0xFF) ∧
      (SNESController.readController (Pins.steady 0xFF 0xFF 0xFF)
        (SNESController.new Hw.boot)).isConnected = true) :=
  ⟨⟨nes_idle_steady,
    (C1_idle_bus_is_reported_connected (Pins.steady 0xFF 0xFF 0xFF)).1
      (NESController.new Hw.boot) nes_idle_steady⟩,
   ⟨snes_idle_steady,
    (C1_idle_bus_is_reported_connected (Pins.steady 0xFF 0xFF 0xFF)).2
      (SNESController.new Hw.boot) snes_idle_steady⟩⟩

/-- C2: after every `readController`, `isConnected()` equals
`(standardButtons != mask) || accessory-present`, with mask `0xFF` and
`powerPadConnected` on the NES driver, `0xFFFF` and `nttConnected` on the SNES
driver. -/
theorem C2_connected_flag_is_derived (pins : Pins) :
    (∀ c : NESController,
      (NESController.readController pins c).isConnected =
        ((NESController.readController pins c).currentState.standardButtons != 0xFF ||
          (NESController.readController pins c).currentState.powerPadConnected)) ∧
    (∀ c : SNESController,
      (SNESController.readController pins c).isConnected =
        ((SNESController.readController pins c).currentState.standardButtons != 0xFFFF ||
          (SNESController.readController pins c).currentState.nttConnected)) :=
  ⟨fun _ => rfl, fun _ => rfl⟩

/-- C3: `nttConnected` is true after the SNES poll iff the primary data line is
read low at the indicator check of bit 13; the poll issues exactly 32 clock
pulses when the indicator was low, and exactly 16, with `nttKeypad == 0`, when
it was high. -/
theorem C3_extension_runs_iff_indicator_low (pins : Pins) (c : SNESController) :
    ((SNESController.readController pins c).currentState.nttConnected = true ↔
      SNESController.indicatorHigh pins = false) ∧
    (SNESController.indicatorHigh pins = false →
      (SNESController.readController pins c).hw.clocks = 32) ∧
    (SNESController.indicatorHigh pins = true →
      (SNESController.readController pins c).hw.clocks = 16 ∧
      (SNESController.readController pins c).currentState.nttKeypad = 0) := by
  have P := SNESController.snes_polled_loop pins c
  have hn : (forLoop (SNESController.readBit pins) SNES_STANDARD_BITS 0
      (SNESController.latched c)).currentState.nttConnected =
        !SNESController.indicatorHigh pins := by
    rw [P.present]; simp [NTT_INDICATOR_BIT]
  rw [SNESController.snes_readController_eq]
  cases hi : SNESController.indicatorHigh pins
  · rw [hi] at hn
    have E := SNESController.snes_extended_loop pins _ P.clocks P.reads P.keypad
    simp only [hn, Bool.not_false, if_true]
    refine ⟨?_, ?_, ?_⟩
    · simp [E.present, hn]
    · intro _; exact E.clocks
    · intro h; cases h
  · rw [hi] at hn
    simp only [hn, Bool.not_true]
    refine ⟨by simp [hn], ?_, ?_⟩
    · intro h; cases h
    · intro _
      exact ⟨P.clocks, P.keypad⟩

theorem C3_extension_runs_iff_indicator_low_witness :
    (SNESController.indicatorHigh (Pins.steady 0 0 0) = false ∧
      (SNESController.readController (Pins.steady 0 0 0)
        (SNESController.new Hw.boot)).hw.clocks = 32) ∧
    (SNESController.indicatorHigh (Pins.steady 0xFF 0xFF 0xFF) = true ∧
      (SNESController.readController (Pins.steady 0xFF 0xFF 0xFF)
        (SNESController.new Hw.boot)).hw.clocks = 16 ∧
      (SNESController.readController (Pins.steady 0xFF 0xFF 0xFF)
        (SNESController.new Hw.boot)).currentState.nttKeypad = 0) :=
  ⟨⟨by decide, (C3_extension_runs_iff_indicator_low (Pins.steady 0 0 0)
      (SNESController.new Hw.boot)).2.1 (by decide)⟩,
   ⟨by decide, (C3_extension_runs_iff_indicator_low (Pins.steady 0xFF 0xFF 0xFF)
      (SNESController.new Hw.boot)).2.2 (by decide)⟩⟩

theorem snes_standardButtons_eq (pins : Pins) (c : SNESController) :
    (SNESController.readController pins c).currentState.standardButtons =
      (forLoop (SNESController.readBit pins) SNES_STANDARD_BITS 0
        (SNESController.latched c)).currentState.standardButtons := by
  have P := SNESController.snes_polled_loop pins c
  rw [SNESController.snes_readController_eq]
  simp only
  split
  · exact (SNESController.snes_extended_loop pins _ P.clocks P.reads P.keypad).std
  · rfl

/-- C6: after `readController`, bit `i` of `standardButtons` is set iff the
primary data line was low at the sample taken after exactly `i` clock pulses,
for `i` in 0..7 on the NES driver and 0..15 on the SNES driver; the bit order is
that of `NES_BTN_*` (A, B, Select, Start, Up, Down, Left, Right) and of
`SNES_BTN_*` (B, Y, Select, Start, Up, Down, Left, Right, A, X, L, R). -/
theorem C6_standard_bit_iff_sample_low (pins : Pins) :
    (∀ (c : NESController) (i : Nat), i < 8 →
      ((NESController.readController pins c).currentState.standardButtons.testBit i = true ↔
        NESController.dataHigh pins i = false)) ∧
    (∀ (c : SNESController) (i : Nat), i < 16 →
      ((SNESController.readController pins c).currentState.standardButtons.testBit i = true ↔
        SNESController.dataHigh pins i = false)) ∧
    [NES_BTN_A, NES_BTN_B, NES_BTN_SELECT, NES_BTN_START, NES_BTN_UP, NES_BTN_DOWN,
      NES_BTN_LEFT, NES_BTN_RIGHT] = (List.range 8).map (fun i => 1 <<< i) ∧
    [SNES_BTN_B, SNES_BTN_Y, SNES_BTN_SELECT, SNES_BTN_START, SNES_BTN_UP, SNES_BTN_DOWN,
      SNES_BTN_LEFT, SNES_BTN_RIGHT, SNES_BTN_A, SNES_BTN_X, SNES_BTN_L, SNES_BTN_R] =
        (List.range 12).map (fun i => 1 <<< i) := by
  refine ⟨?_, ?_, by decide, by decide⟩
  · intro c i hi
    have P := NESController.nes_polled_loop pins c
    show ((forLoop (NESController.readBit pins) 8 0
        (NESController.latched c)).currentState.standardButtons).testBit i = true ↔ _
    rw [P.std i]
    simp [hi]
  · intro c i hi
    have P := SNESController.snes_polled_loop pins c
    rw [snes_standardButtons_eq, P.std i]
    simp [hi]

theorem C6_standard_bit_iff_sample_low_witness :
    (3 < 8 ∧
      ((NESController.readController (Pins.steady 0 0 0)
          (NESController.new Hw.boot)).currentState.standardButtons.testBit 3 = true ↔
        NESController.dataHigh (Pins.steady 0 0 0) 3 = false)) ∧
    (14 < 16 ∧
      ((SNESController.readController (Pins.steady 0 0 0)
          (SNESController.new Hw.boot)).currentState.standardButtons.testBit 14 = true ↔
        SNESController.dataHigh (Pins.steady 0 0 0) 14 = false)) :=
  ⟨⟨by decide, (C6_standard_bit_iff_sample_low (Pins.steady 0 0 0)).1
      (NESController.new Hw.boot) 3 (by decide)⟩,
   ⟨by decide, (C6_standard_bit_iff_sample_low (Pins.steady 0 0 0)).2.1
      (SNESController.new Hw.boot) 14 (by decide)⟩⟩

/-- C8: after every `NESController::readController`, `powerPadConnected` is
exactly `powerPadButtons != 0`; a poll in which no mapped D4 sample (bits 0..3)
and no mapped D3 sample (bits 0..7) is low leaves it false, whatever the
primary data line showed. -/
theorem C8_powerpad_present_iff_mask_nonzero (pins : Pins) (c : NESController) :
    (NESController.readController pins c).currentState.powerPadConnected =
      ((NESController.readController pins c).currentState.powerPadButtons != 0) ∧
    ((∀ b, b < 4 → NESController.d4High pins b = true) →
      (∀ b, b < 8 → NESController.d3High pins b = true) →
      (NESController.readController pins c).currentState.powerPadConnected = false) := by
  refine ⟨rfl, ?_⟩
  intro h4 h3
  have P := NESController.nes_polled_loop pins c
  have h0 : (forLoop (NESController.readBit pins) 8 0
      (NESController.latched c)).currentState.powerPadButtons = 0 := by
    apply Nat.eq_of_testBit_eq
    intro j
    rw [Nat.zero_testBit]
    cases hb : (forLoop (NESController.readBit pins) 8 0
      (NESController.latched c)).currentState.powerPadButtons.testBit j
    · rfl
    · obtain ⟨l, b, hb8, hl, ht⟩ := (P.pad j).1 hb
      exfalso
      cases l
      · by_cases hb4 : b < 4
        · have := h4 b hb4
          simp [NESController.padHigh, this] at hl
        · have hz : NESController.powerPadCase .D4 b = 0 := by
            have : 4 ≤ b := by omega
            interval_cases b <;> rfl
          rw [hz] at ht
          simp at ht
      · have := h3 b hb8
        simp [NESController.padHigh, this] at hl
  show ((forLoop (NESController.readBit pins) 8 0
      (NESController.latched c)).currentState.powerPadButtons != 0) = false
  rw [h0]; rfl

theorem C8_powerpad_present_iff_mask_nonzero_witness :
    (∀ b, b < 4 → NESController.d4High (Pins.steady 0 0xFF 0) b = true) ∧
    (∀ b, b < 8 → NESController.d3High (Pins.steady 0 0xFF 0) b = true) ∧
    (NESController.readController (Pins.steady 0 0xFF 0)
      (NESController.new Hw.boot)).currentState.powerPadConnected = false ∧
    (NESController.readController (Pins.steady 0 0xFF 0)
      (NESController.new Hw.boot)).currentState.standardButtons = 0xFF :=
  ⟨by simp [NESController.d4High, Pins.steady], by simp [NESController.d3High, Pins.steady],
   (C8_powerpad_present_iff_mask_nonzero (Pins.steady 0 0xFF 0) (NESController.new Hw.boot)).2
      (by simp [NESController.d4High, Pins.steady]) (by simp [NESController.d3High, Pins.steady]),
   by decide⟩

namespace NESController

theorem powerPadCase_position (n : Nat) (h1 : 1 ≤ n) (h12 : n ≤ 12) :
    (powerPadPosition n).2 < 8 ∧
      powerPadCase (powerPadPosition n).1 (powerPadPosition n).2 = 2 ^ (n - 1) := by
  interval_cases n <;> decide

theorem powerPadCase_cases (l : PadLine) (b : Nat) (hb : b < 8) :
    powerPadCase l b = 0 ∨
      ∃ n, n < 13 ∧ 1 ≤ n ∧ powerPadCase l b = 2 ^ (n - 1) ∧ powerPadPosition n = (l, b) := by
  cases l <;> interval_cases b <;> decide

theorem position_of_testBit (l : PadLine) (b n : Nat) (hb : b < 8) (h1 : 1 ≤ n)
    (ht : (powerPadCase l b).testBit (n - 1) = true) : powerPadPosition n = (l, b) := by
  rcases powerPadCase_cases l b hb with h0 | ⟨m, _, hm1, hm, hp⟩
  · rw [h0] at ht; simp at ht
  · rw [hm, Nat.testBit_two_pow] at ht
    have : m = n := by
      have := of_decide_eq_true ht
      omega
    rw [← this]; exact hp

end NESController

/-- C7: the two `switch` tables of `NESController::readController` are a
bijection between the 12 pairs (D4, bit 0..3), (D3, bit 0..7) and the buttons
`POWERPAD_BTN_1..12`: every button `n` in 1..12 has exactly one (line, bit)
pair, every such pair has a button, and bit `n - 1` of `powerPadButtons` is set
after the poll iff that line was sampled low at that bit index; D4 at bits 4..7
sets nothing and bits 12 and above of `powerPadButtons` are clear. -/
theorem C7_powerpad_table_is_a_bijection (pins : Pins) (c : NESController) :
    [POWERPAD_BTN_1, POWERPAD_BTN_2, POWERPAD_BTN_3, POWERPAD_BTN_4, POWERPAD_BTN_5,
      POWERPAD_BTN_6, POWERPAD_BTN_7, POWERPAD_BTN_8, POWERPAD_BTN_9, POWERPAD_BTN_10,
      POWERPAD_BTN_11, POWERPAD_BTN_12] = (List.range 12).map (fun n => 2 ^ n) ∧
    (∀ n, 1 ≤ n → n ≤ 12 →
      ∃! p : NESController.PadLine × Nat,
        p.2 < 8 ∧ NESController.powerPadCase p.1 p.2 = 2 ^ (n - 1)) ∧
    (∀ l b, b < 8 → (l = .D3 ∨ b < 4) →
      ∃ n, 1 ≤ n ∧ n ≤ 12 ∧ NESController.powerPadCase l b = 2 ^ (n - 1)) ∧
    (∀ n l b, 1 ≤ n → n ≤ 12 → b < 8 → NESController.powerPadCase l b = 2 ^ (n - 1) →
      ((NESController.readController pins c).currentState.powerPadButtons.testBit (n - 1) = true ↔
        NESController.padHigh pins l b = false)) ∧
    (∀ b, 4 ≤ b → NESController.powerPadD4Case b = 0) ∧
    (∀ j, 12 ≤ j →
      (NESController.readController pins c).currentState.powerPadButtons.testBit j = false) := by
  have P := NESController.nes_polled_loop pins c
  have key : ∀ n l b, 1 ≤ n → b < 8 → NESController.powerPadCase l b = 2 ^ (n - 1) →
      NESController.powerPadPosition n = (l, b) := by
    intro n l b h1 hb he
    apply NESController.position_of_testBit l b n hb h1
    rw [he]; exact Nat.testBit_two_pow_self
  refine ⟨by decide, ?_, ?_, ?_, ?_, ?_⟩
  · intro n h1 h12
    refine ⟨NESController.powerPadPosition n, NESController.powerPadCase_position n h1 h12, ?_⟩
    rintro ⟨l, b⟩ ⟨hb, he⟩
    exact (key n l b h1 hb he).symm
  · intro l b hb hm
    rcases NESController.powerPadCase_cases l b hb with h0 | ⟨n, hn, h1, he, _⟩
    · exfalso
      rcases hm with rfl | h4
      · interval_cases b <;> simp [NESController.powerPadCase, NESController.powerPadD3Case,
          POWERPAD_BTN_1, POWERPAD_BTN_2, POWERPAD_BTN_5, POWERPAD_BTN_6, POWERPAD_BTN_7,
          POWERPAD_BTN_9, POWERPAD_BTN_10, POWERPAD_BTN_11] at h0
      · cases l
        · interval_cases b <;> simp [NESController.powerPadCase, NESController.powerPadD4Case,
            POWERPAD_BTN_3, POWERPAD_BTN_4, POWERPAD_BTN_8, POWERPAD_BTN_12] at h0
        · interval_cases b <;> simp [NESController.powerPadCase, NESController.powerPadD3Case,
            POWERPAD_BTN_1, POWERPAD_BTN_2, POWERPAD_BTN_5, POWERPAD_BTN_9] at h0
    · exact ⟨n, h1, by omega, he⟩
  · intro n l b h1 _ hb he
    show ((forLoop (NESController.readBit pins) 8 0
        (NESController.latched c)).currentState.powerPadButtons).testBit (n - 1) = true ↔ _
    rw [P.pad (n - 1)]
    constructor
    · rintro ⟨l', b', hb', hl, ht⟩
      have h1' := NESController.position_of_testBit l' b' n hb' h1 ht
      have h2' := key n l b h1 hb he
      rw [h1'] at h2'
      cases h2'
      exact hl
    · intro hl
      exact ⟨l, b, hb, hl, by rw [he]; exact Nat.testBit_two_pow_self⟩
  · intro b hb
    obtain ⟨k, rfl⟩ := Nat.exists_eq_add_of_le hb
    rw [Nat.add_comm]
    rfl
  · intro j hj
    exact testBit_false_of_lt P.pad_lt hj

theorem C7_powerpad_table_is_a_bijection_witness :
    (1 ≤ 12 ∧ 12 ≤ 12 ∧ 2 < 8 ∧
      NESController.powerPadCase .D4 2 = 2 ^ (12 - 1) ∧
      ((NESController.readController (Pins.steady 0xFF 0x10 0xFF)
          (NESController.new Hw.boot)).currentState.powerPadButtons.testBit (12 - 1) = true ↔
        NESController.padHigh (Pins.steady 0xFF 0x10 0xFF) .D4 2 = false)) ∧
    (12 ≤ 13 ∧
      (NESController.readController (Pins.steady 0xFF 0x10 0xFF)
        (NESController.new Hw.boot)).currentState.powerPadButtons.testBit 13 = false) :=
  ⟨⟨by decide, by decide, by decide, by decide,
    (C7_powerpad_table_is_a_bijection (Pins.steady 0xFF 0x10 0xFF)
      (NESController.new Hw.boot)).2.2.2.1 12 .D4 2 (by decide) (by decide) (by decide)
      (by decide)⟩,
   ⟨by decide,
    (C7_powerpad_table_is_a_bijection (Pins.steady 0xFF 0x10 0xFF)
      (NESController.new Hw.boot)).2.2.2.2.2 13 (by decide)⟩⟩

namespace SNESController

theorem nttKeyCase_of_lt (k : Nat) (hk : k < 16) :
    nttKeyCase (k : Int) = if k = 14 then 0 else 2 ^ (16 + k) := by
  interval_cases k <;> rfl

theorem nttKeyCase_testBit (k m : Nat) (hk : k < 16) :
    (nttKeyCase (k : Int)).testBit m = true ↔ k ≠ 14 ∧ m = 16 + k := by
  rw [nttKeyCase_of_lt k hk]
  by_cases h14 : k = 14
  · simp [h14]
  · rw [if_neg h14, Nat.testBit_two_pow]
    simp [h14, eq_comm]

theorem snes_nttKeypad_eq (pins : Pins) (c : SNESController) :
    (readController pins c).currentState.nttKeypad =
      (if indicatorHigh pins then 0
       else (processNTTExtended pins SNES_STANDARD_BITS
          (forLoop (readBit pins) SNES_STANDARD_BITS 0 (latched c))).currentState.nttKeypad) := by
  have P := snes_polled_loop pins c
  have hn : (forLoop (readBit pins) SNES_STANDARD_BITS 0 (latched c)).currentState.nttConnected =
      !indicatorHigh pins := by
    rw [P.present]; simp [NTT_INDICATOR_BIT]
  rw [snes_readController_eq]
  cases hi : indicatorHigh pins
  · rw [hi] at hn; simp [hn]
  · rw [hi] at hn; simp [hn, P.keypad]

theorem snes_nttKeypad_testBit (pins : Pins) (c : SNESController) (m : Nat) :
    (readController pins c).currentState.nttKeypad.testBit m = true ↔
      indicatorHigh pins = false ∧
        ∃ k, k < 16 ∧ k ≠ 14 ∧ m = 16 + k ∧ d2High pins k = false := by
  have P := snes_polled_loop pins c
  rw [snes_nttKeypad_eq]
  cases hi : indicatorHigh pins
  · have E := snes_extended_loop pins _ P.clocks P.reads P.keypad
    simp only [Bool.false_eq_true, if_false, true_and]
    rw [E.keypad m]
    constructor
    · rintro ⟨k, hk, hl, ht⟩
      have hk16 : k < 16 := by simp only [SNES_STANDARD_BITS, SNES_EXTENDED_BITS] at hk; omega
      obtain ⟨h14, hm⟩ := (nttKeyCase_testBit k m hk16).1 ht
      exact ⟨k, hk16, h14, hm, hl⟩
    · rintro ⟨k, hk16, h14, hm, hl⟩
      refine ⟨k, ?_, hl, (nttKeyCase_testBit k m hk16).2 ⟨h14, hm⟩⟩
      simp only [SNES_STANDARD_BITS, SNES_EXTENDED_BITS]; omega
  · simp

end SNESController

/-- C9: when the NTT extension runs (indicator low), every position `k` in
0..15 of the extension other than the reserved position 14 has its own bit
`16 + k` of `nttKeypad` (`NTT_KEY_0..NTT_KEY_CLEAR` for `k` = 0..13,
`NTT_KEY_END` for `k` = 15), set iff the keypad line D2 was low in extension
cycle `k`; position 14 sets nothing, and bits 0..15 and bit 30 of `nttKeypad`
are clear after every poll. -/
theorem C9_ntt_keypad_bits (pins : Pins) (c : SNESController) :
    [NTT_KEY_0, NTT_KEY_1, NTT_KEY_2, NTT_KEY_3, NTT_KEY_4, NTT_KEY_5, NTT_KEY_6, NTT_KEY_7,
      NTT_KEY_8, NTT_KEY_9, NTT_KEY_STAR, NTT_KEY_HASH, NTT_KEY_DOT, NTT_KEY_CLEAR] =
        (List.range 14).map (fun k => 2 ^ (16 + k)) ∧
    NTT_KEY_END = 2 ^ (16 + 15) ∧
    (∀ k : Nat, k < 16 → k ≠ 14 → SNESController.nttKeyCase (k : Int) = 2 ^ (16 + k)) ∧
    SNESController.nttKeyCase 14 = 0 ∧
    (SNESController.indicatorHigh pins = false →
      ∀ k, k < 16 → k ≠ 14 →
        ((SNESController.readController pins c).currentState.nttKeypad.testBit (16 + k) = true ↔
          SNESController.d2High pins k = false)) ∧
    (∀ m, m < 16 ∨ m = 30 →
      (SNESController.readController pins c).currentState.nttKeypad.testBit m = false) := by
  refine ⟨by decide, by decide, ?_, by decide, ?_, ?_⟩
  · intro k hk h14
    rw [SNESController.nttKeyCase_of_lt k hk, if_neg h14]
  · intro hi k hk h14
    rw [SNESController.snes_nttKeypad_testBit]
    constructor
    · rintro ⟨_, k', _, _, he, hl⟩
      have : k' = k := by omega
      rw [← this]; exact hl
    · intro hl
      exact ⟨hi, k, hk, h14, rfl, hl⟩
  · intro m hm
    cases hb : (SNESController.readController pins c).currentState.nttKeypad.testBit m
    · rfl
    · exfalso
      obtain ⟨_, k, hk, h14, he, _⟩ := (SNESController.snes_nttKeypad_testBit pins c m).1 hb
      omega

theorem C9_ntt_keypad_bits_witness :
    (SNESController.indicatorHigh (Pins.steady 0 0 0) = false ∧ 15 < 16 ∧ 15 ≠ 14 ∧
      ((SNESController.readController (Pins.steady 0 0 0)
          (SNESController.new Hw.boot)).currentState.nttKeypad.testBit (16 + 15) = true ↔
        SNESController.d2High (Pins.steady 0 0 0) 15 = false)) ∧
    ((30 < 16 ∨ 30 = 30) ∧
      (SNESController.readController (Pins.steady 0 0 0)
        (SNESController.new Hw.boot)).currentState.nttKeypad.testBit 30 = false) :=
  ⟨⟨by decide, by decide, by decide,
    (C9_ntt_keypad_bits (Pins.steady 0 0 0) (SNESController.new Hw.boot)).2.2.2.2.1
      (by decide) 15 (by decide) (by decide)⟩,
   ⟨by decide,
    (C9_ntt_keypad_bits (Pins.steady 0 0 0) (SNESController.new Hw.boot)).2.2.2.2.2 30
      (by decide)⟩⟩

theorem pack_testBit (x k j : Nat) (p : Prop) [Decidable p] :
    ((x ||| (if p then 0x80 >>> k else 0)) % 256).testBit j =
      (decide (j < 8) && (x.testBit j || decide (p ∧ k + j = 7))) := by
  rw [show (256 : Nat) = 2 ^ 8 from rfl, Nat.testBit_mod_two_pow, Nat.testBit_or]
  by_cases hp : p
  · rw [if_pos hp, Nat.testBit_shiftRight, show (0x80 : Nat) = 2 ^ 7 from rfl,
      Nat.testBit_two_pow]
    simp [hp, eq_comm]
  · simp [hp]

theorem pack_step (r : Nat → Nat) (o x k : Nat)
    (hx : ∀ j, x.testBit j = decide (j < 8 ∧ 7 - j < k ∧ r (o + (7 - j)) ≠ 0)) :
    ∀ j, ((x ||| (if r (o + k) ≠ 0 then 0x80 >>> k else 0)) % 256).testBit j =
      decide (j < 8 ∧ 7 - j < k + 1 ∧ r (o + (7 - j)) ≠ 0) := by
  intro j
  rw [pack_testBit, hx j]
  rw [Bool.eq_iff_iff]
  simp only [Bool.and_eq_true, Bool.or_eq_true, decide_eq_true_eq]
  constructor
  · rintro ⟨h8, (⟨_, hk, hr⟩ | ⟨hr, he⟩)⟩
    · exact ⟨h8, by omega, hr⟩
    · have : 7 - j = k := by omega
      exact ⟨h8, by omega, by rw [this]; exact hr⟩
  · rintro ⟨h8, hk, hr⟩
    refine ⟨h8, ?_⟩
    by_cases he : 7 - j = k
    · right
      exact ⟨by rw [← he]; exact hr, by omega⟩
    · left
      exact ⟨h8, by omega, hr⟩

namespace N64Controller

theorem translated_step (r : Buffer) (k : Nat) (c : N64Controller) (h : Translated r k c) :
    Translated r (k + 1) (translateBit k c) := by
  obtain ⟨hd, h1, h2, h3, h4⟩ := h
  have e : r k = r (0 + k) := by rw [Nat.zero_add]
  refine ⟨hd, ?_, ?_, ?_, ?_⟩
  · simp only [translateBit, hd, e]; exact pack_step r 0 _ k h1
  · simp only [translateBit, hd]; exact pack_step r 8 _ k h2
  · simp only [translateBit, hd]; exact pack_step r 16 _ k h3
  · simp only [translateBit, hd]; exact pack_step r 24 _ k h4

theorem translated_loop (c : N64Controller) :
    Translated c.N64_raw_dump 8 (translate_N64_data c) := by
  refine forLoop_invariant translateBit (Translated c.N64_raw_dump) 8 0 _ ?_
    (fun i t _ _ h => translated_step _ i t h)
  refine ⟨rfl, ?_, ?_, ?_, ?_⟩ <;> intro j <;> simp

theorem msbFirstBits_ne_zero (bytes : List Nat) (q j : Nat) (hj : j < 8) :
    msbFirstBits bytes (8 * q + (7 - j)) ≠ 0 ↔ (bytes.getD q 0).testBit j = true := by
  have h1 : (8 * q + (7 - j)) / 8 = q := by omega
  have h2 : 7 - (8 * q + (7 - j)) % 8 = j := by omega
  simp only [msbFirstBits, h1, h2, Nat.testBit_to_div_mod, Nat.shiftRight_eq_div_pow,
    decide_eq_true_eq]
  omega

theorem eq_of_packed (bytes : List Nat) (q x : Nat) (hb : bytes.getD q 0 < 256)
    (hx : ∀ j, x.testBit j =
      decide (j < 8 ∧ 7 - j < 8 ∧ msbFirstBits bytes (8 * q + (7 - j)) ≠ 0)) :
    x = bytes.getD q 0 := by
  apply Nat.eq_of_testBit_eq
  intro j
  rw [hx j]
  by_cases hj : j < 8
  · rw [Bool.eq_iff_iff]
    simp only [decide_eq_true_eq]
    rw [msbFirstBits_ne_zero bytes q j hj]
    constructor
    · rintro ⟨_, _, h⟩; exact h
    · intro h; exact ⟨hj, by omega, h⟩
  · have : (bytes.getD q 0).testBit j = false :=
      testBit_false_of_lt (n := 8) hb (by omega)
    rw [this]
    simp [hj]

end N64Controller

/-- C10: `translate_N64_data` packs the 32 received bits most significant bit
first into four bytes and does not depend on the previous `N64_status`: for
every receive buffer and every `i` in 0..7, bit `7 - i` of `data1`, `data2`,
`stick_x`, `stick_y` is set iff entry `i`, `8 + i`, `16 + i`, `24 + i` is
non-zero; hence decoding the bit expansion of bytes `b1..b4` gives back exactly
`b1..b4`. -/
theorem C10_translate_packs_msb_first (c : N64Controller) :
    (∀ i, i < 8 →
      (((N64Controller.translate_N64_data c).N64_status.data1.testBit (7 - i) = true ↔
          c.N64_raw_dump i ≠ 0) ∧
       ((N64Controller.translate_N64_data c).N64_status.data2.testBit (7 - i) = true ↔
          c.N64_raw_dump (8 + i) ≠ 0) ∧
       ((N64Controller.translate_N64_data c).N64_status.stick_x.testBit (7 - i) = true ↔
          c.N64_raw_dump (16 + i) ≠ 0) ∧
       ((N64Controller.translate_N64_data c).N64_status.stick_y.testBit (7 - i) = true ↔
          c.N64_raw_dump (24 + i) ≠ 0))) ∧
    (∀ s : N64Status,
      (N64Controller.translate_N64_data { c with N64_status := s }).N64_status =
        (N64Controller.translate_N64_data c).N64_status) ∧
    (∀ b1 b2 b3 b4, b1 < 256 → b2 < 256 → b3 < 256 → b4 < 256 →
      (N64Controller.translate_N64_data
        { c with N64_raw_dump := N64Controller.msbFirstBits [b1, b2, b3, b4] }).N64_status =
        { data1 := b1, data2 := b2, stick_x := b3, stick_y := b4 }) := by
  refine ⟨?_, fun _ => rfl, ?_⟩
  · intro i hi
    have T := N64Controller.translated_loop c
    have e : 7 - (7 - i) = i := by omega
    have h7 : 7 - i < 8 := by omega
    refine ⟨?_, ?_, ?_, ?_⟩
    · rw [T.d1 (7 - i), e]; simp [h7, hi]
    · rw [T.d2 (7 - i), e]; simp [h7, hi]
    · rw [T.sx (7 - i), e]; simp [h7, hi]
    · rw [T.sy (7 - i), e]; simp [h7, hi]
  · intro b1 b2 b3 b4 h1 h2 h3 h4
    have T := N64Controller.translated_loop
      { c with N64_raw_dump := N64Controller.msbFirstBits [b1, b2, b3, b4] }
    have e1 := N64Controller.eq_of_packed [b1, b2, b3, b4] 0 _ h1 T.d1
    have e2 := N64Controller.eq_of_packed [b1, b2, b3, b4] 1 _ h2 T.d2
    have e3 := N64Controller.eq_of_packed [b1, b2, b3, b4] 2 _ h3 T.sx
    have e4 := N64Controller.eq_of_packed [b1, b2, b3, b4] 3 _ h4 T.sy
    cases hs : (N64Controller.translate_N64_data
      { c with N64_raw_dump := N64Controller.msbFirstBits [b1, b2, b3, b4] }).N64_status
    rw [hs] at e1 e2 e3 e4
    simp only at e1 e2 e3 e4
    rw [e1, e2, e3, e4]
    rfl

theorem C10_translate_packs_msb_first_witness :
    (0 < 8 ∧
      ((N64Controller.translate_N64_data N64Controller.new).N64_status.data1.testBit (7 - 0)
          = true ↔ N64Controller.new.N64_raw_dump 0 ≠ 0)) ∧
    (0x81 < 256 ∧ 0x20 < 256 ∧ 0x7F < 256 ∧ 0xFF < 256 ∧
      (N64Controller.translate_N64_data
        { N64Controller.new with
          N64_raw_dump := N64Controller.msbFirstBits [0x81, 0x20, 0x7F, 0xFF] }).N64_status =
        { data1 := 0x81, data2 := 0x20, stick_x := 0x7F, stick_y := 0xFF }) :=
  ⟨⟨by decide, ((C10_translate_packs_msb_first N64Controller.new).1 0 (by decide)).1⟩,
   ⟨by decide, by decide, by decide, by decide,
    (C10_translate_packs_msb_first N64Controller.new).2.2 0x81 0x20 0x7F 0xFF
      (by decide) (by decide) (by decide) (by decide)⟩⟩

/-! ## The single-wire receive phases -/

theorem spinWhile_silent_busy (q : Nat → Nat) (hq : N64Controller.silent q) :
    ∀ (t : Nat) (w : Wire), (spinWhile q true t w).arrived = false := by
  intro t
  induction t with
  | zero => intro w; rfl
  | succ t ih =>
    intro w
    have hw : (q w.queries != 0) = true := by simpa using hq w.queries
    simp only [spinWhile, hw, beq_self_eq_true, if_true]
    split
    · rfl
    · exact ih _

theorem spinWhile_silent_idle (q : Nat → Nat) (hq : N64Controller.silent q) (t : Nat) (w : Wire) :
    (spinWhile q false (t + 1) w).arrived = true := by
  have hw : (q w.queries != 0) = true := by simpa using hq w.queries
  simp [spinWhile, hw]

namespace N64Controller

theorem readLoop_frame (q : Nat → Nat) :
    ∀ (bitcount bitbin : Nat) (dump : Buffer) (w : Wire),
      bitbin ≤ (readLoop q bitcount bitbin dump w).bitbin ∧
      (readLoop q bitcount bitbin dump w).bitbin ≤ bitbin + bitcount ∧
      ∀ j, j < bitbin ∨ (readLoop q bitcount bitbin dump w).bitbin ≤ j →
        (readLoop q bitcount bitbin dump w).dump j = dump j := by
  intro bitcount
  induction bitcount with
  | zero => intro bitbin dump w; exact ⟨Nat.le_refl _, Nat.le_refl _, fun _ _ => rfl⟩
  | succ n ih =>
    intro bitbin dump w
    rw [readLoop]
    by_cases ha : (spinWhile q true 0x7f w).arrived = true
    · simp only [ha, Bool.not_true, Bool.false_eq_true, if_false]
      have hp : ∀ j v, j ≠ bitbin → poke dump bitbin v j = dump j := by
        intro j v hj; simp [poke, hj]
      have key : ∀ w', bitbin ≤ (readLoop q n (bitbin + 1)
            (poke dump bitbin (q (spinWhile q true 0x7f w).wire.queries)) w').bitbin ∧
          (readLoop q n (bitbin + 1)
            (poke dump bitbin (q (spinWhile q true 0x7f w).wire.queries)) w').bitbin
              ≤ bitbin + (n + 1) ∧
          ∀ j, j < bitbin ∨ (readLoop q n (bitbin + 1)
              (poke dump bitbin (q (spinWhile q true 0x7f w).wire.queries)) w').bitbin ≤ j →
            (readLoop q n (bitbin + 1)
              (poke dump bitbin (q (spinWhile q true 0x7f w).wire.queries)) w').dump j = dump j := by
        intro w'
        obtain ⟨h1, h2, h3⟩ := ih (bitbin + 1) (poke dump bitbin
          (q (spinWhile q true 0x7f w).wire.queries)) w'
        refine ⟨by omega, by omega, fun j hj => ?_⟩
        rw [h3 j (by omega)]
        exact hp j _ (by omega)
      by_cases hn : n = 0
      · simp only [hn, if_true]
        exact ⟨by omega, by omega, fun j hj => hp j _ (by omega)⟩
      · simp only [hn, if_false]
        split
        · dsimp only
          exact ⟨by omega, by omega, fun j hj => hp j _ (by omega)⟩
        · exact key _
    · simp only [Bool.not_eq_true] at ha
      simp only [ha, Bool.not_false, if_true]
      exact ⟨Nat.le_refl _, by omega, by intros; first | rfl | trivial⟩

theorem receive_frame (q : Nat → Nat) (dump : Buffer) (w : Wire) :
    (receive q dump w).bitbin ≤ 32 ∧
      ∀ j, (receive q dump w).bitbin ≤ j → (receive q dump w).dump j = dump j := by
  rw [receive]
  split
  · exact ⟨Nat.zero_le _, fun _ _ => rfl⟩
  · obtain ⟨_, h2, h3⟩ := readLoop_frame q 32 0 dump (spinWhile q false 0x7f w).wire
    exact ⟨by omega, fun j hj => h3 j (Or.inr hj)⟩

theorem receive_silent (q : Nat → Nat) (hq : silent q) (dump : Buffer) (w : Wire) :
    (receive q dump w).bitbin = 0 := by
  rw [receive]
  split
  · rfl
  · rw [readLoop]
    simp [spinWhile_silent_busy q hq]

theorem rumbleResponse_silent (q : Nat → Nat) (hq : silent q) (w : Wire) :
    (rumbleResponse q w).completed = false := by
  rw [rumbleResponse]
  split
  · rfl
  · rw [rumbleReadBits]
    simp [spinWhile_silent_busy q hq]

end N64Controller

/-- C4, as the code has it: `writeMemoryPak` returns true whether or not the
1-byte status response completes, so `initializeRumblePak` returns true and
sets `rumblePakDetected` on every line, also on a silent one, where the read
phase of its exchange times out. -/
theorem C4_write_reports_success_always (q : Nat → Nat) (c : N64Controller) :
    (∀ (address : Nat) (data : Option Buffer) (length : Int),
      (N64Controller.writeMemoryPak q address data length c).1 = true) ∧
    (N64Controller.initializeRumblePak q c).1 = true ∧
    (N64Controller.initializeRumblePak q c).2.rumblePakDetected = true ∧
    (N64Controller.silent q → (N64Controller.initExchange q c).completed = false) :=
  ⟨fun _ _ _ => rfl, rfl, rfl,
   fun hq => N64Controller.rumbleResponse_silent q hq _⟩

theorem C4_write_reports_success_always_witness :
    N64Controller.silent (fun _ => 1) ∧
    (N64Controller.initExchange (fun _ => 1) N64Controller.new).completed = false :=
  ⟨fun _ => Nat.one_ne_zero,
   (C4_write_reports_success_always (fun _ => 1) N64Controller.new).2.2.2 (fun _ => Nat.one_ne_zero)⟩

/-- C4 fails as stated: on a line that is never pulled low the status response
of the initialization write times out, yet `writeMemoryPak` and
`initializeRumblePak` return true and `rumblePakDetected` becomes true. -/
theorem C4_timeout_is_not_a_failure :
    (N64Controller.initExchange (fun _ => 1) N64Controller.new).completed = false ∧
    (N64Controller.writeMemoryPak (fun _ => 1) RUMBLEPAK_INIT_ADDRESS
      (some N64Controller.init_data) 32 N64Controller.new).1 = true ∧
    (N64Controller.initializeRumblePak (fun _ => 1) N64Controller.new).1 = true ∧
    (N64Controller.initializeRumblePak (fun _ => 1)
      N64Controller.new).2.rumblePakDetected = true := by
  refine ⟨?_, rfl, rfl, rfl⟩
  decide

/-- C5, as the code has it: `getN64Packet` decodes the receive buffer whatever
the receive phase did; when that phase stops after `k` samples the entries from
`k` on are those the earlier poll left, and on a silent line nothing is sampled
and `N64_status` is the decoding of the earlier buffer. -/
theorem C5_short_read_decodes_stale_buffer (q : Nat → Nat) (c : N64Controller) :
    (N64Controller.getN64Packet q c).N64_status =
      (N64Controller.translate_N64_data
        { c with N64_raw_dump := (N64Controller.statusReceive q c).dump }).N64_status ∧
    (N64Controller.statusReceive q c).bitbin ≤ 32 ∧
    (∀ j, (N64Controller.statusReceive q c).bitbin ≤ j →
      (N64Controller.statusReceive q c).dump j = c.N64_raw_dump j) ∧
    (N64Controller.silent q →
      (N64Controller.statusReceive q c).bitbin = 0 ∧
      (N64Controller.getN64Packet q c).N64_status =
        (N64Controller.translate_N64_data c).N64_status) := by
  have F := N64Controller.receive_frame q c.N64_raw_dump
    { c.wire with events := (N64Controller.transmit N64Controller.N64Command 1 c.wire.events).2 }
  refine ⟨rfl, F.1, F.2, ?_⟩
  intro hq
  have h0 : (N64Controller.statusReceive q c).bitbin = 0 :=
    N64Controller.receive_silent q hq _ _
  refine ⟨h0, ?_⟩
  have hd : (N64Controller.statusReceive q c).dump = c.N64_raw_dump := by
    funext j
    exact F.2 j (by rw [show (N64Controller.receive q c.N64_raw_dump _).bitbin = 0 from h0]; omega)
  show (N64Controller.translate_N64_data
    { c with N64_raw_dump := (N64Controller.statusReceive q c).dump }).N64_status = _
  rw [hd]

theorem C5_short_read_decodes_stale_buffer_witness :
    N64Controller.silent (fun _ => 1) ∧
    (N64Controller.statusReceive (fun _ => 1) N64Controller.new).bitbin = 0 ∧
    (N64Controller.getN64Packet (fun _ => 1) N64Controller.new).N64_status =
      (N64Controller.translate_N64_data N64Controller.new).N64_status :=
  ⟨fun _ => Nat.one_ne_zero,
   (C5_short_read_decodes_stale_buffer (fun _ => 1) N64Controller.new).2.2.2
     (fun _ => Nat.one_ne_zero)⟩

/-- C5 fails as stated: on a line that is never pulled low the receive phase
samples no bit, and `N64_status` is all buttons pressed when the earlier poll
left ones in the receive buffer but no button when it left zeros. -/
theorem C5_aborted_read_is_decoded :
    (N64Controller.statusReceive (fun _ => 1)
      { N64Controller.new with N64_raw_dump := fun _ => 1 }).bitbin < 32 ∧
    (N64Controller.getN64Packet (fun _ => 1)
      { N64Controller.new with N64_raw_dump := fun _ => 1 }).N64_status =
        { data1 := 0xFF, data2 := 0xFF, stick_x := 0xFF, stick_y := 0xFF } ∧
    (N64Controller.getN64Packet (fun _ => 1) N64Controller.new).N64_status =
        { data1 := 0, data2 := 0, stick_x := 0, stick_y := 0 } := by
  decide

/-! ## Bounds and frame of the single-wire receive phases -/

theorem spinWhile_events (q : Nat → Nat) (busy : Bool) :
    ∀ (t : Nat) (w : Wire), (spinWhile q busy t w).wire.events = w.events := by
  intro t
  induction t with
  | zero => intro w; rfl
  | succ t ih =>
    intro w
    rw [spinWhile]
    split
    · split
      · rfl
      · rw [ih]
    · rfl

theorem spinWhile_queries (q : Nat → Nat) (busy : Bool) :
    ∀ (t : Nat) (w : Wire),
      w.queries ≤ (spinWhile q busy t w).wire.queries ∧
      (spinWhile q busy t w).wire.queries ≤ w.queries + t ∧
      ((spinWhile q busy t w).arrived = true → w.queries < (spinWhile q busy t w).wire.queries) := by
  intro t
  induction t with
  | zero => intro w; exact ⟨Nat.le_refl _, Nat.le_refl _, fun h => by cases h⟩
  | succ t ih =>
    intro w
    rw [spinWhile]
    split
    · split
      · exact ⟨by simp, by simp, fun h => by cases h⟩
      · obtain ⟨h1, h2, h3⟩ := ih { w with queries := w.queries + 1 }
        dsimp only at h1 h2 h3
        exact ⟨by omega, by omega, fun h => by have := h3 h; omega⟩
    · exact ⟨by simp, by simp, fun _ => by simp⟩

namespace N64Controller

theorem roundWire_shift (q : Nat → Nat) (w : Wire) :
    ∀ i, roundWire q (roundWire q w 1) i = roundWire q w (i + 1) := by
  intro i
  induction i with
  | zero => rfl
  | succ i ih => rw [roundWire, ih]; rfl

theorem sampleCursor_lt (q : Nat → Nat) (w : Wire) (i : Nat) :
    sampleCursor q w i < sampleCursor q w (i + 1) := by
  unfold sampleCursor
  have h1 := (spinWhile_queries q true 0x7f (roundWire q w (i + 1))).1
  have h2 : (spinWhile q true 0x7f (roundWire q w i)).wire.queries + 1 ≤
      (roundWire q w (i + 1)).queries := by
    rw [roundWire]
    exact (spinWhile_queries q false 0x3f
      ⟨(spinWhile q true 0x7f (roundWire q w i)).wire.events ++ [LineEvent.delay 32],
       (spinWhile q true 0x7f (roundWire q w i)).wire.queries + 1⟩).1
  omega

theorem readLoop_samples (q : Nat → Nat) :
    ∀ (bitcount bitbin : Nat) (dump : Buffer) (w : Wire) (i : Nat),
      bitbin + i < (readLoop q bitcount bitbin dump w).bitbin →
        (readLoop q bitcount bitbin dump w).dump (bitbin + i) = q (sampleCursor q w i) % 256 := by
  intro bitcount
  induction bitcount with
  | zero =>
    intro bitbin dump w i h
    simp only [readLoop] at h
    omega
  | succ n ih =>
    intro bitbin dump w i
    have F := readLoop_frame q n (bitbin + 1)
    rw [readLoop]
    by_cases ha : (spinWhile q true 0x7f w).arrived = true
    · simp only [ha, Bool.not_true, Bool.false_eq_true, if_false]
      have h0 : ∀ v, poke dump bitbin v bitbin = v % 256 := by intro v; simp [poke]
      have key : ∀ w', w' = roundWire q w 1 →
          bitbin + i < (readLoop q n (bitbin + 1)
            (poke dump bitbin (q (spinWhile q true 0x7f w).wire.queries)) w').bitbin →
          (readLoop q n (bitbin + 1)
            (poke dump bitbin (q (spinWhile q true 0x7f w).wire.queries)) w').dump (bitbin + i) =
            q (sampleCursor q w i) % 256 := by
        intro w' hw' hlt
        cases i with
        | zero =>
          simp only [Nat.add_zero]
          rw [(F _ w').2.2 bitbin (Or.inl (Nat.lt_succ_self _)), h0]
          rfl
        | succ i =>
          have e : bitbin + (i + 1) = bitbin + 1 + i := by omega
          rw [e] at hlt ⊢
          rw [ih (bitbin + 1) _ w' i hlt, hw']
          unfold sampleCursor
          rw [roundWire_shift]
      by_cases hn : n = 0
      · simp only [hn, if_true]
        intro h
        have : i = 0 := by omega
        subst this
        simp only [Nat.add_zero]
        rw [h0]
        rfl
      · simp only [hn, if_false]
        split
        · dsimp only
          intro h
          have : i = 0 := by omega
          subst this
          simp only [Nat.add_zero]
          rw [h0]
          rfl
        · exact key _ rfl
    · simp only [Bool.not_eq_true] at ha
      simp only [ha, Bool.not_false, if_true]
      intro h
      omega

theorem readLoop_events (q : Nat → Nat) :
    ∀ (bitcount bitbin : Nat) (dump : Buffer) (w : Wire),
      (readLoop q bitcount bitbin dump w).wire.events =
        w.events ++ List.replicate ((readLoop q bitcount bitbin dump w).bitbin - bitbin)
          (LineEvent.delay 32) := by
  intro bitcount
  induction bitcount with
  | zero => intro bitbin dump w; simp [readLoop]
  | succ n ih =>
    intro bitbin dump w
    have F := readLoop_frame q n (bitbin + 1)
    rw [readLoop]
    by_cases ha : (spinWhile q true 0x7f w).arrived = true
    · simp only [ha, Bool.not_true, Bool.false_eq_true, if_false]
      by_cases hn : n = 0
      · simp [hn, spinWhile_events]
      · simp only [hn, if_false]
        split
        · simp [spinWhile_events]
        · rw [ih]
          have h1 := (F (poke dump bitbin (q (spinWhile q true 0x7f w).wire.queries))
            (spinWhile q false 0x3f
              { events := (spinWhile q true 0x7f w).wire.events ++ [LineEvent.delay 32],
                queries := (spinWhile q true 0x7f w).wire.queries + 1 }).wire).1
          generalize (readLoop q n (bitbin + 1) _ _).bitbin = k at h1 ⊢
          obtain ⟨m, rfl⟩ := Nat.exists_eq_add_of_le h1
          simp only [spinWhile_events, List.append_assoc]
          have e1 : bitbin + 1 + m - (bitbin + 1) = m := by omega
          have e2 : bitbin + 1 + m - bitbin = m + 1 := by omega
          rw [e1, e2, List.replicate_succ]
          rfl
    · simp only [Bool.not_eq_true] at ha
      simp [ha, spinWhile_events]

theorem readLoop_queries (q : Nat → Nat) :
    ∀ (bitcount bitbin : Nat) (dump : Buffer) (w : Wire),
      (readLoop q bitcount bitbin dump w).wire.queries ≤ w.queries + bitcount * 191 := by
  intro bitcount
  induction bitcount with
  | zero => intro bitbin dump w; simp [readLoop]
  | succ n ih =>
    intro bitbin dump w
    have ha := (spinWhile_queries q true 0x7f w).2.1
    have hb := (spinWhile_queries q false 0x3f
      ⟨(spinWhile q true 0x7f w).wire.events ++ [LineEvent.delay 32],
       (spinWhile q true 0x7f w).wire.queries + 1⟩).2.1
    have hr := ih (bitbin + 1) (poke dump bitbin (q (spinWhile q true 0x7f w).wire.queries))
      (spinWhile q false 0x3f
        ⟨(spinWhile q true 0x7f w).wire.events ++ [LineEvent.delay 32],
         (spinWhile q true 0x7f w).wire.queries + 1⟩).wire
    dsimp only at hb
    rw [readLoop]
    dsimp only
    split
    · dsimp only; omega
    · split
      · dsimp only; omega
      · split
        · dsimp only; omega
        · omega

theorem rumbleReadBits_bounds (q : Nat → Nat) :
    ∀ (n response_byte : Nat) (w : Wire),
      (rumbleReadBits q n response_byte w).wire.queries ≤ w.queries + n * 191 ∧
      ∃ m, m ≤ n ∧ (rumbleReadBits q n response_byte w).wire.events =
        w.events ++ List.replicate m (LineEvent.delay 32) := by
  intro n
  induction n with
  | zero => intro r w; exact ⟨by simp [rumbleReadBits], 0, Nat.le_refl _, by simp [rumbleReadBits]⟩
  | succ n ih =>
    intro r w
    have ha := (spinWhile_queries q true 0x7f w).2.1
    have hb := (spinWhile_queries q false 0x3f
      ⟨(spinWhile q true 0x7f w).wire.events ++ [LineEvent.delay 32],
       (spinWhile q true 0x7f w).wire.queries + 1⟩).2.1
    dsimp only at hb
    rw [rumbleReadBits]
    dsimp only
    split
    · exact ⟨by dsimp only; omega, 0, Nat.zero_le _, by simp [spinWhile_events]⟩
    · split
      · exact ⟨by dsimp only; omega, 1, by omega, by simp [spinWhile_events]⟩
      · obtain ⟨h1, m, hm, he⟩ := ih
          (if q (spinWhile q true 0x7f w).wire.queries ≠ 0 then (r ||| 1 <<< n) % 256 else r)
          (spinWhile q false 0x3f
            ⟨(spinWhile q true 0x7f w).wire.events ++ [LineEvent.delay 32],
             (spinWhile q true 0x7f w).wire.queries + 1⟩).wire
        refine ⟨by omega, m + 1, by omega, ?_⟩
        rw [he]
        simp only [spinWhile_events, List.append_assoc, List.replicate_succ]
        rfl

theorem translate_zero (c : N64Controller) (h : ∀ j, j < 32 → c.N64_raw_dump j = 0) :
    (translate_N64_data c).N64_status = { data1 := 0, data2 := 0, stick_x := 0, stick_y := 0 } := by
  have T := translated_loop c
  have z : ∀ (o x : Nat), o + 8 ≤ 32 →
      (∀ j, x.testBit j = decide (j < 8 ∧ 7 - j < 8 ∧ c.N64_raw_dump (o + (7 - j)) ≠ 0)) →
      x = 0 := by
    intro o x ho hx
    apply Nat.eq_of_testBit_eq
    intro j
    rw [hx j, Nat.zero_testBit]
    by_cases hj : j < 8
    · have := h (o + (7 - j)) (by omega)
      simp [this]
    · simp [hj]
  have e1 := z 0 _ (by omega) T.d1
  have e2 := z 8 _ (by omega) T.d2
  have e3 := z 16 _ (by omega) T.sx
  have e4 := z 24 _ (by omega) T.sy
  cases hs : (translate_N64_data c).N64_status
  rw [hs] at e1 e2 e3 e4
  simp only at e1 e2 e3 e4
  rw [e1, e2, e3, e4]

end N64Controller

theorem receive_samples (q : Nat → Nat) (dump : Buffer) (w : Wire) (i : Nat)
    (h : i < (N64Controller.receive q dump w).bitbin) :
    (N64Controller.receive q dump w).dump i =
      q (N64Controller.sampleCursor q (spinWhile q false 0x7f w).wire i) % 256 := by
  revert h
  rw [N64Controller.receive]
  split
  · intro h; exact absurd h (Nat.not_lt_zero _)
  · intro h
    have := N64Controller.readLoop_samples q 32 0 dump (spinWhile q false 0x7f w).wire i
      (by rw [Nat.zero_add]; exact h)
    rw [Nat.zero_add] at this
    exact this

theorem N64Controller.lowArrived_shift (q : Nat → Nat) (w : Wire) (i : Nat) :
    N64Controller.lowArrived q (N64Controller.roundWire q w 1) i =
      N64Controller.lowArrived q w (i + 1) := by
  unfold N64Controller.lowArrived
  rw [N64Controller.roundWire_shift]

theorem N64Controller.highArrived_shift (q : Nat → Nat) (w : Wire) (i : Nat) :
    N64Controller.highArrived q (N64Controller.roundWire q w 1) i =
      N64Controller.highArrived q w (i + 1) := by
  unfold N64Controller.highArrived
  rw [N64Controller.roundWire_shift]

theorem N64Controller.readLoop_stop (q : Nat → Nat) :
    ∀ (bitcount bitbin : Nat) (dump : Buffer) (w : Wire),
      ∃ m, m ≤ bitcount ∧
        (N64Controller.readLoop q bitcount bitbin dump w).bitbin = bitbin + m ∧
        (∀ i, i < m → N64Controller.lowArrived q w i = true) ∧
        (∀ i, i + 1 < m → N64Controller.highArrived q w i = true) ∧
        (m < bitcount → N64Controller.lowArrived q w m = false ∨
          (0 < m ∧ N64Controller.highArrived q w (m - 1) = false)) := by
  intro bitcount
  induction bitcount with
  | zero =>
    intro bitbin dump w
    exact ⟨0, Nat.le_refl _, rfl, fun i h => absurd h (Nat.not_lt_zero _),
      fun i h => absurd h (Nat.not_lt_zero _), fun h => absurd h (Nat.lt_irrefl _)⟩
  | succ n ih =>
    intro bitbin dump w
    rw [N64Controller.readLoop]
    by_cases ha : (spinWhile q true 0x7f w).arrived = true
    · have hl0 : N64Controller.lowArrived q w 0 = true := ha
      simp only [ha, Bool.not_true, Bool.false_eq_true, if_false]
      have low1 : ∀ i, i < 1 → N64Controller.lowArrived q w i = true := by
        intro i hi
        have : i = 0 := by omega
        subst this
        exact hl0
      by_cases hn : n = 0
      · simp only [hn, if_true]
        exact ⟨1, by omega, rfl, low1, fun i h => by omega, fun h => by omega⟩
      · simp only [hn, if_false]
        by_cases hb : N64Controller.highArrived q w 0 = true
        · have hb' : (spinWhile q false 0x3f
              { events := (spinWhile q true 0x7f w).wire.events ++ [LineEvent.delay 32],
                queries := (spinWhile q true 0x7f w).wire.queries + 1 }).arrived = true := hb
          simp only [hb', Bool.not_true, Bool.false_eq_true, if_false]
          obtain ⟨m, hm, hbit, hlow, hhigh, hstop⟩ := ih (bitbin + 1)
            (poke dump bitbin (q (spinWhile q true 0x7f w).wire.queries))
            (N64Controller.roundWire q w 1)
          refine ⟨m + 1, by omega, ?_, ?_, ?_, ?_⟩
          · have e : bitbin + (m + 1) = bitbin + 1 + m := by omega
            rw [e]
            exact hbit
          · intro i hi
            cases i with
            | zero => exact hl0
            | succ i =>
              rw [← N64Controller.lowArrived_shift]
              exact hlow i (by omega)
          · intro i hi
            cases i with
            | zero => exact hb
            | succ i =>
              rw [← N64Controller.highArrived_shift]
              exact hhigh i (by omega)
          · intro hlt
            rcases hstop (by omega) with h | ⟨hpos, h⟩
            · left
              rw [← N64Controller.lowArrived_shift]
              exact h
            · right
              refine ⟨Nat.succ_pos _, ?_⟩
              have e : m + 1 - 1 = (m - 1) + 1 := by omega
              rw [e, ← N64Controller.highArrived_shift]
              exact h
        · simp only [Bool.not_eq_true] at hb
          have hb' : (spinWhile q false 0x3f
              { events := (spinWhile q true 0x7f w).wire.events ++ [LineEvent.delay 32],
                queries := (spinWhile q true 0x7f w).wire.queries + 1 }).arrived = false := hb
          simp only [hb', Bool.not_false, if_true]
          exact ⟨1, by omega, rfl, low1, fun i h => by omega,
            fun _ => Or.inr ⟨Nat.one_pos, hb⟩⟩
    · simp only [Bool.not_eq_true] at ha
      simp only [ha, Bool.not_false, if_true]
      exact ⟨0, Nat.zero_le _, rfl, fun i h => absurd h (Nat.not_lt_zero _),
        fun i h => absurd h (Nat.not_lt_zero _), fun _ => Or.inl ha⟩

theorem receive_stop (q : Nat → Nat) (dump : Buffer) (w : Wire) :
    ((spinWhile q false 0x7f w).arrived = false → (N64Controller.receive q dump w).bitbin = 0) ∧
    (0 < (N64Controller.receive q dump w).bitbin → (spinWhile q false 0x7f w).arrived = true) ∧
    (∀ i, i < (N64Controller.receive q dump w).bitbin →
      N64Controller.lowArrived q (spinWhile q false 0x7f w).wire i = true) ∧
    (∀ i, i + 1 < (N64Controller.receive q dump w).bitbin →
      N64Controller.highArrived q (spinWhile q false 0x7f w).wire i = true) ∧
    ((N64Controller.receive q dump w).bitbin < 32 →
      (spinWhile q false 0x7f w).arrived = false ∨
      N64Controller.lowArrived q (spinWhile q false 0x7f w).wire
        (N64Controller.receive q dump w).bitbin = false ∨
      (0 < (N64Controller.receive q dump w).bitbin ∧
        N64Controller.highArrived q (spinWhile q false 0x7f w).wire
          ((N64Controller.receive q dump w).bitbin - 1) = false)) := by
  by_cases ha : (spinWhile q false 0x7f w).arrived = true
  · have hr : N64Controller.receive q dump w =
        N64Controller.readLoop q 32 0 dump (spinWhile q false 0x7f w).wire := by
      rw [N64Controller.receive]
      simp [ha]
    obtain ⟨m, _, hbit, hlow, hhigh, hstop⟩ :=
      N64Controller.readLoop_stop q 32 0 dump (spinWhile q false 0x7f w).wire
    rw [Nat.zero_add] at hbit
    rw [hr, hbit]
    exact ⟨fun h => (by rw [ha] at h; cases h), fun _ => ha, hlow, hhigh,
      fun h => Or.inr (hstop h)⟩
  · simp only [Bool.not_eq_true] at ha
    have hr : (N64Controller.receive q dump w).bitbin = 0 := by
      rw [N64Controller.receive]
      simp [ha]
    rw [hr]
    exact ⟨fun _ => rfl, fun h => absurd h (Nat.lt_irrefl _),
      fun i h => absurd h (Nat.not_lt_zero _), fun i h => absurd h (Nat.not_lt_zero _),
      fun _ => Or.inl ha⟩

/-! ## Claims C11 to C20 -/

/-- C16: the receive phases terminate within fixed bounds on every line: a wait
loop with timeout `0x7f` evaluates `N64_QUERY` at most 127 times and one with
`0x3f` at most 63 times; the status query samples at most 32 bits and leaves
every entry of the receive buffer from index 32 on untouched; the write
response samples at most 8 bits. -/
theorem C16_receive_phases_are_bounded (q : Nat → Nat) :
    (∀ (busy : Bool) (w : Wire),
      (spinWhile q busy 0x7f w).wire.queries ≤ w.queries + 127 ∧
      (spinWhile q busy 0x3f w).wire.queries ≤ w.queries + 63) ∧
    (∀ (dump : Buffer) (w : Wire),
      (N64Controller.receive q dump w).bitbin ≤ 32 ∧
      (N64Controller.receive q dump w).wire.events =
        w.events ++ List.replicate (N64Controller.receive q dump w).bitbin (LineEvent.delay 32) ∧
      (N64Controller.receive q dump w).wire.queries ≤ w.queries + 127 + 32 * (127 + 1 + 63) ∧
      (∀ j, 32 ≤ j → (N64Controller.receive q dump w).dump j = dump j)) ∧
    (∀ w : Wire,
      (N64Controller.rumbleResponse q w).wire.queries ≤ w.queries + 127 + 8 * (127 + 1 + 63) ∧
      ∃ m, m ≤ 8 ∧ (N64Controller.rumbleResponse q w).wire.events =
        w.events ++ List.replicate m (LineEvent.delay 32)) := by
  refine ⟨?_, ?_, ?_⟩
  · intro busy w
    exact ⟨(spinWhile_queries q busy 0x7f w).2.1, (spinWhile_queries q busy 0x3f w).2.1⟩
  · intro dump w
    have F := N64Controller.receive_frame q dump w
    have h0 := (spinWhile_queries q false 0x7f w).2.1
    refine ⟨F.1, ?_, ?_, fun j hj => F.2 j (by omega)⟩
    · rw [N64Controller.receive]
      split
      · simp [spinWhile_events]
      · rw [N64Controller.readLoop_events, spinWhile_events]
        rfl
    · rw [N64Controller.receive]
      split
      · dsimp only; omega
      · have := N64Controller.readLoop_queries q 32 0 dump (spinWhile q false 0x7f w).wire
        omega
  · intro w
    have h0 := (spinWhile_queries q false 0x7f w).2.1
    rw [N64Controller.rumbleResponse]
    split
    · exact ⟨by dsimp only; omega, 0, Nat.zero_le _, by simp [spinWhile_events]⟩
    · obtain ⟨h1, m, hm, he⟩ :=
        N64Controller.rumbleReadBits_bounds q 8 0 (spinWhile q false 0x7f w).wire
      exact ⟨by omega, m, hm, by rw [he, spinWhile_events]⟩

theorem C16_receive_phases_are_bounded_witness :
    40 ≥ 32 ∧
    (N64Controller.receive N64Controller.zeroPeer (fun _ => 7) ⟨[], 0⟩).dump 40 = 7 :=
  ⟨by decide,
   ((C16_receive_phases_are_bounded N64Controller.zeroPeer).2.1 (fun _ => 7) ⟨[], 0⟩).2.2.2
      40 (by decide)⟩

/-- C17: when the receive phase of `N64_send_data_request` stops after `k`
samples, entries `0..k-1` of `N64_raw_dump` hold the `k` sampled values in
arrival order and every entry from `k` on is what it was before the call.  `k`
is below 32 only on a timeout: the first wait timed out (`k = 0`), or the wait
for the line to go low in round `k` did, or the wait for the line to go high
after sample `k - 1` did, every wait before it having succeeded.  When no wait
times out, `k = 32` and all 32 entries hold the 32 samples in arrival order. -/
theorem C17_partial_read_frame (q : Nat → Nat) (buffer : Buffer) (length : Nat)
    (c : N64Controller) :
    (N64Controller.N64_send_data_request q buffer length c).2.N64_raw_dump =
      (N64Controller.receive q c.N64_raw_dump
        { c.wire with events := (N64Controller.transmit buffer length c.wire.events).2 }).dump ∧
    (∀ (dump : Buffer) (w : Wire),
      (N64Controller.receive q dump w).bitbin ≤ 32 ∧
      (∀ i, i < (N64Controller.receive q dump w).bitbin →
        (N64Controller.receive q dump w).dump i =
          q (N64Controller.sampleCursor q (spinWhile q false 0x7f w).wire i) % 256) ∧
      (∀ i, N64Controller.sampleCursor q (spinWhile q false 0x7f w).wire i <
        N64Controller.sampleCursor q (spinWhile q false 0x7f w).wire (i + 1)) ∧
      (∀ j, (N64Controller.receive q dump w).bitbin ≤ j →
        (N64Controller.receive q dump w).dump j = dump j) ∧
      ((spinWhile q false 0x7f w).arrived = false →
        (N64Controller.receive q dump w).bitbin = 0) ∧
      (0 < (N64Controller.receive q dump w).bitbin →
        (spinWhile q false 0x7f w).arrived = true) ∧
      (∀ i, i < (N64Controller.receive q dump w).bitbin →
        N64Controller.lowArrived q (spinWhile q false 0x7f w).wire i = true) ∧
      (∀ i, i + 1 < (N64Controller.receive q dump w).bitbin →
        N64Controller.highArrived q (spinWhile q false 0x7f w).wire i = true) ∧
      ((N64Controller.receive q dump w).bitbin < 32 →
        (spinWhile q false 0x7f w).arrived = false ∨
        N64Controller.lowArrived q (spinWhile q false 0x7f w).wire
          (N64Controller.receive q dump w).bitbin = false ∨
        (0 < (N64Controller.receive q dump w).bitbin ∧
          N64Controller.highArrived q (spinWhile q false 0x7f w).wire
            ((N64Controller.receive q dump w).bitbin - 1) = false)) ∧
      ((spinWhile q false 0x7f w).arrived = true →
        (∀ i, i < 32 → N64Controller.lowArrived q (spinWhile q false 0x7f w).wire i = true) →
        (∀ i, i < 31 → N64Controller.highArrived q (spinWhile q false 0x7f w).wire i = true) →
        (N64Controller.receive q dump w).bitbin = 32 ∧
        ∀ i, i < 32 → (N64Controller.receive q dump w).dump i =
          q (N64Controller.sampleCursor q (spinWhile q false 0x7f w).wire i) % 256)) := by
  refine ⟨rfl, ?_⟩
  intro dump w
  have F := N64Controller.receive_frame q dump w
  obtain ⟨s1, s2, s3, s4, s5⟩ := receive_stop q dump w
  refine ⟨F.1, fun i h => receive_samples q dump w i h,
    fun i => N64Controller.sampleCursor_lt q _ i, F.2, s1, s2, s3, s4, s5, ?_⟩
  intro h0 hlow hhigh
  have h32 : (N64Controller.receive q dump w).bitbin = 32 := by
    by_cases hlt : (N64Controller.receive q dump w).bitbin < 32
    · rcases s5 hlt with h | h | ⟨hpos, h⟩
      · rw [h0] at h; cases h
      · rw [hlow _ hlt] at h; cases h
      · rw [hhigh _ (by omega)] at h; cases h
    · have := F.1
      omega
  exact ⟨h32, fun i hi => receive_samples q dump w i (by rw [h32]; exact hi)⟩

set_option maxRecDepth 20000 in
theorem C17_partial_read_frame_witness :
    (5 < (N64Controller.receive N64Controller.zeroPeer (fun _ => 7) ⟨[], 0⟩).bitbin ∧
      (N64Controller.receive N64Controller.zeroPeer (fun _ => 7) ⟨[], 0⟩).dump 5 =
        N64Controller.zeroPeer (N64Controller.sampleCursor N64Controller.zeroPeer
          (spinWhile N64Controller.zeroPeer false 0x7f ⟨[], 0⟩).wire 5) % 256) ∧
    ((N64Controller.receive (fun _ => 1) (fun _ => 7) ⟨[], 0⟩).bitbin ≤ 3 ∧
      (N64Controller.receive (fun _ => 1) (fun _ => 7) ⟨[], 0⟩).dump 3 = 7) ∧
    ((spinWhile N64Controller.zeroPeer false 0x7f ⟨[], 0⟩).arrived = true ∧
      (∀ i, i < 32 → N64Controller.lowArrived N64Controller.zeroPeer
        (spinWhile N64Controller.zeroPeer false 0x7f ⟨[], 0⟩).wire i = true) ∧
      (∀ i, i < 31 → N64Controller.highArrived N64Controller.zeroPeer
        (spinWhile N64Controller.zeroPeer false 0x7f ⟨[], 0⟩).wire i = true) ∧
      (N64Controller.receive N64Controller.zeroPeer (fun _ => 7) ⟨[], 0⟩).bitbin = 32) ∧
    ((N64Controller.receive (fun _ => 1) (fun _ => 7) ⟨[], 0⟩).bitbin < 32 ∧
      N64Controller.lowArrived (fun _ => 1) (spinWhile (fun _ => 1) false 0x7f ⟨[], 0⟩).wire
        (N64Controller.receive (fun _ => 1) (fun _ => 7) ⟨[], 0⟩).bitbin = false) :=
  ⟨⟨by decide,
    ((C17_partial_read_frame N64Controller.zeroPeer N64Controller.N64Command 1
      N64Controller.new).2 (fun _ => 7) ⟨[], 0⟩).2.1 5 (by decide)⟩,
   ⟨by decide,
    ((C17_partial_read_frame (fun _ => 1) N64Controller.N64Command 1
      N64Controller.new).2 (fun _ => 7) ⟨[], 0⟩).2.2.2.1 3 (by decide)⟩,
   ⟨by decide, by decide, by decide,
    (((C17_partial_read_frame N64Controller.zeroPeer N64Controller.N64Command 1
      N64Controller.new).2 (fun _ => 7) ⟨[], 0⟩).2.2.2.2.2.2.2.2.2
        (by decide) (by decide) (by decide)).1⟩,
   ⟨by decide, by decide⟩⟩

/-- C11, as the code has it: when the status query is answered in full and every
one of the 32 sampled bits is zero, `N64_status` is all zero: no button is
pressed and `stick_x` and `stick_y` are 0, the raw bytes, not `0x80`. -/
theorem C11_all_zero_response_decodes_to_zero (q : Nat → Nat) (c : N64Controller)
    (hfull : (N64Controller.statusReceive q c).bitbin = 32)
    (hzero : ∀ i, i < 32 → q (N64Controller.sampleCursor q (N64Controller.statusWire q c) i) = 0) :
    (N64Controller.getN64Packet q c).N64_status =
      { data1 := 0, data2 := 0, stick_x := 0, stick_y := 0 } := by
  have hd : ∀ j, j < 32 → (N64Controller.statusReceive q c).dump j = 0 := by
    intro j hj
    have hlt : j < (N64Controller.statusReceive q c).bitbin := by rw [hfull]; exact hj
    have key : (N64Controller.statusReceive q c).dump j =
        q (N64Controller.sampleCursor q (N64Controller.statusWire q c) j) % 256 :=
      receive_samples q c.N64_raw_dump
        { c.wire with events := (N64Controller.transmit N64Controller.N64Command 1
            c.wire.events).2 } j hlt
    rw [key, hzero j hj]
  exact N64Controller.translate_zero
    { c with N64_raw_dump := (N64Controller.statusReceive q c).dump } hd

theorem C11_all_zero_response_decodes_to_zero_witness :
    (N64Controller.statusReceive N64Controller.zeroPeer
      { N64Controller.new with N64_raw_dump := fun _ => 1 }).bitbin = 32 ∧
    (∀ i, i < 32 → N64Controller.zeroPeer (N64Controller.sampleCursor N64Controller.zeroPeer
      (N64Controller.statusWire N64Controller.zeroPeer
        { N64Controller.new with N64_raw_dump := fun _ => 1 }) i) = 0) ∧
    (N64Controller.getN64Packet N64Controller.zeroPeer
      { N64Controller.new with N64_raw_dump := fun _ => 1 }).N64_status =
      { data1 := 0, data2 := 0, stick_x := 0, stick_y := 0 } :=
  ⟨by decide, by decide,
   C11_all_zero_response_decodes_to_zero N64Controller.zeroPeer
     { N64Controller.new with N64_raw_dump := fun _ => 1 } (by decide) (by decide)⟩

/-- C11 fails as stated: against a peer that answers the status query with 32
zero bits the decoded `stick_x` and `stick_y` are 0, not the `0x80` the comment
in `translate_N64_data` gives as the centre. -/
theorem C11_zero_response_is_not_0x80 :
    (N64Controller.statusReceive N64Controller.zeroPeer
      { N64Controller.new with N64_raw_dump := fun _ => 1 }).bitbin = 32 ∧
    (N64Controller.getN64Packet N64Controller.zeroPeer
      { N64Controller.new with N64_raw_dump := fun _ => 1 }).N64_status.data1 = 0 ∧
    (N64Controller.getN64Packet N64Controller.zeroPeer
      { N64Controller.new with N64_raw_dump := fun _ => 1 }).N64_status.data2 = 0 ∧
    (N64Controller.getN64Packet N64Controller.zeroPeer
      { N64Controller.new with N64_raw_dump := fun _ => 1 }).N64_status.stick_x ≠ 0x80 ∧
    (N64Controller.getN64Packet N64Controller.zeroPeer
      { N64Controller.new with N64_raw_dump := fun _ => 1 }).N64_status.stick_y ≠ 0x80 := by
  decide

/-! ## The transmit phases -/

namespace N64Controller

theorem sendBitEvents_eq (x : Nat) (hx : x < 256) :
    sendBitEvents x = bitPulse (x.testBit 7) := by
  have h : (x >>> 7 ≠ 0) ↔ x.testBit 7 = true := by
    rw [Nat.testBit_to_div_mod, Nat.shiftRight_eq_div_pow]
    simp only [decide_eq_true_eq]
    omega
  unfold sendBitEvents bitPulse
  by_cases hb : x.testBit 7 = true
  · rw [if_pos (h.2 hb), if_pos hb]
  · rw [if_neg (fun hh => hb (h.1 hh)), if_neg hb]

theorem shifted_testBit (b n : Nat) (hn : n < 8) :
    ((b <<< (7 - n)) % 256).testBit 7 = b.testBit n := by
  rw [show (256 : Nat) = 2 ^ 8 from rfl, Nat.testBit_mod_two_pow, Nat.testBit_shiftLeft]
  have : 7 - (7 - n) = n := by omega
  simp [this]

theorem shifted_step (b n : Nat) (hn : n < 8) (hn0 : n ≠ 0) :
    (((b <<< (7 - n)) % 256) <<< 1) % 256 = (b <<< (7 - (n - 1))) % 256 := by
  have e : 7 - (n - 1) = (7 - n) + 1 := by omega
  rw [e, Nat.shiftLeft_eq, Nat.shiftLeft_eq, Nat.shiftLeft_eq, Nat.mod_mul_mod, Nat.mul_assoc,
    ← Nat.pow_add]

theorem innerLoop_spec (i b : Nat) :
    ∀ (n : Nat) (buffer : Buffer) (ev : List LineEvent),
      n ≤ 8 → buffer i = (b <<< (8 - n)) % 256 →
        (innerLoop i n buffer ev).2 = ev ++ bitPulses b n ∧
        ∀ j, j ≠ i → (innerLoop i n buffer ev).1 j = buffer j := by
  intro n
  induction n with
  | zero => intro buffer ev _ _; exact ⟨by simp [innerLoop, bitPulses], fun _ _ => rfl⟩
  | succ n ih =>
    intro buffer ev hn hb
    have hb' : buffer i = (b <<< (7 - n)) % 256 := by
      rw [hb]; congr 2; omega
    have hlt : buffer i < 256 := by rw [hb']; exact Nat.mod_lt _ (by decide)
    rw [innerLoop]
    rw [sendBitEvents_eq _ hlt, hb', shifted_testBit b n (by omega)]
    by_cases hn0 : n = 0
    · subst hn0
      simp [bitPulses]
    · rw [if_pos hn0]
      have hp : poke buffer i (((b <<< (7 - n)) % 256) <<< 1) i = (b <<< (8 - n)) % 256 := by
        simp only [poke, if_true]
        rw [shifted_step b n (by omega) hn0]
        congr 2
        omega
      obtain ⟨h1, h2⟩ := ih (poke buffer i (((b <<< (7 - n)) % 256) <<< 1))
        (ev ++ bitPulse (b.testBit n) ++ [LineEvent.delay 8]) (by omega) hp
      refine ⟨?_, fun j hj => ?_⟩
      · rw [h1]; simp [bitPulses, hn0]
      · rw [h2 j hj]; simp [poke, hj]

theorem rumbleBits_eq_innerLoop (i : Nat) :
    ∀ (n : Nat) (buffer : Buffer) (ev : List LineEvent),
      rumbleBits i n buffer ev = innerLoop i n buffer ev := by
  intro n
  induction n with
  | zero => intro buffer ev; rfl
  | succ n ih =>
    intro buffer ev
    rw [rumbleBits, innerLoop]
    split
    · exact ih _ _
    · rename_i h
      have : n = 0 := by simpa using h
      subst this
      rfl

theorem innerLoop_byte (i : Nat) (buffer : Buffer) (ev : List LineEvent) (h : buffer i < 256) :
    (innerLoop i 8 buffer ev).2 = ev ++ bitPulses (buffer i) 8 ∧
      ∀ j, j ≠ i → (innerLoop i 8 buffer ev).1 j = buffer j :=
  innerLoop_spec i (buffer i) 8 buffer ev (Nat.le_refl _)
    (by simp [Nat.mod_eq_of_lt h])

theorem bytesOf_congr (f g : Buffer) :
    ∀ (n i : Nat), (∀ j, i ≤ j → j < i + n → f j = g j) → bytesOf f i n = bytesOf g i n := by
  intro n
  induction n with
  | zero => intro i _; rfl
  | succ n ih =>
    intro i h
    simp only [bytesOf]
    rw [h i (Nat.le_refl _) (by omega), ih (i + 1) (fun j h1 h2 => h j (by omega) (by omega))]

theorem outerLoop_spec :
    ∀ (n i : Nat) (buffer : Buffer) (ev : List LineEvent),
      (∀ j, i ≤ j → j < i + n → buffer j < 256) →
        (outerLoop n i buffer ev).2 = ev ++ bytePulses (bytesOf buffer i n) := by
  intro n
  induction n with
  | zero => intro i buffer ev _; simp [outerLoop, bytesOf, bytePulses]
  | succ n ih =>
    intro i buffer ev h
    obtain ⟨h1, h2⟩ := innerLoop_byte i buffer ev (h i (Nat.le_refl _) (by omega))
    rw [outerLoop]
    by_cases hn : n = 0
    · subst hn
      simp [h1, bytesOf, bytePulses]
    · rw [if_pos hn, ih (i + 1) _ _ (fun j hj1 hj2 => by
        rw [h2 j (by omega)]; exact h j (by omega) (by omega)), h1]
      have : bytesOf (innerLoop i 8 buffer ev).1 (i + 1) n = bytesOf buffer (i + 1) n :=
        bytesOf_congr _ _ n (i + 1) (fun j hj1 _ => h2 j (by omega))
      rw [this]
      simp [bytesOf, bytePulses]

theorem rumbleLoop_spec :
    ∀ (n i : Nat) (buffer : Buffer) (ev : List LineEvent),
      (∀ j, i ≤ j → j < i + n → buffer j < 256) →
        (forLoop rumbleByte n i (buffer, ev)).2 = ev ++ bytePulses (bytesOf buffer i n) := by
  intro n
  induction n with
  | zero => intro i buffer ev _; simp [forLoop, bytesOf, bytePulses]
  | succ n ih =>
    intro i buffer ev h
    obtain ⟨h1, h2⟩ := innerLoop_byte i buffer ev (h i (Nat.le_refl _) (by omega))
    rw [forLoop]
    have e : rumbleByte i (buffer, ev) = innerLoop i 8 buffer ev := rumbleBits_eq_innerLoop i 8 _ _
    rw [e]
    have := ih (i + 1) (innerLoop i 8 buffer ev).1 (innerLoop i 8 buffer ev).2
      (fun j hj1 hj2 => by rw [h2 j (by omega)]; exact h j (by omega) (by omega))
    rw [this, h1]
    have hb : bytesOf (innerLoop i 8 buffer ev).1 (i + 1) n = bytesOf buffer (i + 1) n :=
      bytesOf_congr _ _ n (i + 1) (fun j hj1 _ => h2 j (by omega))
    rw [hb]
    simp [bytesOf, bytePulses]

theorem count_low_bitPulses (b : Nat) :
    ∀ n, List.count LineEvent.low (bitPulses b n) = n := by
  intro n
  induction n with
  | zero => rfl
  | succ n ih =>
    rw [bitPulses, List.count_append, List.count_append, ih]
    have h1 : List.count LineEvent.low (bitPulse (b.testBit n)) = 1 := by
      cases b.testBit n <;> rfl
    have h2 : List.count LineEvent.low (if n ≠ 0 then [LineEvent.delay 8] else []) = 0 := by
      split <;> rfl
    rw [h1, h2]; omega

theorem count_low_framePulses (bytes : List Nat) :
    List.count LineEvent.low (framePulses bytes) = 8 * bytes.length + 1 := by
  have hb : ∀ l : List Nat, List.count LineEvent.low (bytePulses l) = 8 * l.length := by
    intro l
    induction l with
    | nil => rfl
    | cons b bs ih =>
      rw [bytePulses, List.count_append, ih, count_low_bitPulses, List.length_cons]; omega
  rw [framePulses, List.count_append, hb]
  rfl

theorem bytesOf_length (buffer : Buffer) : ∀ (n i : Nat), (bytesOf buffer i n).length = n := by
  intro n
  induction n with
  | zero => intro i; rfl
  | succ n ih => intro i; simp [bytesOf, ih]

end N64Controller

namespace N64Controller

theorem commandOver_head (stack : Buffer) (a : Nat) (data : Option Buffer) (L : Int) :
    writeMemoryPakCommandOver stack a data L 0 = N64_EXPANSION_WRITE % 256 ∧
    writeMemoryPakCommandOver stack a data L 1 = ((a >>> 8) &&& 0xFF) % 256 ∧
    writeMemoryPakCommandOver stack a data L 2 = (a &&& 0xFF) % 256 ∧
    ∀ j, 35 ≤ j → writeMemoryPakCommandOver stack a data L j = stack j := by
  have e2 : 0 < L → L < 32 → 3 + L.toNat + (32 - L).toNat = 35 := by intro _ _; omega
  have e3 : 0 < L → L < 32 → (min L 32).toNat = L.toNat := by
    intro _ h; rw [min_eq_left (le_of_lt h)]
  have e4 : ¬ L < 32 → (min L 32).toNat = 32 := by
    intro h; rw [min_eq_right (by omega)]; rfl
  unfold writeMemoryPakCommandOver
  cases data with
  | none =>
    refine ⟨?_, ?_, ?_, ?_⟩
    all_goals intros
    all_goals simp only [memsetAt, poke]
    all_goals split_ifs <;> first | rfl | contradiction | (exfalso; omega)
  | some d =>
    by_cases h0 : L > 0
    · by_cases h32 : L < 32
      · simp only [h0, h32, if_true, e3 h0 h32]
        refine ⟨?_, ?_, ?_, ?_⟩
        all_goals intros
        all_goals simp only [memsetAt, memcpyAt, poke, e2 h0 h32]
        all_goals split_ifs <;> first | rfl | contradiction | (exfalso; omega)
      · simp only [h0, h32, if_true, if_false, e4 h32]
        refine ⟨?_, ?_, ?_, ?_⟩
        all_goals intros
        all_goals simp only [memcpyAt, poke]
        all_goals split_ifs <;> first | rfl | contradiction | (exfalso; omega)
    · simp only [h0, if_false]
      refine ⟨?_, ?_, ?_, ?_⟩
      all_goals intros
      all_goals simp only [memsetAt, poke]
      all_goals split_ifs <;> first | rfl | contradiction | (exfalso; omega)

theorem commandOver_payload (stack : Buffer) (a : Nat) (data : Option Buffer) (L : Int)
    (j : Nat) (hj : j < 32) :
    writeMemoryPakCommandOver stack a data L (3 + j) =
      match data with
      | some d => if 0 < L ∧ (j : Int) < L then d j % 256 else 0
      | none => 0 := by
  have e2 : 0 < L → L < 32 → 3 + L.toNat + (32 - L).toNat = 35 := by intro _ _; omega
  have e3 : 0 < L → L < 32 → (min L 32).toNat = L.toNat := by
    intro _ h; rw [min_eq_left (le_of_lt h)]
  have e4 : ¬ L < 32 → (min L 32).toNat = 32 := by
    intro h; rw [min_eq_right (by omega)]; rfl
  have e5 : 3 + j - 3 = j := by omega
  unfold writeMemoryPakCommandOver
  cases data with
  | none =>
    simp only [memsetAt, poke]
    split_ifs <;> first | rfl | contradiction | (exfalso; omega)
  | some d =>
    by_cases h0 : L > 0
    · by_cases h32 : L < 32
      · simp only [h0, h32, if_true, e3 h0 h32, memsetAt, memcpyAt, poke, e2 h0 h32, e5, true_and]
        split_ifs <;> first | rfl | contradiction | (exfalso; omega)
      · simp only [h0, h32, if_true, if_false, e4 h32, memcpyAt, poke, e5, true_and]
        split_ifs <;> first | rfl | contradiction | (exfalso; omega)
    · simp only [h0, if_false, memsetAt, poke, false_and]
      split_ifs <;> first | rfl | contradiction | (exfalso; omega)

theorem rumbleExchange_events (q : Nat → Nat) (buffer : Buffer) (n : Nat) (w : Wire)
    (hb : ∀ j, j < n → buffer j < 256) :
    ∃ m, m ≤ 8 ∧ (rumbleExchange q buffer n w).wire.events =
      w.events ++ framePulses (bytesOf buffer 0 n) ++ List.replicate m (LineEvent.delay 32) := by
  have ht : ∀ j, 0 ≤ j → j < 0 + n → memcpyAt (fun _ => 0) 0 buffer n j = buffer j := by
    intro j _ hj
    have : j < n := by omega
    simp [memcpyAt, this, Nat.mod_eq_of_lt (hb j this)]
  have hl := rumbleLoop_spec n 0 (memcpyAt (fun _ => 0) 0 buffer n) w.events
    (fun j h0 hj => by rw [ht j h0 hj]; exact hb j (by omega))
  rw [bytesOf_congr _ buffer n 0 ht] at hl
  unfold rumbleExchange
  dsimp only
  rw [hl]
  rw [rumbleResponse]
  have h0 := spinWhile_events q false 0x7f
    ⟨w.events ++ bytePulses (bytesOf buffer 0 n) ++ stopBitEvents, w.queries⟩
  split
  · exact ⟨0, Nat.zero_le _, by
      dsimp only
      rw [h0]
      simp [framePulses, stopBitEvents]⟩
  · obtain ⟨_, m, hm, he⟩ := rumbleReadBits_bounds q 8 0
      (spinWhile q false 0x7f
        ⟨w.events ++ bytePulses (bytesOf buffer 0 n) ++ stopBitEvents, w.queries⟩).wire
    refine ⟨m, hm, ?_⟩
    rw [he, h0]
    simp [framePulses, stopBitEvents]

theorem initCommand_bytes :
    bytesOf initCommand 0 35 =
      N64_EXPANSION_WRITE :: (RUMBLEPAK_INIT_ADDRESS >>> 8) :: (RUMBLEPAK_INIT_ADDRESS &&& 0xFF) ::
        List.replicate 32 0x80 := by
  decide

theorem ctrlCommand_bytes (enable : Bool) :
    bytesOf (ctrlCommand enable) 0 35 =
      N64_EXPANSION_WRITE :: (RUMBLEPAK_CTRL_ADDRESS >>> 8) :: (RUMBLEPAK_CTRL_ADDRESS &&& 0xFF) ::
        List.replicate 32 (if enable then 0x01 else 0x00) := by
  cases enable <;> decide

theorem initCommand_lt : ∀ j, j < 35 → initCommand j < 256 := by decide

theorem ctrlCommand_lt (enable : Bool) : ∀ j, j < 35 → ctrlCommand enable j < 256 := by
  cases enable <;> decide

end N64Controller

/-- C12: for every 16-bit address, data pointer and length, `writeMemoryPak`
hands `sendRumbleCommand` a frame of exactly 35 bytes: byte 0 is
`N64_EXPANSION_WRITE` (`0x03`), bytes 1 and 2 are the address high and low
bytes, and bytes 3..34 are the first 32 data bytes when the length is at least
32, the data bytes followed by zeros when it is between 1 and 31, and 32 zeros
when the pointer is null or the length is not positive; nothing from index 35
on is written, whatever the buffer held before. -/
theorem C12_write_frame_layout (q : Nat → Nat) (c : N64Controller) (stack : Buffer)
    (a : Nat) (ha : a < 65536) (data : Option Buffer) (L : Int) :
    N64Controller.writeMemoryPak q a data L c =
      (true, N64Controller.sendRumbleCommand q (N64Controller.writeMemoryPakCommand a data L) 35 c) ∧
    N64Controller.writeMemoryPakCommand a data L =
      N64Controller.writeMemoryPakCommandOver (fun _ => 0) a data L ∧
    N64Controller.writeMemoryPakCommandOver stack a data L 0 = N64_EXPANSION_WRITE ∧
    N64_EXPANSION_WRITE = 0x03 ∧
    N64Controller.writeMemoryPakCommandOver stack a data L 1 = a >>> 8 ∧
    N64Controller.writeMemoryPakCommandOver stack a data L 2 = a &&& 0xFF ∧
    (N64Controller.writeMemoryPakCommandOver stack a data L 1 <<< 8) |||
      N64Controller.writeMemoryPakCommandOver stack a data L 2 = a ∧
    (∀ d, data = some d → 32 ≤ L → ∀ j, j < 32 →
      N64Controller.writeMemoryPakCommandOver stack a data L (3 + j) = d j % 256) ∧
    (∀ d, data = some d → 0 < L → L < 32 → ∀ j, j < 32 →
      N64Controller.writeMemoryPakCommandOver stack a data L (3 + j) =
        if (j : Int) < L then d j % 256 else 0) ∧
    (data = none ∨ L ≤ 0 → ∀ j, j < 32 →
      N64Controller.writeMemoryPakCommandOver stack a data L (3 + j) = 0) ∧
    (∀ j, 35 ≤ j → N64Controller.writeMemoryPakCommandOver stack a data L j = stack j) := by
  obtain ⟨h0, h1, h2, h3⟩ := N64Controller.commandOver_head stack a data L
  have hhi : a >>> 8 < 256 := by
    rw [Nat.shiftRight_eq_div_pow]; omega
  have e1 : ((a >>> 8) &&& 0xFF) % 256 = a >>> 8 := by
    rw [show (0xFF : Nat) = 2 ^ 8 - 1 from rfl, Nat.and_pow_two_sub_one_eq_mod]
    simp [Nat.mod_eq_of_lt hhi]
  have e2 : (a &&& 0xFF) % 256 = a &&& 0xFF := by
    rw [show (0xFF : Nat) = 2 ^ 8 - 1 from rfl, Nat.and_pow_two_sub_one_eq_mod]
    simp
  have e3 : ((a >>> 8) <<< 8) ||| (a &&& 0xFF) = a := by
    rw [show (0xFF : Nat) = 2 ^ 8 - 1 from rfl, Nat.and_pow_two_sub_one_eq_mod,
      Nat.shiftLeft_eq, Nat.shiftRight_eq_div_pow, Nat.mul_comm,
      ← Nat.mul_add_lt_is_or (Nat.mod_lt _ (by decide))]
    exact Nat.div_add_mod a (2 ^ 8)
  refine ⟨rfl, rfl, h0, rfl, by rw [h1, e1], by rw [h2, e2], by rw [h1, h2, e1, e2, e3],
    ?_, ?_, ?_, h3⟩
  · intro d hd hL j hj
    rw [N64Controller.commandOver_payload stack a data L j hj, hd]
    have : 0 < L ∧ (j : Int) < L := by constructor <;> omega
    simp [this]
  · intro d hd hL0 hL32 j hj
    rw [N64Controller.commandOver_payload stack a data L j hj, hd]
    simp [hL0]
  · intro h j hj
    rw [N64Controller.commandOver_payload stack a data L j hj]
    rcases h with h | h
    · rw [h]
    · cases data with
      | none => rfl
      | some d =>
        have : ¬ (0 < L ∧ (j : Int) < L) := by omega
        simp [this]

theorem C12_write_frame_layout_witness :
    0xC01B < 65536 ∧ (20 : Int) > 0 ∧ (20 : Int) < 32 ∧ 25 < 32 ∧ 35 ≤ 40 ∧
    N64Controller.writeMemoryPakCommandOver (fun _ => 0xAA) 0xC01B (some (fun _ => 5)) 20 (3 + 25) =
      (if ((25 : Nat) : Int) < 20 then 5 % 256 else 0) ∧
    N64Controller.writeMemoryPakCommandOver (fun _ => 0xAA) 0xC01B (some (fun _ => 5)) 20 40 = 0xAA :=
  ⟨by decide, by decide, by decide, by decide, by decide,
   (C12_write_frame_layout (fun _ => 1) N64Controller.new (fun _ => 0xAA) 0xC01B (by decide)
      (some (fun _ => 5)) 20).2.2.2.2.2.2.2.2.1 (fun _ => 5) rfl (by decide) (by decide) 25
      (by decide),
   (C12_write_frame_layout (fun _ => 1) N64Controller.new (fun _ => 0xAA) 0xC01B (by decide)
      (some (fun _ => 5)) 20).2.2.2.2.2.2.2.2.2.2 40 (by decide)⟩

theorem receive_events (q : Nat → Nat) (dump : Buffer) (w : Wire) :
    (N64Controller.receive q dump w).wire.events =
      w.events ++ List.replicate (N64Controller.receive q dump w).bitbin (LineEvent.delay 32) := by
  rw [N64Controller.receive]
  split
  · simp [spinWhile_events]
  · rw [N64Controller.readLoop_events, spinWhile_events]
    rfl

/-- C13: for a byte sequence of length `n`, `1 ≤ n ≤ 127`, the transmit phase
of `N64_send_data_request` drives the bytes in order, each most significant
bit first, a 1 as low for 5 cycles then high for 40, a 0 as low for 40 cycles
then high, followed by one stop bit (low for 16 cycles) and the release of the
line: `8 n` data pulses and one stop pulse, and nothing is driven low during
the receive phase. -/
theorem C13_transmit_pulses (buffer : Buffer) (n : Nat) (_ : 1 ≤ n) (_ : n ≤ 127)
    (hb : ∀ j, j < n → buffer j < 256) :
    (∀ ev : List LineEvent,
      (N64Controller.transmit buffer n ev).2 =
        ev ++ N64Controller.framePulses (N64Controller.bytesOf buffer 0 n)) ∧
    (N64Controller.bytesOf buffer 0 n).length = n ∧
    List.count LineEvent.low (N64Controller.framePulses (N64Controller.bytesOf buffer 0 n)) =
      8 * n + 1 ∧
    (∀ (q : Nat → Nat) (c : N64Controller),
      ∃ m, m ≤ 32 ∧ (N64Controller.N64_send_data_request q buffer n c).2.wire.events =
        c.wire.events ++ N64Controller.framePulses (N64Controller.bytesOf buffer 0 n) ++
          List.replicate m (LineEvent.delay 32)) := by
  have ht : ∀ ev : List LineEvent, (N64Controller.transmit buffer n ev).2 =
      ev ++ N64Controller.framePulses (N64Controller.bytesOf buffer 0 n) := by
    intro ev
    unfold N64Controller.transmit
    dsimp only
    rw [N64Controller.outerLoop_spec n 0 buffer ev (fun j _ hj => hb j (by omega))]
    simp [N64Controller.framePulses, N64Controller.stopBitEvents]
  refine ⟨ht, N64Controller.bytesOf_length buffer n 0, ?_, ?_⟩
  · rw [N64Controller.count_low_framePulses, N64Controller.bytesOf_length]
  · intro q c
    have F := N64Controller.receive_frame q c.N64_raw_dump
      { c.wire with events := (N64Controller.transmit buffer n c.wire.events).2 }
    refine ⟨_, F.1, ?_⟩
    show (N64Controller.receive q c.N64_raw_dump
      { c.wire with events := (N64Controller.transmit buffer n c.wire.events).2 }).wire.events = _
    rw [receive_events, ht]

theorem C13_transmit_pulses_witness :
    1 ≤ 1 ∧ 1 ≤ 127 ∧ (∀ j, j < 1 → N64Controller.N64Command j < 256) ∧
    (N64Controller.transmit N64Controller.N64Command 1 []).2 =
      [] ++ N64Controller.framePulses (N64Controller.bytesOf N64Controller.N64Command 0 1) :=
  ⟨by decide, by decide, by decide,
   (C13_transmit_pulses N64Controller.N64Command 1 (by decide) (by decide) (by decide)).1 []⟩

/-- C14: `initializeRumblePak` makes exactly one exchange, the write frame
addressed to `RUMBLEPAK_INIT_ADDRESS` whose 32 payload bytes are all `0x80`:
the 35 bytes go out once, followed by one stop bit. -/
theorem C14_init_frame (q : Nat → Nat) (c : N64Controller) :
    (N64Controller.initializeRumblePak q c).2.wire =
      (N64Controller.rumbleExchange q N64Controller.initCommand 35 c.wire).wire ∧
    N64Controller.bytesOf N64Controller.initCommand 0 35 =
      N64_EXPANSION_WRITE :: (RUMBLEPAK_INIT_ADDRESS >>> 8) :: (RUMBLEPAK_INIT_ADDRESS &&& 0xFF) ::
        List.replicate 32 0x80 ∧
    (∃ m, m ≤ 8 ∧ (N64Controller.initializeRumblePak q c).2.wire.events =
      c.wire.events ++
        N64Controller.framePulses (N64Controller.bytesOf N64Controller.initCommand 0 35) ++
        List.replicate m (LineEvent.delay 32)) ∧
    List.count LineEvent.low
      (N64Controller.framePulses (N64Controller.bytesOf N64Controller.initCommand 0 35)) =
        8 * 35 + 1 := by
  refine ⟨rfl, N64Controller.initCommand_bytes, ?_, ?_⟩
  · exact N64Controller.rumbleExchange_events q N64Controller.initCommand 35 c.wire
      N64Controller.initCommand_lt
  · rw [N64Controller.count_low_framePulses, N64Controller.bytesOf_length]

/-- C15: with `rumblePakDetected` already true, `setRumble(e)` makes exactly one
exchange, the write frame to `RUMBLEPAK_CTRL_ADDRESS` with 32 payload bytes
`0x01` for `e` true and `0x00` for `e` false, and sets `rumbleEnabled` to `e`;
with `rumblePakDetected` false the initialization frame goes out first and the
control frame after it; and whenever the initialization call reports failure
nothing more is transmitted and the driver stays as that call left it. -/
theorem C15_setRumble_frames (q : Nat → Nat) (e : Bool) (c : N64Controller) :
    N64Controller.setRumble q e c =
      N64Controller.setRumbleWith (N64Controller.checkRumblePak q) q e c ∧
    N64Controller.bytesOf (N64Controller.ctrlCommand e) 0 35 =
      N64_EXPANSION_WRITE :: (RUMBLEPAK_CTRL_ADDRESS >>> 8) :: (RUMBLEPAK_CTRL_ADDRESS &&& 0xFF) ::
        List.replicate 32 (if e then 0x01 else 0x00) ∧
    (c.rumblePakDetected = true →
      (N64Controller.setRumble q e c).rumbleEnabled = e ∧
      (N64Controller.setRumble q e c).wire =
        (N64Controller.rumbleExchange q (N64Controller.ctrlCommand e) 35 c.wire).wire ∧
      ∃ m, m ≤ 8 ∧ (N64Controller.setRumble q e c).wire.events =
        c.wire.events ++
          N64Controller.framePulses (N64Controller.bytesOf (N64Controller.ctrlCommand e) 0 35) ++
          List.replicate m (LineEvent.delay 32)) ∧
    (c.rumblePakDetected = false →
      (N64Controller.setRumble q e c).rumbleEnabled = e ∧
      (N64Controller.setRumble q e c).wire =
        (N64Controller.rumbleExchange q (N64Controller.ctrlCommand e) 35
          (N64Controller.initExchange q c).wire).wire ∧
      ∃ m₁ m₂, m₁ ≤ 8 ∧ m₂ ≤ 8 ∧ (N64Controller.setRumble q e c).wire.events =
        c.wire.events ++
          N64Controller.framePulses (N64Controller.bytesOf N64Controller.initCommand 0 35) ++
          List.replicate m₁ (LineEvent.delay 32) ++
          N64Controller.framePulses (N64Controller.bytesOf (N64Controller.ctrlCommand e) 0 35) ++
          List.replicate m₂ (LineEvent.delay 32)) ∧
    (∀ check : N64Controller → Bool × N64Controller,
      c.rumblePakDetected = false → (check c).1 = false →
        N64Controller.setRumbleWith check q e c = (check c).2) := by
  refine ⟨rfl, N64Controller.ctrlCommand_bytes e, ?_, ?_, ?_⟩
  · intro hd
    have hw : (N64Controller.setRumble q e c).wire =
        (N64Controller.rumbleExchange q (N64Controller.ctrlCommand e) 35 c.wire).wire := by
      unfold N64Controller.setRumble
      simp only [hd, Bool.not_true, Bool.false_eq_true, if_false]
      rfl
    refine ⟨?_, hw, ?_⟩
    · unfold N64Controller.setRumble
      simp only [hd, Bool.not_true, Bool.false_eq_true, if_false]
      rfl
    · rw [hw]
      exact N64Controller.rumbleExchange_events q _ 35 c.wire (N64Controller.ctrlCommand_lt e)
  · intro hd
    have hw : (N64Controller.setRumble q e c).wire =
        (N64Controller.rumbleExchange q (N64Controller.ctrlCommand e) 35
          (N64Controller.initExchange q c).wire).wire := by
      unfold N64Controller.setRumble
      simp only [hd, Bool.not_false, if_true]
      rfl
    refine ⟨?_, hw, ?_⟩
    · unfold N64Controller.setRumble
      simp only [hd, Bool.not_false, if_true]
      rfl
    · obtain ⟨m₁, h₁, e₁⟩ := N64Controller.rumbleExchange_events q N64Controller.initCommand 35
        c.wire N64Controller.initCommand_lt
      obtain ⟨m₂, h₂, e₂⟩ := N64Controller.rumbleExchange_events q (N64Controller.ctrlCommand e)
        35 (N64Controller.initExchange q c).wire (N64Controller.ctrlCommand_lt e)
      refine ⟨m₁, m₂, h₁, h₂, ?_⟩
      rw [hw, e₂]
      have : (N64Controller.initExchange q c).wire.events = _ := e₁
      rw [this]
  · intro check hd hf
    unfold N64Controller.setRumbleWith
    simp [hd, hf]

theorem C15_setRumble_frames_witness :
    ({ N64Controller.new with rumblePakDetected := true }.rumblePakDetected = true ∧
      (N64Controller.setRumble (fun _ => 1) true
        { N64Controller.new with rumblePakDetected := true }).rumbleEnabled = true) ∧
    (N64Controller.new.rumblePakDetected = false ∧
      (N64Controller.setRumble (fun _ => 1) true N64Controller.new).rumbleEnabled = true) ∧
    (N64Controller.new.rumblePakDetected = false ∧
      ((fun c : N64Controller => (false, c)) N64Controller.new).1 = false ∧
      N64Controller.setRumbleWith (fun c => (false, c)) (fun _ => 1) true N64Controller.new =
        ((fun c : N64Controller => (false, c)) N64Controller.new).2) :=
  ⟨⟨rfl, ((C15_setRumble_frames (fun _ => 1) true
      { N64Controller.new with rumblePakDetected := true }).2.2.1 rfl).1⟩,
   ⟨rfl, ((C15_setRumble_frames (fun _ => 1) true N64Controller.new).2.2.2.1 rfl).1⟩,
   ⟨rfl, rfl, (C15_setRumble_frames (fun _ => 1) true N64Controller.new).2.2.2.2
      (fun c => (false, c)) rfl rfl⟩⟩

theorem genesis_loop_state {σ : Type} (drv : SegaController32U4 σ) :
    ∀ (n i cur : Nat) (s : σ),
      (forLoop (genesisCycle drv) n i (cur, s)).2 = (fun t => (drv.updateState t).2)^[n] s := by
  intro n
  induction n with
  | zero => intro i cur s; rfl
  | succ n ih =>
    intro i cur s
    rw [forLoop, Function.iterate_succ_apply]
    exact ih _ _ _

/-- C20: `processGenesisController` runs `updateState` exactly 8 times, then
`getFinalState` once, and the report is built from the word `getFinalState`
returns alone: no value returned by an `updateState` call, nor the report or
`currentGenesisState` from before, reaches it, so two polls with the same final
word give the same report. -/
theorem C20_only_final_word_is_reported {σ τ : Type} (drv : SegaController32U4 σ) (s : σ)
    (cur : Nat) (report : GamepadReport) :
    (processGenesisController drv s cur report).driver =
      (drv.getFinalState ((fun t => (drv.updateState t).2)^[8] s)).2 ∧
    (processGenesisController drv s cur report).report =
      genesisReport (genesisFinalWord drv s % 65536) ∧
    (processGenesisController drv s cur report).currentGenesisState =
      genesisFinalWord drv s % 65536 ∧
    (∀ (drv' : SegaController32U4 τ) (s' : τ) (cur' : Nat) (report' : GamepadReport),
      genesisFinalWord drv' s' = genesisFinalWord drv s →
        (processGenesisController drv' s' cur' report').report =
          (processGenesisController drv s cur report).report) ∧
    (∀ (upd : σ → Nat × σ), (∀ t, (upd t).2 = (drv.updateState t).2) →
      (processGenesisController { drv with updateState := upd } s cur report).report =
        (processGenesisController drv s cur report).report) := by
  have hr : ∀ {ρ : Type} (d : SegaController32U4 ρ) (x : ρ) (k : Nat) (g : GamepadReport),
      (processGenesisController d x k g).report = genesisReport (genesisFinalWord d x % 65536) := by
    intro ρ d x k g
    unfold processGenesisController genesisFinalWord
    simp only [genesis_loop_state]
  refine ⟨?_, hr drv s cur report, ?_, ?_, ?_⟩
  · unfold processGenesisController
    simp only [genesis_loop_state]
  · unfold processGenesisController genesisFinalWord
    simp only [genesis_loop_state]
  · intro drv' s' cur' report' h
    rw [hr, hr, h]
  · intro upd h
    rw [hr, hr]
    have : (fun t => (upd t).2) = (fun t => (drv.updateState t).2) := funext h
    unfold genesisFinalWord
    simp only [this]

theorem C20_only_final_word_is_reported_witness :
    (genesisFinalWord quietSega 0 = genesisFinalWord countingSega 0 ∧
      (processGenesisController quietSega 0 0 ⟨0, 0, 0⟩).report =
        (processGenesisController countingSega 0 7 ⟨1, 2, 3⟩).report) ∧
    (processGenesisController countingSega 0 7 ⟨1, 2, 3⟩).driver = 8 ∧
    (processGenesisController countingSega 0 7 ⟨1, 2, 3⟩).report =
      { buttons := 0x0A, X := 0x80, Y := 0x80 } :=
  ⟨⟨by decide,
    (C20_only_final_word_is_reported countingSega 0 7 ⟨1, 2, 3⟩).2.2.2.1 quietSega 0 0 ⟨0, 0, 0⟩
      (by decide)⟩,
   by decide, by decide⟩

theorem nes_idle_snapshot (pins : Pins) (c : NESController) (h : NESController.idle pins) :
    (forLoop (NESController.readBit pins) 8 0
      (NESController.latched c)).currentState.standardButtons = 0 ∧
    (forLoop (NESController.readBit pins) 8 0
      (NESController.latched c)).currentState.powerPadButtons = 0 := by
  have P := NESController.nes_polled_loop pins c
  constructor
  · apply Nat.eq_of_testBit_eq
    intro j
    rw [P.std j, Nat.zero_testBit]
    have : NESController.dataHigh pins j = true := by
      simpa [NESController.dataHigh] using (h j 0).1
    simp [this]
  · apply Nat.eq_of_testBit_eq
    intro j
    rw [Nat.zero_testBit]
    cases hb : (forLoop (NESController.readBit pins) 8 0
      (NESController.latched c)).currentState.powerPadButtons.testBit j
    · rfl
    · obtain ⟨l, b, _, hl, _⟩ := (P.pad j).1 hb
      exfalso
      cases l
      · have : NESController.d4High pins b = true := by
          simpa [NESController.d4High] using (h b 1).2.1
        simp [NESController.padHigh, this] at hl
      · have : NESController.d3High pins b = true := by
          simpa [NESController.d3High] using (h b 2).2.2
        simp [NESController.padHigh, this] at hl

/-- C18: when every sample of every data line taken during the poll reads
logic-high, the snapshot of `readController` has `standardButtons == 0`, a
zero accessory payload (`powerPadButtons`, `nttKeypad`) and the accessory flag
(`powerPadConnected`, `nttConnected`) false, on both drivers. -/
theorem C18_idle_bus_gives_empty_snapshot (pins : Pins) :
    (∀ c : NESController, NESController.idle pins →
      (NESController.readController pins c).getState =
        { standardButtons := 0, powerPadButtons := 0, powerPadConnected := false }) ∧
    (∀ c : SNESController, SNESController.idle pins →
      (SNESController.readController pins c).getState.standardButtons = 0 ∧
      (SNESController.readController pins c).getState.nttKeypad = 0 ∧
      (SNESController.readController pins c).getState.nttConnected = false) := by
  constructor
  · intro c h
    obtain ⟨h1, h2⟩ := nes_idle_snapshot pins c h
    rw [NESController.nes_readController_eq]
    simp only [NESController.getState, h1, h2]
    rfl
  · intro c h
    have P := SNESController.snes_polled_loop pins c
    have hi : SNESController.indicatorHigh pins = true := by
      simpa [SNESController.indicatorHigh] using (h NTT_INDICATOR_BIT 1).1
    have hn : (forLoop (SNESController.readBit pins) SNES_STANDARD_BITS 0
        (SNESController.latched c)).currentState.nttConnected = false := by
      rw [P.present, hi]; simp
    refine ⟨?_, ?_, ?_⟩
    · show (SNESController.readController pins c).currentState.standardButtons = 0
      rw [snes_standardButtons_eq]
      apply Nat.eq_of_testBit_eq
      intro j
      rw [P.std j, Nat.zero_testBit]
      have : SNESController.dataHigh pins j = true := by
        simpa [SNESController.dataHigh] using (h j 0).1
      simp [this]
    · show (SNESController.readController pins c).currentState.nttKeypad = 0
      rw [SNESController.snes_nttKeypad_eq, hi]
      rfl
    · show (SNESController.readController pins c).currentState.nttConnected = false
      rw [SNESController.snes_readController_eq]
      simp only [hn]
      exact hn

theorem C18_idle_bus_gives_empty_snapshot_witness :
    (NESController.idle (Pins.steady 0xFF 0xFF 0xFF) ∧
      (NESController.readController (Pins.steady 0xFF 0xFF 0xFF)
        (NESController.new Hw.boot)).getState =
        { standardButtons := 0, powerPadButtons := 0, powerPadConnected := false }) ∧
    (SNESController.idle (Pins.steady 0xFF 0xFF 0xFF) ∧
      (SNESController.readController (Pins.steady 0xFF 0xFF 0xFF)
        (SNESController.new Hw.boot)).getState.nttConnected = false) :=
  ⟨⟨nes_idle_steady,
    (C18_idle_bus_gives_empty_snapshot (Pins.steady 0xFF 0xFF 0xFF)).1
      (NESController.new Hw.boot) nes_idle_steady⟩,
   ⟨snes_idle_steady,
    ((C18_idle_bus_gives_empty_snapshot (Pins.steady 0xFF 0xFF 0xFF)).2
      (SNESController.new Hw.boot) snes_idle_steady).2.2⟩⟩

/-- C19: in every driver state reachable from construction by `init`,
`readController`, `reset` (and `setPlayerNumber` on the SNES driver) an absent
accessory has a zero payload: `powerPadConnected == false` implies
`powerPadButtons == 0`, and `nttConnected == false` implies `nttKeypad == 0`. -/
theorem C19_absent_accessory_has_zero_payload :
    (∀ c : NESController, NESController.Reachable c →
      c.currentState.powerPadConnected = false → c.currentState.powerPadButtons = 0) ∧
    (∀ c : SNESController, SNESController.Reachable c →
      c.currentState.nttConnected = false → c.currentState.nttKeypad = 0) := by
  constructor
  · intro c hc
    induction hc with
    | new hw => intro _; rfl
    | init _ _ => intro _; rfl
    | @readController c0 pins _ _ =>
      intro h
      have h' : ((forLoop (NESController.readBit pins) 8 0
          (NESController.latched c0)).currentState.powerPadButtons != 0) = false := h
      show (forLoop (NESController.readBit pins) 8 0
          (NESController.latched c0)).currentState.powerPadButtons = 0
      simpa using h'
    | reset _ _ => intro _; rfl
  · intro c hc
    induction hc with
    | new hw => intro _; rfl
    | init _ _ => intro _; rfl
    | @readController c0 pins _ _ =>
      intro h
      have h3 : SNESController.indicatorHigh pins = true := by
        have P := SNESController.snes_polled_loop pins c0
        have hn : (forLoop (SNESController.readBit pins) SNES_STANDARD_BITS 0
            (SNESController.latched c0)).currentState.nttConnected =
              !SNESController.indicatorHigh pins := by
          rw [P.present]; simp [NTT_INDICATOR_BIT]
        cases hi : SNESController.indicatorHigh pins
        · exfalso
          rw [hi] at hn
          have E := SNESController.snes_extended_loop pins _ P.clocks P.reads P.keypad
          rw [SNESController.snes_readController_eq] at h
          simp only [hn, Bool.not_false, if_true] at h
          rw [E.present, hn] at h
          cases h
        · rfl
      rw [SNESController.snes_nttKeypad_eq, h3]
      rfl
    | reset _ _ => intro _; rfl
    | @setPlayerNumber c0 player _ ih =>
      intro h
      unfold SNESController.setPlayerNumber at h ⊢
      split at h
      · rename_i hp
        rw [if_pos hp]
        exact ih h
      · rename_i hp
        rw [if_neg hp]
        exact ih h

theorem C19_absent_accessory_has_zero_payload_witness :
    (NESController.Reachable (NESController.readController (Pins.steady 0 0xFF 0)
        (NESController.init (NESController.new Hw.boot))) ∧
      (NESController.readController (Pins.steady 0 0xFF 0)
        (NESController.init (NESController.new Hw.boot))).currentState.powerPadConnected = false ∧
      (NESController.readController (Pins.steady 0 0xFF 0)
        (NESController.init (NESController.new Hw.boot))).currentState.powerPadButtons = 0) ∧
    (SNESController.Reachable (SNESController.setPlayerNumber 2
        (SNESController.readController (Pins.steady 0xFF 0 0)
          (SNESController.init (SNESController.new Hw.boot)))) ∧
      (SNESController.setPlayerNumber 2
        (SNESController.readController (Pins.steady 0xFF 0 0)
          (SNESController.init (SNESController.new Hw.boot)))).currentState.nttConnected = false ∧
      (SNESController.setPlayerNumber 2
        (SNESController.readController (Pins.steady 0xFF 0 0)
          (SNESController.init (SNESController.new Hw.boot)))).currentState.nttKeypad = 0) :=
  ⟨⟨.readController _ (.init (.new _)), by decide,
    C19_absent_accessory_has_zero_payload.1 _ (.readController _ (.init (.new _))) (by decide)⟩,
   ⟨.setPlayerNumber _ (.readController _ (.init (.new _))), by decide,
    C19_absent_accessory_has_zero_payload.2 _
      (.setPlayerNumber _ (.readController _ (.init (.new _)))) (by decide)⟩⟩

/-! ## Claims C21 to C30 -/

/-- C21: `reset()` is idempotent on both drivers and yields the disconnected
state: `standardButtons == 0`, a zero accessory payload, the accessory flag
false and `isConnected()` false, with the board untouched. -/
theorem C21_reset_is_idempotent :
    (∀ c : NESController,
      NESController.reset (NESController.reset c) = NESController.reset c ∧
      (NESController.reset c).getState =
        { standardButtons := 0, powerPadButtons := 0, powerPadConnected := false } ∧
      (NESController.reset c).isConnected = false ∧
      (NESController.reset c).hw = c.hw) ∧
    (∀ c : SNESController,
      SNESController.reset (SNESController.reset c) = SNESController.reset c ∧
      (SNESController.reset c).getState =
        { standardButtons := 0, nttKeypad := 0, nttConnected := false,
          playerNumber := c.currentPlayer } ∧
      (SNESController.reset c).isConnected = false ∧
      (SNESController.reset c).hw = c.hw) :=
  ⟨fun _ => ⟨rfl, rfl, rfl, rfl⟩, fun _ => ⟨rfl, rfl, rfl, rfl⟩⟩

/-- C22: on both drivers the snapshot `readController` returns is the one
`getState()` returns right afterwards; `getState()`, `isConnected()` and the
accessory query leave the driver and the board as they were (no latch or clock
pulse), so a second `getState()` returns the same snapshot. -/
theorem C22_queries_do_not_touch_the_driver (pins : Pins) :
    (∀ c : NESController,
      (NESController.readControllerCall pins c).1 =
        (NESController.getStateCall (NESController.readControllerCall pins c).2).1 ∧
      (NESController.getStateCall c).2 = c ∧
      (NESController.isConnectedCall c).2 = c ∧
      (NESController.isPowerPadConnectedCall c).2 = c ∧
      (NESController.getStateCall c).2.hw.trace = c.hw.trace ∧
      (NESController.getStateCall (NESController.getStateCall c).2).1 =
        (NESController.getStateCall c).1) ∧
    (∀ c : SNESController,
      (SNESController.readControllerCall pins c).1 =
        (SNESController.getStateCall (SNESController.readControllerCall pins c).2).1 ∧
      (SNESController.getStateCall c).2 = c ∧
      (SNESController.isConnectedCall c).2 = c ∧
      (SNESController.isNTTConnectedCall c).2 = c ∧
      (SNESController.getStateCall c).2.hw.trace = c.hw.trace ∧
      (SNESController.getStateCall (SNESController.getStateCall c).2).1 =
        (SNESController.getStateCall c).1) :=
  ⟨fun _ => ⟨rfl, rfl, rfl, rfl, rfl, rfl⟩, fun _ => ⟨rfl, rfl, rfl, rfl, rfl, rfl⟩⟩

theorem snes_player_kept (pins : Pins) (c : SNESController) :
    (SNESController.readController pins c).currentPlayer = c.currentPlayer ∧
    (SNESController.readController pins c).currentState.playerNumber =
      c.currentState.playerNumber := by
  have P := SNESController.snes_polled_loop pins c
  rw [SNESController.snes_readController_eq]
  dsimp only
  split
  · have E := SNESController.snes_extended_loop pins _ P.clocks P.reads P.keypad
    exact ⟨E.current.trans P.current, E.player.trans P.player⟩
  · exact ⟨P.current, P.player⟩

/-- C24: `setPlayerNumber(p)` accepts only 1..4: for `p` in 1..4 it sets
`currentPlayer` and `currentState.playerNumber` to `p` and nothing else, for
any other `p` it changes nothing; so in every reachable state
`currentState.playerNumber == currentPlayer` lies in 1..4, and `readController`
and `reset` keep both. -/
theorem C24_player_number_invariant :
    (∀ (p : Nat) (c : SNESController), 1 ≤ p → p ≤ 4 →
      SNESController.setPlayerNumber p c =
        { c with currentPlayer := p
                 currentState := { c.currentState with playerNumber := p } }) ∧
    (∀ (p : Nat) (c : SNESController), ¬ (1 ≤ p ∧ p ≤ 4) →
      SNESController.setPlayerNumber p c = c) ∧
    (∀ c : SNESController, SNESController.Reachable c →
      c.currentState.playerNumber = c.currentPlayer ∧
      1 ≤ c.currentPlayer ∧ c.currentPlayer ≤ 4) ∧
    (∀ (pins : Pins) (c : SNESController),
      (SNESController.readController pins c).currentPlayer = c.currentPlayer ∧
      (SNESController.readController pins c).currentState.playerNumber =
        c.currentState.playerNumber) ∧
    (∀ c : SNESController,
      (SNESController.reset c).currentPlayer = c.currentPlayer ∧
      (SNESController.reset c).currentState.playerNumber = c.currentPlayer) := by
  refine ⟨?_, ?_, ?_, snes_player_kept, fun _ => ⟨rfl, rfl⟩⟩
  · intro p c h1 h4
    unfold SNESController.setPlayerNumber
    rw [if_pos ⟨h1, h4⟩]
  · intro p c h
    unfold SNESController.setPlayerNumber
    rw [if_neg h]
  · intro c hc
    induction hc with
    | new hw => exact ⟨rfl, Nat.le_refl 1, (by decide : 1 ≤ 4)⟩
    | @init c0 _ ih => exact ⟨rfl, ih.2.1, ih.2.2⟩
    | @readController c0 pins _ ih =>
      obtain ⟨h1, h2⟩ := snes_player_kept pins c0
      rw [h1, h2]
      exact ih
    | @reset c0 _ ih => exact ⟨rfl, ih.2.1, ih.2.2⟩
    | @setPlayerNumber c0 player _ ih =>
      unfold SNESController.setPlayerNumber
      split
      · rename_i hp
        exact ⟨rfl, hp.1, hp.2⟩
      · exact ih

theorem C24_player_number_invariant_witness :
    (1 ≤ 3 ∧ 3 ≤ 4 ∧
      (SNESController.setPlayerNumber 3 (SNESController.new Hw.boot)).currentPlayer = 3) ∧
    (¬ (1 ≤ 5 ∧ 5 ≤ 4) ∧
      (SNESController.setPlayerNumber 5 (SNESController.new Hw.boot)).currentPlayer = 1) ∧
    (SNESController.Reachable (SNESController.reset (SNESController.setPlayerNumber 3
        (SNESController.new Hw.boot))) ∧
      (SNESController.reset (SNESController.setPlayerNumber 3
        (SNESController.new Hw.boot))).currentState.playerNumber = 3) :=
  ⟨⟨by decide, by decide,
    congrArg SNESController.currentPlayer
      (C24_player_number_invariant.1 3 (SNESController.new Hw.boot) (by decide) (by decide))⟩,
   ⟨by decide,
    congrArg SNESController.currentPlayer
      (C24_player_number_invariant.2.1 5 (SNESController.new Hw.boot) (by decide))⟩,
   ⟨.reset (.setPlayerNumber 3 (.new _)),
    (C24_player_number_invariant.2.2.1 _ (.reset (.setPlayerNumber 3 (.new _)))).1⟩⟩

/-! ## What the snapshots depend on -/

theorem nes_std_testBit (pins : Pins) (c : NESController) (j : Nat) :
    (NESController.readController pins c).currentState.standardButtons.testBit j =
      (decide (j < 8) && !NESController.dataHigh pins j) :=
  (NESController.nes_polled_loop pins c).std j

theorem nes_pad_testBit (pins : Pins) (c : NESController) (j : Nat) :
    (NESController.readController pins c).currentState.powerPadButtons.testBit j = true ↔
      ∃ l b, b < 8 ∧ NESController.padHigh pins l b = false ∧
        (NESController.powerPadCase l b).testBit j = true :=
  (NESController.nes_polled_loop pins c).pad j

theorem nes_connected_eq (pins : Pins) (c : NESController) :
    (NESController.readController pins c).isConnected =
      ((NESController.readController pins c).currentState.standardButtons != 0xFF ||
        (NESController.readController pins c).currentState.powerPadButtons != 0) := rfl

theorem nes_present_eq (pins : Pins) (c : NESController) :
    (NESController.readController pins c).currentState.powerPadConnected =
      ((NESController.readController pins c).currentState.powerPadButtons != 0) := rfl

theorem powerPadCase_mapped (l : NESController.PadLine) (b : Nat) (hb : b < 8)
    (hm : l = .D3 ∨ b < 4) :
    ∃ n, 1 ≤ n ∧ NESController.powerPadCase l b = 2 ^ (n - 1) := by
  rcases NESController.powerPadCase_cases l b hb with h0 | ⟨n, _, h1, he, _⟩
  · exfalso
    rcases hm with rfl | h4
    · interval_cases b <;> exact absurd h0 (by decide)
    · cases l
      · interval_cases b <;> exact absurd h0 (by decide)
      · interval_cases b <;> exact absurd h0 (by decide)
  · exact ⟨n, h1, he⟩

theorem powerPadCase_unmapped (b : Nat) (hb : 4 ≤ b) :
    NESController.powerPadCase .D4 b = 0 := by
  obtain ⟨k, rfl⟩ := Nat.exists_eq_add_of_le hb
  rw [Nat.add_comm]
  rfl

theorem nes_std_full_iff (pins : Pins) (c : NESController) :
    (NESController.readController pins c).currentState.standardButtons = 0xFF ↔
      ∀ i, i < 8 → NESController.dataHigh pins i = false := by
  constructor
  · intro h i hi
    have := nes_std_testBit pins c i
    rw [h] at this
    have h255 : (0xFF : Nat).testBit i = true := by interval_cases i <;> rfl
    rw [h255] at this
    simpa [hi] using this.symm
  · intro h
    apply Nat.eq_of_testBit_eq
    intro j
    rw [nes_std_testBit, show (0xFF : Nat) = 2 ^ 8 - 1 from rfl, Nat.testBit_two_pow_sub_one]
    by_cases hj : j < 8
    · simp [hj, h j hj]
    · simp [hj]

theorem nes_pad_zero_iff (pins : Pins) (c : NESController) :
    (NESController.readController pins c).currentState.powerPadButtons = 0 ↔
      (∀ b, b < 4 → NESController.d4High pins b = true) ∧
      (∀ b, b < 8 → NESController.d3High pins b = true) := by
  constructor
  · intro h
    have key : ∀ l b, b < 8 → (l = NESController.PadLine.D3 ∨ b < 4) →
        NESController.padHigh pins l b = true := by
      intro l b hb hm
      cases hl : NESController.padHigh pins l b
      · exfalso
        obtain ⟨n, _, he⟩ := powerPadCase_mapped l b hb hm
        have hs := (nes_pad_testBit pins c (n - 1)).2
          ⟨l, b, hb, hl, by rw [he]; exact Nat.testBit_two_pow_self⟩
        rw [h] at hs
        simp at hs
      · rfl
    exact ⟨fun b hb => key .D4 b (by omega) (Or.inr hb), fun b hb => key .D3 b hb (Or.inl rfl)⟩
  · rintro ⟨h4, h3⟩
    apply Nat.eq_of_testBit_eq
    intro j
    rw [Nat.zero_testBit]
    cases hb : (NESController.readController pins c).currentState.powerPadButtons.testBit j
    · rfl
    · obtain ⟨l, b, hb8, hl, ht⟩ := (nes_pad_testBit pins c j).1 hb
      exfalso
      cases l
      · by_cases hb4 : b < 4
        · have := h4 b hb4
          simp [NESController.padHigh, this] at hl
        · rw [powerPadCase_unmapped b (by omega)] at ht
          simp at ht
      · have := h3 b hb8
        simp [NESController.padHigh, this] at hl

theorem snes_std_testBit (pins : Pins) (c : SNESController) (j : Nat) :
    (SNESController.readController pins c).currentState.standardButtons.testBit j =
      (decide (j < 16) && !SNESController.dataHigh pins j) := by
  rw [snes_standardButtons_eq]
  exact (SNESController.snes_polled_loop pins c).std j

theorem snes_present_eq (pins : Pins) (c : SNESController) :
    (SNESController.readController pins c).currentState.nttConnected =
      !SNESController.indicatorHigh pins := by
  have P := SNESController.snes_polled_loop pins c
  have hn : (forLoop (SNESController.readBit pins) SNES_STANDARD_BITS 0
      (SNESController.latched c)).currentState.nttConnected =
        !SNESController.indicatorHigh pins := by
    rw [P.present]; simp [NTT_INDICATOR_BIT]
  rw [SNESController.snes_readController_eq]
  cases hi : SNESController.indicatorHigh pins
  · rw [hi] at hn
    have E := SNESController.snes_extended_loop pins _ P.clocks P.reads P.keypad
    simp only [hn, Bool.not_false, if_true]
    rw [E.present, hn]
    rfl
  · rw [hi] at hn
    simp only [hn, Bool.not_true]
    exact hn

theorem snes_connected_eq (pins : Pins) (c : SNESController) :
    (SNESController.readController pins c).isConnected =
      ((SNESController.readController pins c).currentState.standardButtons != 0xFFFF ||
        (SNESController.readController pins c).currentState.nttConnected) := rfl

/-- C25: on the SNES driver, whenever the primary data line shows the same
level to the two reads taken at bit 13, `isConnected()` is true after
`readController` for every sequence of samples: `standardButtons == 0xFFFF`
needs bit 13 low, which makes the indicator low and `nttConnected` true. -/
theorem C25_snes_poll_always_reports_connected (pins : Pins) (c : SNESController)
    (hsame : SNESController.dataHigh pins NTT_INDICATOR_BIT = SNESController.indicatorHigh pins) :
    (SNESController.readController pins c).isConnected = true ∧
    ((SNESController.readController pins c).currentState.standardButtons = 0xFFFF →
      (SNESController.readController pins c).currentState.nttConnected = true) := by
  have hfull : (SNESController.readController pins c).currentState.standardButtons = 0xFFFF →
      (SNESController.readController pins c).currentState.nttConnected = true := by
    intro h
    have hb := snes_std_testBit pins c NTT_INDICATOR_BIT
    rw [h] at hb
    have h13 : (0xFFFF : Nat).testBit NTT_INDICATOR_BIT = true := by decide
    rw [h13] at hb
    have hd : SNESController.dataHigh pins NTT_INDICATOR_BIT = false := by
      simpa [NTT_INDICATOR_BIT] using hb.symm
    rw [snes_present_eq, ← hsame, hd]
    rfl
  refine ⟨?_, hfull⟩
  rw [snes_connected_eq]
  by_cases h : (SNESController.readController pins c).currentState.standardButtons = 0xFFFF
  · rw [hfull h]
    simp
  · simp [h]

theorem C25_snes_poll_always_reports_connected_witness :
    (SNESController.dataHigh (Pins.steady 0xFF 0xFF 0xFF) NTT_INDICATOR_BIT =
        SNESController.indicatorHigh (Pins.steady 0xFF 0xFF 0xFF) ∧
      (SNESController.readController (Pins.steady 0xFF 0xFF 0xFF)
        (SNESController.new Hw.boot)).isConnected = true) ∧
    (SNESController.dataHigh (Pins.steady 0 0 0) NTT_INDICATOR_BIT =
        SNESController.indicatorHigh (Pins.steady 0 0 0) ∧
      (SNESController.readController (Pins.steady 0 0 0)
        (SNESController.new Hw.boot)).isConnected = true) :=
  ⟨⟨by decide, (C25_snes_poll_always_reports_connected (Pins.steady 0xFF 0xFF 0xFF)
      (SNESController.new Hw.boot) (by decide)).1⟩,
   ⟨by decide, (C25_snes_poll_always_reports_connected (Pins.steady 0 0 0)
      (SNESController.new Hw.boot) (by decide)).1⟩⟩

/-- C26: on the NES driver `isConnected()` is false after `readController` iff
all eight samples of the primary data line were low (`standardButtons == 0xFF`)
and none of the 12 mapped Power Pad samples (D4 at bits 0..3, D3 at bits 0..7)
was low; every other sample sequence reports connected. -/
theorem C26_nes_disconnected_iff (pins : Pins) (c : NESController) :
    ((NESController.readController pins c).isConnected = false ↔
      (∀ i, i < 8 → NESController.dataHigh pins i = false) ∧
      (∀ b, b < 4 → NESController.d4High pins b = true) ∧
      (∀ b, b < 8 → NESController.d3High pins b = true)) ∧
    ((NESController.readController pins c).isConnected = false →
      (NESController.readController pins c).currentState.standardButtons = 0xFF) := by
  have key : (NESController.readController pins c).isConnected = false ↔
      (NESController.readController pins c).currentState.standardButtons = 0xFF ∧
      (NESController.readController pins c).currentState.powerPadButtons = 0 := by
    rw [nes_connected_eq]
    simp
  refine ⟨?_, fun h => (key.1 h).1⟩
  rw [key, nes_std_full_iff, nes_pad_zero_iff]

theorem C26_nes_disconnected_iff_witness :
    (NESController.readController (Pins.steady 0 0xFF 0xFF)
      (NESController.new Hw.boot)).isConnected = false ∧
    (NESController.readController (Pins.steady 0 0xFF 0xFF)
      (NESController.new Hw.boot)).currentState.standardButtons = 0xFF :=
  ⟨by decide,
   (C26_nes_disconnected_iff (Pins.steady 0 0xFF 0xFF) (NESController.new Hw.boot)).2
     (by decide)⟩

theorem nes_snapshot_determined (pins pins' : Pins) (c c' : NESController)
    (hd : ∀ i, i < 8 → NESController.dataHigh pins i = NESController.dataHigh pins' i)
    (hp : ∀ l b, b < 8 → NESController.padHigh pins l b = NESController.padHigh pins' l b) :
    (NESController.readController pins c).currentState =
      (NESController.readController pins' c').currentState ∧
    (NESController.readController pins c).isConnected =
      (NESController.readController pins' c').isConnected := by
  have h1 : (NESController.readController pins c).currentState.standardButtons =
      (NESController.readController pins' c').currentState.standardButtons := by
    apply Nat.eq_of_testBit_eq
    intro j
    rw [nes_std_testBit, nes_std_testBit]
    by_cases hj : j < 8
    · rw [hd j hj]
    · simp [hj]
  have h2 : (NESController.readController pins c).currentState.powerPadButtons =
      (NESController.readController pins' c').currentState.powerPadButtons := by
    apply Nat.eq_of_testBit_eq
    intro j
    rw [Bool.eq_iff_iff, nes_pad_testBit, nes_pad_testBit]
    constructor
    · rintro ⟨l, b, hb, hl, ht⟩
      exact ⟨l, b, hb, by rw [← hp l b hb]; exact hl, ht⟩
    · rintro ⟨l, b, hb, hl, ht⟩
      exact ⟨l, b, hb, by rw [hp l b hb]; exact hl, ht⟩
  have h3 : (NESController.readController pins c).currentState.powerPadConnected =
      (NESController.readController pins' c').currentState.powerPadConnected := by
    rw [nes_present_eq, nes_present_eq, h2]
  refine ⟨?_, ?_⟩
  · cases hs : (NESController.readController pins c).currentState
    cases hs' : (NESController.readController pins' c').currentState
    rw [hs, hs'] at h1 h2 h3
    simp only at h1 h2 h3
    rw [h1, h2, h3]
  · rw [nes_connected_eq, nes_connected_eq, h1, h2]

theorem snes_snapshot_determined (pins pins' : Pins) (c c' : SNESController)
    (hd : ∀ i, i < 16 → SNESController.dataHigh pins i = SNESController.dataHigh pins' i)
    (hi : SNESController.indicatorHigh pins = SNESController.indicatorHigh pins')
    (h2 : ∀ k, k < 16 → SNESController.d2High pins k = SNESController.d2High pins' k) :
    (SNESController.readController pins c).currentState =
      { (SNESController.readController pins' c').currentState with
        playerNumber := c.currentState.playerNumber } ∧
    (SNESController.readController pins c).isConnected =
      (SNESController.readController pins' c').isConnected := by
  have e1 : (SNESController.readController pins c).currentState.standardButtons =
      (SNESController.readController pins' c').currentState.standardButtons := by
    apply Nat.eq_of_testBit_eq
    intro j
    rw [snes_std_testBit, snes_std_testBit]
    by_cases hj : j < 16
    · rw [hd j hj]
    · simp [hj]
  have e2 : (SNESController.readController pins c).currentState.nttKeypad =
      (SNESController.readController pins' c').currentState.nttKeypad := by
    apply Nat.eq_of_testBit_eq
    intro m
    rw [Bool.eq_iff_iff, SNESController.snes_nttKeypad_testBit,
      SNESController.snes_nttKeypad_testBit, hi]
    constructor
    · rintro ⟨h, k, hk, h14, hm, hl⟩
      exact ⟨h, k, hk, h14, hm, by rw [← h2 k hk]; exact hl⟩
    · rintro ⟨h, k, hk, h14, hm, hl⟩
      exact ⟨h, k, hk, h14, hm, by rw [h2 k hk]; exact hl⟩
  have e3 : (SNESController.readController pins c).currentState.nttConnected =
      (SNESController.readController pins' c').currentState.nttConnected := by
    rw [snes_present_eq, snes_present_eq, hi]
  have e4 := (snes_player_kept pins c).2
  refine ⟨?_, ?_⟩
  · cases hs : (SNESController.readController pins c).currentState
    cases hs' : (SNESController.readController pins' c').currentState
    rw [hs, hs'] at e1 e2 e3
    rw [hs] at e4
    simp only at e1 e2 e3 e4
    rw [e1, e2, e3, e4]
  · rw [snes_connected_eq, snes_connected_eq, e1, e3]

/-- C29: a poll is a function of the line samples only: for any two prior
driver states and the same samples, `NESController::readController` gives the
same snapshot and the same `isConnected()`, and `SNESController::readController`
does too except for `playerNumber`, which it keeps from the prior state. -/
theorem C29_poll_depends_on_samples_only (pins : Pins) :
    (∀ c c' : NESController,
      (NESController.readController pins c).currentState =
        (NESController.readController pins c').currentState ∧
      (NESController.readController pins c).isConnected =
        (NESController.readController pins c').isConnected) ∧
    (∀ c c' : SNESController,
      (SNESController.readController pins c).currentState =
        { (SNESController.readController pins c').currentState with
          playerNumber := c.currentState.playerNumber } ∧
      (SNESController.readController pins c).isConnected =
        (SNESController.readController pins c').isConnected) :=
  ⟨fun c c' => nes_snapshot_determined pins pins c c' (fun _ _ => rfl) (fun _ _ _ => rfl),
   fun c c' => snes_snapshot_determined pins pins c c' (fun _ _ => rfl) rfl (fun _ _ => rfl)⟩

/-- C30: the second NTT line (D3, PD3) never influences the SNES snapshot: two
sample sequences that agree on the primary data line and on the D2 line give
the same snapshot and the same `isConnected()`, whatever D3 shows. -/
theorem C30_d3_line_is_ignored (pins pins' : Pins) (c : SNESController)
    (hdata : ∀ k r, pins.PINF k r &&& 0x40 = pins'.PINF k r &&& 0x40)
    (hd2 : ∀ k r, pins.PIND k r &&& 0x04 = pins'.PIND k r &&& 0x04) :
    (SNESController.readController pins c).currentState =
      (SNESController.readController pins' c).currentState ∧
    (SNESController.readController pins c).isConnected =
      (SNESController.readController pins' c).isConnected := by
  have h := snes_snapshot_determined pins pins' c c
    (fun i _ => by unfold SNESController.dataHigh; rw [hdata])
    (by unfold SNESController.indicatorHigh; rw [hdata])
    (fun k _ => by unfold SNESController.d2High; rw [hd2])
  refine ⟨?_, h.2⟩
  rw [h.1]
  have e := (snes_player_kept pins' c).2
  cases hs : (SNESController.readController pins' c).currentState
  rw [hs] at e
  simp only at e
  rw [e]

theorem C30_d3_line_is_ignored_witness :
    (∀ k r, (Pins.steady 0 0 0).PINF k r &&& 0x40 = (Pins.steady 0 0 0x08).PINF k r &&& 0x40) ∧
    (∀ k r, (Pins.steady 0 0 0).PIND k r &&& 0x04 = (Pins.steady 0 0 0x08).PIND k r &&& 0x04) ∧
    (SNESController.readController (Pins.steady 0 0 0) (SNESController.new Hw.boot)).currentState =
      (SNESController.readController (Pins.steady 0 0 0x08)
        (SNESController.new Hw.boot)).currentState :=
  ⟨fun _ _ => rfl, by intro _ _; show (0 : Nat) &&& 0x04 = 0x08 &&& 0x04; decide,
   (C30_d3_line_is_ignored (Pins.steady 0 0 0) (Pins.steady 0 0 0x08)
      (SNESController.new Hw.boot) (fun _ _ => rfl) (by intro _ _; show (0 : Nat) &&& 0x04 = 0x08 &&& 0x04; decide)).1⟩

/-! ## The drive trace of a poll -/

theorem clocked_counters (hw : Hw) :
    ∀ n, (clocked n (sendLatch hw)).clocks = n ∧ (clocked n (sendLatch hw)).reads = 0 := by
  intro n
  induction n with
  | zero => exact ⟨rfl, rfl⟩
  | succ n ih =>
    constructor
    · show (clocked n (sendLatch hw)).clocks + 1 = n + 1
      rw [ih.1]
    · rfl

theorem clocked_trace (hw : Hw) :
    ∀ n, (clocked n hw).trace.length = hw.trace.length + 4 * n ∧
      List.count (HwEvent.delayCycles 96) (clocked n hw).trace =
        List.count (HwEvent.delayCycles 96) hw.trace + n ∧
      List.count (HwEvent.delayCycles 192) (clocked n hw).trace =
        List.count (HwEvent.delayCycles 192) hw.trace := by
  intro n
  induction n with
  | zero => exact ⟨rfl, rfl, rfl⟩
  | succ n ih =>
    obtain ⟨h1, h2, h3⟩ := ih
    simp only [clocked, sendClock, List.length_append, List.count_append, h1, h2, h3]
    refine ⟨?_, ?_, ?_⟩
    · simp only [List.length_cons, List.length_nil]; omega
    · simp [List.count_cons, CLOCK_HIGH_CYCLES, CLOCK_LOW_CYCLES]
      omega
    · simp [List.count_cons, CLOCK_HIGH_CYCLES, CLOCK_LOW_CYCLES]

theorem sendClock_counters (hw : Hw) (i : Nat) (h : hw.clocks = i) :
    { (sendClock hw) with clocks := i + 1, reads := 0 } = sendClock hw := by
  subst h
  rfl

theorem nes_round_hw (pins : Pins) (c : NESController) (k : Nat) :
    (forLoop (NESController.readBit pins) k 0 (NESController.latched c)).hw =
      clocked k (sendLatch c.hw) := by
  have key := forLoop_invariant (NESController.readBit pins)
    (fun i s => s.hw = clocked i (sendLatch c.hw)) k 0 (NESController.latched c) rfl ?_
  · rw [Nat.zero_add] at key
    exact key
  intro i t _ _ h
  have hc := clocked_counters c.hw i
  rw [← h] at hc
  rw [NESController.nes_readBit_eq pins i t hc.1 hc.2]
  show { (sendClock t.hw) with clocks := i + 1, reads := 0 } = sendClock (clocked i (sendLatch c.hw))
  rw [sendClock_counters t.hw i hc.1, h]

theorem snes_round_hw (pins : Pins) (c : SNESController) (k : Nat) :
    (forLoop (SNESController.readBit pins) k 0 (SNESController.latched c)).hw =
      clocked k (sendLatch c.hw) := by
  have key := forLoop_invariant (SNESController.readBit pins)
    (fun i s => s.hw = clocked i (sendLatch c.hw)) k 0 (SNESController.latched c) rfl ?_
  · rw [Nat.zero_add] at key
    exact key
  intro i t _ _ h
  have hc := clocked_counters c.hw i
  rw [← h] at hc
  rw [SNESController.snes_readBit_eq pins i t hc.1 hc.2]
  show { (sendClock t.hw) with clocks := i + 1, reads := 0 } = sendClock (clocked i (sendLatch c.hw))
  rw [sendClock_counters t.hw i hc.1, h]

theorem snes_extended_hw (pins : Pins) (c : SNESController) (c1 : SNESController)
    (hw1 : c1.hw = clocked 16 (sendLatch c.hw)) (hk : c1.currentState.nttKeypad = 0) :
    (SNESController.processNTTExtended pins SNES_STANDARD_BITS c1).hw =
      clocked 32 (sendLatch c.hw) := by
  have hc16 := clocked_counters c.hw 16
  rw [← hw1] at hc16
  have key := forLoop_invariant (SNESController.extendedBit pins)
    (fun i s => SNESController.Extended pins c1 i s ∧ s.hw = clocked i (sendLatch c.hw))
    16 16 c1 ⟨SNESController.snes_extended_start pins c1 hc16.1 hc16.2 hk, hw1⟩ (by
      intro i t h16 _ h
      obtain ⟨k, rfl⟩ := Nat.exists_eq_add_of_le h16
      refine ⟨SNESController.snes_extended_step pins c1 t k h.1, ?_⟩
      show (SNESController.extendedBit pins (SNES_STANDARD_BITS + k) t).hw = _
      rw [SNESController.snes_extendedBit_eq pins k t h.1.clocks h.1.reads h.1.keypad_lt]
      exact (sendClock_counters t.hw (16 + k) h.1.clocks).trans (by rw [h.2]; rfl))
  exact key.2

/-- C23: the drive trace of a shift-register poll: `readController` issues
exactly one latch pulse, high for 192 cycles (12 us at 16 MHz) then low for 72
cycles (4.5 us), before any sample; the sample of bit `i` is taken after
exactly `i` clock pulses and is followed by one clock pulse, high for 96 cycles
(6 us) then low for 72 cycles; the NES poll has exactly 8 clock pulses, the
SNES poll 16, or 32 with the extension, with the same constants. -/
theorem C23_poll_trace_shape (pins : Pins) :
    (∀ hw : Hw,
      (sendLatch hw).trace = hw.trace ++
        [HwEvent.writePORTD ((hw.PORTD ||| 0x02) % 256), HwEvent.delayCycles 192,
         HwEvent.writePORTD (((hw.PORTD ||| 0x02) % 256) &&& 0xFD), HwEvent.delayCycles 72] ∧
      (sendClock hw).trace = hw.trace ++
        [HwEvent.writePORTD ((hw.PORTD ||| 0x01) % 256), HwEvent.delayCycles 96,
         HwEvent.writePORTD (((hw.PORTD ||| 0x01) % 256) &&& 0xFE), HwEvent.delayCycles 72]) ∧
    (LATCH_PULSE_CYCLES = 12 * 16 ∧ 2 * LATCH_LOW_CYCLES = 9 * 16 ∧
      CLOCK_HIGH_CYCLES = 6 * 16 ∧ 2 * CLOCK_LOW_CYCLES = 9 * 16) ∧
    (∀ (c : NESController) (i : Nat),
      (forLoop (NESController.readBit pins) i 0 (NESController.latched c)).hw =
        clocked i (sendLatch c.hw)) ∧
    (∀ c : NESController,
      (NESController.readController pins c).hw = clocked 8 (sendLatch c.hw) ∧
      List.count (HwEvent.delayCycles 192) (NESController.readController pins c).hw.trace =
        List.count (HwEvent.delayCycles 192) c.hw.trace + 1 ∧
      List.count (HwEvent.delayCycles 96) (NESController.readController pins c).hw.trace =
        List.count (HwEvent.delayCycles 96) c.hw.trace + 8 ∧
      (NESController.readController pins c).hw.trace.length = c.hw.trace.length + 4 + 4 * 8) ∧
    (∀ (c : SNESController) (i : Nat),
      (forLoop (SNESController.readBit pins) i 0 (SNESController.latched c)).hw =
        clocked i (sendLatch c.hw)) ∧
    (∀ c : SNESController,
      (SNESController.readController pins c).hw =
        clocked (if SNESController.indicatorHigh pins then 16 else 32) (sendLatch c.hw)) := by
  refine ⟨fun hw => ⟨rfl, rfl⟩, ⟨by decide, by decide, by decide, by decide⟩,
    fun c i => nes_round_hw pins c i, ?_, fun c i => snes_round_hw pins c i, ?_⟩
  · intro c
    have h : (NESController.readController pins c).hw = clocked 8 (sendLatch c.hw) :=
      nes_round_hw pins c 8
    obtain ⟨h1, h2, h3⟩ := clocked_trace (sendLatch c.hw) 8
    refine ⟨h, ?_, ?_, ?_⟩
    · rw [h, h3]
      simp [sendLatch, List.count_cons, LATCH_PULSE_CYCLES, LATCH_LOW_CYCLES]
    · rw [h, h2]
      simp [sendLatch, List.count_cons, LATCH_PULSE_CYCLES, LATCH_LOW_CYCLES]
    · rw [h, h1]
      simp [sendLatch]
  · intro c
    have P := SNESController.snes_polled_loop pins c
    have h16 := snes_round_hw pins c 16
    have hn : (forLoop (SNESController.readBit pins) SNES_STANDARD_BITS 0
        (SNESController.latched c)).currentState.nttConnected =
          !SNESController.indicatorHigh pins := by
      rw [P.present]; simp [NTT_INDICATOR_BIT]
    rw [SNESController.snes_readController_eq]
    cases hi : SNESController.indicatorHigh pins
    · rw [hi] at hn
      simp only [hn, Bool.not_false, if_true, Bool.false_eq_true, if_false]
      exact snes_extended_hw pins c _ h16 P.keypad
    · rw [hi] at hn
      simp only [hn, Bool.not_true, Bool.false_eq_true, if_false, if_true]
      exact h16

/-- C27: the transmit phase of `sendRumbleCommand` (bounded loops over a private
copy) drives the same events with the same delays, stop bit included, as the
transmit phase of `N64_send_data_request` (goto loops shifting the caller's
buffer), for every byte sequence of length `n`, `1 ≤ n ≤ 35`. -/
theorem C27_transmit_phases_agree (buffer : Buffer) (n : Nat) (_ : 1 ≤ n) (_ : n ≤ 35)
    (hb : ∀ j, j < n → buffer j < 256) :
    (∀ ev : List LineEvent,
      N64Controller.rumbleTransmit buffer n ev = (N64Controller.transmit buffer n ev).2) ∧
    (∀ ev : List LineEvent,
      N64Controller.rumbleTransmit buffer n ev =
        ev ++ N64Controller.framePulses (N64Controller.bytesOf buffer 0 n)) ∧
    (∀ (q : Nat → Nat) (w : Wire),
      N64Controller.rumbleExchange q buffer n w =
        N64Controller.rumbleResponse q
          { w with events := N64Controller.rumbleTransmit buffer n w.events }) := by
  have ht : ∀ j, 0 ≤ j → j < 0 + n →
      memcpyAt (fun _ => 0) 0 buffer n j = buffer j := by
    intro j _ hj
    have : j < n := by omega
    simp [memcpyAt, this, Nat.mod_eq_of_lt (hb j this)]
  have hr : ∀ ev : List LineEvent, N64Controller.rumbleTransmit buffer n ev =
      ev ++ N64Controller.framePulses (N64Controller.bytesOf buffer 0 n) := by
    intro ev
    unfold N64Controller.rumbleTransmit
    rw [N64Controller.rumbleLoop_spec n 0 _ ev
      (fun j h0 hj => by rw [ht j h0 hj]; exact hb j (by omega)),
      N64Controller.bytesOf_congr _ buffer n 0 ht]
    simp [N64Controller.framePulses, N64Controller.stopBitEvents]
  refine ⟨?_, hr, fun _ _ => rfl⟩
  intro ev
  rw [hr]
  unfold N64Controller.transmit
  dsimp only
  rw [N64Controller.outerLoop_spec n 0 buffer ev (fun j _ hj => hb j (by omega))]
  simp [N64Controller.framePulses, N64Controller.stopBitEvents]

theorem C27_transmit_phases_agree_witness :
    1 ≤ 35 ∧ 35 ≤ 35 ∧ (∀ j, j < 35 → N64Controller.initCommand j < 256) ∧
    N64Controller.rumbleTransmit N64Controller.initCommand 35 [] =
      (N64Controller.transmit N64Controller.initCommand 35 []).2 :=
  ⟨by decide, by decide, N64Controller.initCommand_lt,
   (C27_transmit_phases_agree N64Controller.initCommand 35 (by decide) (by decide)
      N64Controller.initCommand_lt).1 []⟩

/-! ## The SNES report -/

theorem orIf_lt {d f m : Nat} (hd : d < 2 ^ 8) (hm : m < 2 ^ 8) : orIf d f m < 2 ^ 8 := by
  unfold orIf
  split
  · exact Nat.lt_of_le_of_lt (Nat.mod_le _ _) (Nat.or_lt_two_pow hd hm)
  · exact hd

theorem snesStandardWord_lt (std : Nat) : snesStandardWord std < 2 ^ 8 := by
  unfold snesStandardWord
  exact orIf_lt (orIf_lt (orIf_lt (orIf_lt (orIf_lt (orIf_lt (orIf_lt (orIf_lt
    (by decide) (by decide)) (by decide)) (by decide)) (by decide)) (by decide)) (by decide))
    (by decide)) (by decide)

theorem snesButtons_congr (s s' : SNESControllerState)
    (hstd : s.standardButtons = s'.standardButtons) (hntt : s.nttConnected = s'.nttConnected)
    (hkeys : s.nttKeypad % 2 ^ 24 = s'.nttKeypad % 2 ^ 24) :
    snesButtons s = snesButtons s' := by
  have e1 : s.nttKeypad &&& 0xFFFF = s'.nttKeypad &&& 0xFFFF := by
    rw [show (0xFFFF : Nat) = 2 ^ 16 - 1 from rfl, Nat.and_pow_two_sub_one_eq_mod,
      Nat.and_pow_two_sub_one_eq_mod]
    omega
  have e2 : (s.nttKeypad >>> 16) &&& 0xFF = (s'.nttKeypad >>> 16) &&& 0xFF := by
    rw [show (0xFF : Nat) = 2 ^ 8 - 1 from rfl, Nat.and_pow_two_sub_one_eq_mod,
      Nat.and_pow_two_sub_one_eq_mod, Nat.shiftRight_eq_div_pow, Nat.shiftRight_eq_div_pow]
    omega
  unfold snesButtons
  rw [hstd, hntt, e1, e2]

theorem snesButtons_high_bits (s : SNESControllerState) (hntt : s.nttConnected = true)
    (m : Nat) (hm : 16 ≤ m) :
    (snesButtons s).testBit m = (decide (m < 24) && s.nttKeypad.testBit m) := by
  have hb : (snesStandardWord s.standardButtons).testBit m = false :=
    testBit_false_of_lt (snesStandardWord_lt _) (by omega)
  have hF : (0xFFFF : Nat).testBit m = false :=
    testBit_false_of_lt (n := 16) (by decide) hm
  have hf : (0xFF : Nat).testBit (m - 16) = decide (m - 16 < 8) := by
    rw [show (0xFF : Nat) = 2 ^ 8 - 1 from rfl, Nat.testBit_two_pow_sub_one]
  have e : 16 + (m - 16) = m := by omega
  unfold snesButtons
  simp only [hntt, if_true, Nat.testBit_mod_two_pow, Nat.testBit_or, Nat.testBit_and,
    Nat.testBit_shiftLeft, Nat.testBit_shiftRight, hb, hF, hf, e]
  by_cases h24 : m < 24
  · have h1 : m - 16 < 8 := by omega
    have h2 : m < 32 := by omega
    simp [h24, h1, h2, hm]
  · have h1 : ¬ m - 16 < 8 := by omega
    simp [h24, h1]

theorem snes_keypad_low_bit (pins : Pins) (c : SNESController) (m : Nat) (hm : m < 16) :
    (SNESController.readController pins c).currentState.nttKeypad.testBit m = false := by
  rw [Bool.eq_false_iff]
  intro hb
  obtain ⟨_, k, _, _, he, _⟩ := (SNESController.snes_nttKeypad_testBit pins c m).1 hb
  omega

theorem snes_keypad_low_zero (pins : Pins) (c : SNESController) :
    (SNESController.readController pins c).currentState.nttKeypad &&& 0xFFFF = 0 := by
  apply Nat.eq_of_testBit_eq
  intro m
  rw [Nat.testBit_and, Nat.zero_testBit]
  by_cases hm : m < 16
  · rw [snes_keypad_low_bit pins c m hm, Bool.false_and]
  · rw [testBit_false_of_lt (n := 16) (show (0xFFFF : Nat) < 2 ^ 16 by decide) (by omega),
      Bool.and_false]

theorem snes_keypad_absent (pins : Pins) (c : SNESController)
    (h : (SNESController.readController pins c).currentState.nttConnected = false) :
    (SNESController.readController pins c).currentState.nttKeypad = 0 := by
  rw [snes_present_eq] at h
  rw [SNESController.snes_nttKeypad_eq]
  cases hi : SNESController.indicatorHigh pins
  · rw [hi] at h; cases h
  · rfl

theorem snes_poll_word (pins : Pins) (c : SNESController) :
    snesButtons (SNESController.readController pins c).currentState =
      snesStandardWord (SNESController.readController pins c).currentState.standardButtons |||
        (SNESController.readController pins c).currentState.nttKeypad % 2 ^ 24 := by
  cases hn : (SNESController.readController pins c).currentState.nttConnected
  · rw [snes_keypad_absent pins c hn]
    unfold snesButtons
    simp [hn]
  · apply Nat.eq_of_testBit_eq
    intro m
    by_cases hm : 16 ≤ m
    · rw [snesButtons_high_bits _ hn m hm, Nat.testBit_or, Nat.testBit_mod_two_pow,
        testBit_false_of_lt (snesStandardWord_lt _) (show 8 ≤ m by omega), Bool.false_or]
    · have hk := snes_keypad_low_bit pins c m (by omega)
      have h32 : m < 32 := by omega
      have h16 : ¬ 16 ≤ m := hm
      unfold snesButtons
      simp only [hn, if_true, Nat.testBit_mod_two_pow, Nat.testBit_or, Nat.testBit_and,
        Nat.testBit_shiftLeft, hk]
      simp [h32, h16]

theorem snes_report_determined (pins pins' : Pins) (c c' : SNESController)
    (hdata : ∀ i, i < 16 → SNESController.dataHigh pins i = SNESController.dataHigh pins' i)
    (hind : SNESController.indicatorHigh pins = SNESController.indicatorHigh pins')
    (hkeys : ∀ k, k < 8 → SNESController.d2High pins k = SNESController.d2High pins' k) :
    snesButtons (SNESController.readController pins c).currentState =
      snesButtons (SNESController.readController pins' c').currentState ∧
    snesAxes (SNESController.readController pins c).currentState =
      snesAxes (SNESController.readController pins' c').currentState := by
  have e1 : (SNESController.readController pins c).currentState.standardButtons =
      (SNESController.readController pins' c').currentState.standardButtons := by
    apply Nat.eq_of_testBit_eq
    intro j
    rw [snes_std_testBit, snes_std_testBit]
    by_cases hj : j < 16
    · rw [hdata j hj]
    · simp [hj]
  have e2 : (SNESController.readController pins c).currentState.nttKeypad % 2 ^ 24 =
      (SNESController.readController pins' c').currentState.nttKeypad % 2 ^ 24 := by
    apply Nat.eq_of_testBit_eq
    intro m
    rw [Nat.testBit_mod_two_pow, Nat.testBit_mod_two_pow]
    by_cases hm : m < 24
    · simp only [hm, decide_True, Bool.true_and]
      rw [Bool.eq_iff_iff, SNESController.snes_nttKeypad_testBit,
        SNESController.snes_nttKeypad_testBit, hind]
      constructor
      · rintro ⟨h, k, hk, h14, he, hl⟩
        exact ⟨h, k, hk, h14, he, by rw [← hkeys k (by omega)]; exact hl⟩
      · rintro ⟨h, k, hk, h14, he, hl⟩
        exact ⟨h, k, hk, h14, he, by rw [hkeys k (by omega)]; exact hl⟩
    · simp [hm]
  have e3 : (SNESController.readController pins c).currentState.nttConnected =
      (SNESController.readController pins' c').currentState.nttConnected := by
    rw [snes_present_eq, snes_present_eq, hind]
  refine ⟨snesButtons_congr _ _ e1 e3 e2, ?_⟩
  unfold snesAxes
  rw [e1]

/-- C28: the word `controllerData[SNES_CONTROLLER][BUTTONS]` that
`processSNESController` builds is the standard-button byte (bits 0..7) together
with bits 16..23 of `nttKeypad` (keys 0..7): the term `nttKeypad & 0xFFFF` is 0
for every snapshot of the driver, and for any snapshot with `nttConnected` a bit
`m ≥ 16` of the word is set exactly when `m < 24` and bit `m` of `nttKeypad` is.
Bits 24..31 of `nttKeypad` never reach the word: snapshots that agree on the
standard buttons, on `nttConnected` and on the low 24 bits of `nttKeypad` give
the same word, and two polls whose samples agree on the data line, on the
indicator and on the D2 samples of keys 0..7 give the same word, axes and
report. -/
theorem C28_report_carries_keys_0_to_7_only (pins pins' : Pins) (c c' : SNESController)
    (report : GamepadReport)
    (hdata : ∀ i, i < 16 → SNESController.dataHigh pins i = SNESController.dataHigh pins' i)
    (hind : SNESController.indicatorHigh pins = SNESController.indicatorHigh pins')
    (hkeys : ∀ k, k < 8 → SNESController.d2High pins k = SNESController.d2High pins' k) :
    (processSNESController pins c report).BUTTONS =
      snesButtons (SNESController.readController pins c).currentState ∧
    (processSNESController pins c report).report.buttons =
      (processSNESController pins c report).BUTTONS ∧
    (SNESController.readController pins c).currentState.nttKeypad &&& 0xFFFF = 0 ∧
    (processSNESController pins c report).BUTTONS =
      snesStandardWord (SNESController.readController pins c).currentState.standardButtons |||
        (SNESController.readController pins c).currentState.nttKeypad % 2 ^ 24 ∧
    snesStandardWord (SNESController.readController pins c).currentState.standardButtons
      < 2 ^ 8 ∧
    (∀ s : SNESControllerState, s.nttConnected = true → ∀ m, 16 ≤ m →
      (snesButtons s).testBit m = (decide (m < 24) && s.nttKeypad.testBit m)) ∧
    (∀ s s' : SNESControllerState, s.standardButtons = s'.standardButtons →
      s.nttConnected = s'.nttConnected → s.nttKeypad % 2 ^ 24 = s'.nttKeypad % 2 ^ 24 →
      snesButtons s = snesButtons s') ∧
    (processSNESController pins' c' report).BUTTONS =
      (processSNESController pins c report).BUTTONS ∧
    (processSNESController pins' c' report).AXES = (processSNESController pins c report).AXES ∧
    (processSNESController pins' c' report).report =
      (processSNESController pins c report).report := by
  have D := snes_report_determined pins pins' c c' hdata hind hkeys
  refine ⟨rfl, rfl, snes_keypad_low_zero pins c, snes_poll_word pins c, snesStandardWord_lt _,
    snesButtons_high_bits, snesButtons_congr, D.1.symm, D.2.symm, ?_⟩
  show ({ report with
      buttons := snesButtons (SNESController.readController pins' c').currentState
      Y := _
      X := _ } : GamepadReport) = _
  unfold processSNESController
  simp only [D.1, D.2]

theorem C28_report_carries_keys_0_to_7_only_witness :
    (∀ k, k < 8 → SNESController.d2High (Pins.steady 0 0 0) k =
      SNESController.d2High
        { PINF := fun _ _ => 0, PINB := fun _ _ => 0,
          PIND := fun n _ => if n < 24 then 0 else 0x04 } k) ∧
    (processSNESController
        { PINF := fun _ _ => 0, PINB := fun _ _ => 0,
          PIND := fun n _ => if n < 24 then 0 else 0x04 }
        (SNESController.new Hw.boot) ⟨0, 0, 0⟩).BUTTONS =
      (processSNESController (Pins.steady 0 0 0) (SNESController.new Hw.boot) ⟨0, 0, 0⟩).BUTTONS :=
  ⟨by
      intro k hk
      show ((0 : Nat) &&& 0x04 != 0) = ((if 16 + k < 24 then 0 else 0x04) &&& 0x04 != 0)
      rw [if_pos (by omega)],
   (C28_report_carries_keys_0_to_7_only (Pins.steady 0 0 0)
      { PINF := fun _ _ => 0, PINB := fun _ _ => 0,
        PIND := fun n _ => if n < 24 then 0 else 0x04 }
      (SNESController.new Hw.boot) (SNESController.new Hw.boot) ⟨0, 0, 0⟩
      (fun _ _ => rfl) rfl
      (by
        intro k hk
        show ((0 : Nat) &&& 0x04 != 0) = ((if 16 + k < 24 then 0 else 0x04) &&& 0x04 != 0)
        rw [if_pos (by omega)])).2.2.2.2.2.2.2.1⟩

/-! ## The NES report -/

theorem nes_low_snapshot (f b i : Nat) (c : NESController) :
    (NESController.readController (Pins.lowAt f b i) c).currentState =
      (NESController.readController (Pins.lowAt f b i) (NESController.new Hw.boot)).currentState :=
  (nes_snapshot_determined (Pins.lowAt f b i) (Pins.lowAt f b i) c (NESController.new Hw.boot)
    (fun _ _ => rfl) (fun _ _ _ => rfl)).1

set_option maxRecDepth 8000 in
theorem nes_low_polls :
    ∀ q ∈ [(1, 0xEF, 1, NES_BTN_B, POWERPAD_BTN_1), (0, 0xEF, 0, NES_BTN_A, POWERPAD_BTN_2),
           (3, 0xEF, 7, NES_BTN_START, POWERPAD_BTN_7),
           (2, 0xDF, 3, NES_BTN_SELECT, POWERPAD_BTN_8)],
      (NESController.readController (Pins.lowAt 0x7F 0xFF q.1)
          (NESController.new Hw.boot)).currentState =
        { standardButtons := q.2.2.2.1, powerPadButtons := 0, powerPadConnected := false } ∧
      (NESController.readController (Pins.lowAt 0xFF q.2.1 q.2.2.1)
          (NESController.new Hw.boot)).currentState =
        { standardButtons := 0, powerPadButtons := q.2.2.2.2, powerPadConnected := true } ∧
      nesButtons { standardButtons := q.2.2.2.1, powerPadButtons := 0,
                   powerPadConnected := false } =
        nesButtons { standardButtons := 0, powerPadButtons := q.2.2.2.2,
                     powerPadConnected := true } ∧
      nesAxes { standardButtons := q.2.2.2.1, powerPadButtons := 0,
                powerPadConnected := false } =
        nesAxes { standardButtons := 0, powerPadButtons := q.2.2.2.2,
                  powerPadConnected := true } := by
  decide

/-- C31: the NES report mapping of `processNESController` is not injective on
snapshots.  For each of the pairs standard B / Power Pad button 1, A / button 2,
Start / button 7, Select / button 8 and every value `d` of the four direction
bits, the snapshot with only the standard button set and the snapshot with only
the Power Pad button set (and the same directions) are different and give the
same `controllerData[NES_CONTROLLER][BUTTONS]` and `[AXES]`.  Both snapshots of
each pair are produced by the driver: a poll with only the data line low at one
bit and a poll with only one Power Pad line low at one bit give those snapshots
and the same word and report. -/
theorem C31_nes_report_is_not_injective :
    (∀ (pins : Pins) (c : NESController) (report : GamepadReport),
      (processNESController pins c report).BUTTONS =
        nesButtons (NESController.readController pins c).currentState ∧
      (processNESController pins c report).report.buttons =
        (processNESController pins c report).BUTTONS) ∧
    (∀ s p d : Nat,
      (s, p) ∈ [(NES_BTN_B, POWERPAD_BTN_1), (NES_BTN_A, POWERPAD_BTN_2),
                (NES_BTN_START, POWERPAD_BTN_7), (NES_BTN_SELECT, POWERPAD_BTN_8)] →
      d < 16 →
      ({ standardButtons := s ||| (d <<< 4), powerPadButtons := 0,
         powerPadConnected := false } : NESControllerState) ≠
        { standardButtons := d <<< 4, powerPadButtons := p, powerPadConnected := true } ∧
      nesButtons { standardButtons := s ||| (d <<< 4), powerPadButtons := 0,
                   powerPadConnected := false } =
        nesButtons { standardButtons := d <<< 4, powerPadButtons := p,
                     powerPadConnected := true } ∧
      nesAxes { standardButtons := s ||| (d <<< 4), powerPadButtons := 0,
                powerPadConnected := false } =
        nesAxes { standardButtons := d <<< 4, powerPadButtons := p,
                  powerPadConnected := true }) ∧
    (∀ (i b k s p : Nat) (c c' : NESController) (report : GamepadReport),
      (i, b, k, s, p) ∈ [(1, 0xEF, 1, NES_BTN_B, POWERPAD_BTN_1),
                         (0, 0xEF, 0, NES_BTN_A, POWERPAD_BTN_2),
                         (3, 0xEF, 7, NES_BTN_START, POWERPAD_BTN_7),
                         (2, 0xDF, 3, NES_BTN_SELECT, POWERPAD_BTN_8)] →
      (NESController.readController (Pins.lowAt 0x7F 0xFF i) c).currentState =
        { standardButtons := s, powerPadButtons := 0, powerPadConnected := false } ∧
      (NESController.readController (Pins.lowAt 0xFF b k) c').currentState =
        { standardButtons := 0, powerPadButtons := p, powerPadConnected := true } ∧
      (processNESController (Pins.lowAt 0x7F 0xFF i) c report).BUTTONS =
        (processNESController (Pins.lowAt 0xFF b k) c' report).BUTTONS ∧
      (processNESController (Pins.lowAt 0x7F 0xFF i) c report).report =
        (processNESController (Pins.lowAt 0xFF b k) c' report).report) := by
  refine ⟨fun _ _ _ => ⟨rfl, rfl⟩, ?_, ?_⟩
  · intro s p d hm hd
    have key : ∀ q ∈ [(NES_BTN_B, POWERPAD_BTN_1), (NES_BTN_A, POWERPAD_BTN_2),
        (NES_BTN_START, POWERPAD_BTN_7), (NES_BTN_SELECT, POWERPAD_BTN_8)], ∀ e, e < 16 →
        ({ standardButtons := q.1 ||| (e <<< 4), powerPadButtons := 0,
           powerPadConnected := false } : NESControllerState) ≠
          { standardButtons := e <<< 4, powerPadButtons := q.2, powerPadConnected := true } ∧
        nesButtons { standardButtons := q.1 ||| (e <<< 4), powerPadButtons := 0,
                     powerPadConnected := false } =
          nesButtons { standardButtons := e <<< 4, powerPadButtons := q.2,
                       powerPadConnected := true } ∧
        nesAxes { standardButtons := q.1 ||| (e <<< 4), powerPadButtons := 0,
                  powerPadConnected := false } =
          nesAxes { standardButtons := e <<< 4, powerPadButtons := q.2,
                    powerPadConnected := true } := by
      decide
    exact key (s, p) hm d hd
  · intro i b k s p c c' report hm
    have e1 : ∀ f b i s, (NESController.readController (Pins.lowAt f b i)
          (NESController.new Hw.boot)).currentState = s →
        (NESController.readController (Pins.lowAt f b i) c).currentState = s :=
      fun f b i s h => (nes_low_snapshot f b i c).trans h
    have e2 : ∀ f b i s, (NESController.readController (Pins.lowAt f b i)
          (NESController.new Hw.boot)).currentState = s →
        (NESController.readController (Pins.lowAt f b i) c').currentState = s :=
      fun f b i s h => (nes_low_snapshot f b i c').trans h
    have fin : ∀ (x y : Pins) (s t : NESControllerState),
        (NESController.readController x c).currentState = s →
        (NESController.readController y c').currentState = t →
        nesButtons s = nesButtons t → nesAxes s = nesAxes t →
        (NESController.readController x c).currentState = s ∧
        (NESController.readController y c').currentState = t ∧
        (processNESController x c report).BUTTONS = (processNESController y c' report).BUTTONS ∧
        (processNESController x c report).report = (processNESController y c' report).report := by
      intro x y s t hs ht hb ha
      refine ⟨hs, ht, ?_, ?_⟩
      · show nesButtons _ = nesButtons _
        rw [hs, ht, hb]
      · unfold processNESController
        simp only [hs, ht, hb, ha]
    obtain ⟨h1, h2, h3, h4⟩ := nes_low_polls (i, b, k, s, p) hm
    exact fin _ _ _ _ (e1 _ _ _ _ h1) (e2 _ _ _ _ h2) h3 h4

theorem C31_nes_report_is_not_injective_witness :
    (NES_BTN_B, POWERPAD_BTN_1) ∈ [(NES_BTN_B, POWERPAD_BTN_1), (NES_BTN_A, POWERPAD_BTN_2),
        (NES_BTN_START, POWERPAD_BTN_7), (NES_BTN_SELECT, POWERPAD_BTN_8)] ∧
    0 < 16 ∧
    nesButtons { standardButtons := NES_BTN_B ||| (0 <<< 4), powerPadButtons := 0,
                 powerPadConnected := false } =
      nesButtons { standardButtons := 0 <<< 4, powerPadButtons := POWERPAD_BTN_1,
                   powerPadConnected := true } :=
  ⟨List.mem_cons_self _ _, by decide,
   (C31_nes_report_is_not_injective.2.1 NES_BTN_B POWERPAD_BTN_1 0
      (List.mem_cons_self _ _) (by decide)).2.1⟩

/-! ## The shared latch and clock lines -/

set_option maxRecDepth 8000 in
theorem portD_latch_byte : ∀ P, P < 256 →
    (P ||| 0x02) % 256 = P ||| 0x02 ∧ P ||| 0x02 < 256 ∧
    (P ||| 0x02) &&& 0xFC = P &&& 0xFC ∧
    ((P ||| 0x02) % 256) &&& 0xFD = P &&& 0xFD ∧ P &&& 0xFD < 256 ∧
    (P &&& 0xFD) &&& 0xFC = P &&& 0xFC ∧ (P &&& 0xFD) &&& 0xFE = P &&& 0xFC := by
  decide

set_option maxRecDepth 8000 in
theorem portD_clock_byte : ∀ P, P < 256 →
    (P ||| 0x01) % 256 = P ||| 0x01 ∧ P ||| 0x01 < 256 ∧
    (P ||| 0x01) &&& 0xFC = P &&& 0xFC ∧
    ((P ||| 0x01) % 256) &&& 0xFE = P &&& 0xFE ∧ P &&& 0xFE < 256 ∧
    (P &&& 0xFE) &&& 0xFC = P &&& 0xFC ∧ (P &&& 0xFE) &&& 0xFE = P &&& 0xFE := by
  decide

theorem byte_and_testBit (P m j : Nat) (hP : P < 256) (f : Nat → Bool)
    (hm : ∀ i, i < 8 → m.testBit i = f i) :
    (P &&& m).testBit j = (f j && P.testBit j) := by
  rw [Nat.testBit_and]
  by_cases hj : j < 8
  · rw [hm j hj, Bool.and_comm]
  · rw [testBit_false_of_lt (n := 8) hP (by omega), Bool.false_and, Bool.and_false]

theorem clocked_port (hw : Hw) (hP : hw.PORTD < 256) (n : Nat) :
    (clocked n hw).PORTD < 256 ∧
    (clocked n hw).PORTD &&& 0xFC = hw.PORTD &&& 0xFC ∧
    (clocked n hw).PORTD &&& 0xFE = hw.PORTD &&& 0xFE ∧
    (0 < n → (clocked n hw).PORTD = hw.PORTD &&& 0xFE) ∧
    ∃ X, (clocked n hw).trace = hw.trace ++ X ∧
      ∀ v, HwEvent.writePORTD v ∈ X → v < 256 ∧ v &&& 0xFC = hw.PORTD &&& 0xFC := by
  induction n with
  | zero => exact ⟨hP, rfl, rfl, fun h => absurd h (Nat.lt_irrefl 0), [], by simp [clocked], by simp⟩
  | succ n ih =>
    obtain ⟨h1, h2, h3, _, X, hX, hv⟩ := ih
    obtain ⟨b1, b2, b3, b4, b5, b6, b7⟩ := portD_clock_byte _ h1
    have hp : (clocked (n + 1) hw).PORTD = (clocked n hw).PORTD &&& 0xFE := b4
    have ht : (clocked (n + 1) hw).trace = (clocked n hw).trace ++
        [HwEvent.writePORTD ((clocked n hw).PORTD ||| 0x01), HwEvent.delayCycles 96,
         HwEvent.writePORTD ((clocked n hw).PORTD &&& 0xFE), HwEvent.delayCycles 72] := by
      show (clocked n hw).trace ++
        [HwEvent.writePORTD (((clocked n hw).PORTD ||| 0x01) % 256), HwEvent.delayCycles 96,
         HwEvent.writePORTD ((((clocked n hw).PORTD ||| 0x01) % 256) &&& 0xFE),
         HwEvent.delayCycles 72] = _
      rw [b4, b1]
    refine ⟨by rw [hp]; exact b5, by rw [hp, b6, h2], by rw [hp, b7, h3],
      fun _ => by rw [hp, h3], ?_⟩
    refine ⟨X ++ [HwEvent.writePORTD ((clocked n hw).PORTD ||| 0x01), HwEvent.delayCycles 96,
         HwEvent.writePORTD ((clocked n hw).PORTD &&& 0xFE), HwEvent.delayCycles 72], ?_, ?_⟩
    · rw [ht, hX, List.append_assoc]
    · intro v hm
      rw [List.mem_append] at hm
      rcases hm with hm | hm
      · exact hv v hm
      · simp only [List.mem_cons, HwEvent.writePORTD.injEq, List.mem_singleton, false_or, or_false,
          List.mem_nil_iff, reduceCtorEq] at hm
        rcases hm with rfl | rfl
        · exact ⟨b2, b3.trans h2⟩
        · exact ⟨b5, b6.trans h2⟩

theorem poll_port (hw : Hw) (hP : hw.PORTD < 256) (n : Nat) (hn : 0 < n) :
    (clocked n (sendLatch hw)).PORTD = hw.PORTD &&& 0xFC ∧
    hw.trace <+: (clocked n (sendLatch hw)).trace ∧
    (∀ v, HwEvent.writePORTD v ∈ (clocked n (sendLatch hw)).trace.drop hw.trace.length →
      v < 256 ∧ v &&& 0xFC = hw.PORTD &&& 0xFC) := by
  obtain ⟨a1, a2, a3, a4, a5, a6, a7⟩ := portD_latch_byte _ hP
  have hl : (sendLatch hw).PORTD = hw.PORTD &&& 0xFD := a4
  have hlt : (sendLatch hw).trace = hw.trace ++
      [HwEvent.writePORTD (hw.PORTD ||| 0x02), HwEvent.delayCycles 192,
       HwEvent.writePORTD (hw.PORTD &&& 0xFD), HwEvent.delayCycles 72] := by
    show hw.trace ++
      [HwEvent.writePORTD ((hw.PORTD ||| 0x02) % 256), HwEvent.delayCycles 192,
       HwEvent.writePORTD (((hw.PORTD ||| 0x02) % 256) &&& 0xFD), HwEvent.delayCycles 72] = _
    rw [a4, a1]
  obtain ⟨_, _, _, c4, X, hX, hv⟩ := clocked_port (sendLatch hw) (by rw [hl]; exact a5) n
  have htr : (clocked n (sendLatch hw)).trace = hw.trace ++
      ([HwEvent.writePORTD (hw.PORTD ||| 0x02), HwEvent.delayCycles 192,
        HwEvent.writePORTD (hw.PORTD &&& 0xFD), HwEvent.delayCycles 72] ++ X) := by
    rw [hX, hlt, List.append_assoc]
  refine ⟨by rw [c4 hn, hl, a7], ⟨_, htr.symm⟩, ?_⟩
  intro v hm
  rw [htr, List.drop_left, List.mem_append] at hm
  rcases hm with hm | hm
  · simp only [List.mem_cons, HwEvent.writePORTD.injEq, List.mem_singleton, false_or, or_false,
      List.mem_nil_iff, reduceCtorEq] at hm
    rcases hm with rfl | rfl
    · exact ⟨a2, a3⟩
    · exact ⟨a5, a6⟩
  · obtain ⟨w1, w2⟩ := hv v hm
    exact ⟨w1, by rw [w2, hl, a6]⟩

theorem snes_poll_hw (pins : Pins) (c : SNESController) :
    (SNESController.readController pins c).hw =
      clocked (if SNESController.indicatorHigh pins then 16 else 32) (sendLatch c.hw) := by
  have P := SNESController.snes_polled_loop pins c
  have h16 := snes_round_hw pins c 16
  have hn : (forLoop (SNESController.readBit pins) SNES_STANDARD_BITS 0
      (SNESController.latched c)).currentState.nttConnected =
        !SNESController.indicatorHigh pins := by
    rw [P.present]; simp [NTT_INDICATOR_BIT]
  rw [SNESController.snes_readController_eq]
  cases hi : SNESController.indicatorHigh pins
  · rw [hi] at hn
    simp only [hn, Bool.not_false, if_true, Bool.false_eq_true, if_false]
    exact snes_extended_hw pins c _ h16 P.keypad
  · rw [hi] at hn
    simp only [hn, Bool.not_true, Bool.false_eq_true, if_false, if_true]
    exact h16

/-- C32: the shared latch and clock lines are left low and nothing else on
port D is disturbed.  For every 8-bit value of `PORTD`: `sendLatch` writes
`PORTD | 0x02` and then `PORTD & 0xFD`, so it changes only bit 1 and leaves it
0; `sendClock` writes `PORTD | 0x01` and then `PORTD & 0xFE`, so it changes only
bit 0 and leaves it 0; after a complete `readController` of either driver
`PORTD` is its initial value with bits 1 and 0 cleared, and every value written
to `PORTD` during the poll has the initial bits 2..7. -/
theorem C32_shared_lines_left_low (pins : Pins) (hw : Hw) (hP : hw.PORTD < 256) :
    ((sendLatch hw).trace = hw.trace ++
        [HwEvent.writePORTD (hw.PORTD ||| 0x02), HwEvent.delayCycles 192,
         HwEvent.writePORTD (hw.PORTD &&& 0xFD), HwEvent.delayCycles 72] ∧
      (sendLatch hw).PORTD = hw.PORTD &&& 0xFD ∧
      ∀ j, (sendLatch hw).PORTD.testBit j = (decide (j ≠ 1) && hw.PORTD.testBit j)) ∧
    ((sendClock hw).trace = hw.trace ++
        [HwEvent.writePORTD (hw.PORTD ||| 0x01), HwEvent.delayCycles 96,
         HwEvent.writePORTD (hw.PORTD &&& 0xFE), HwEvent.delayCycles 72] ∧
      (sendClock hw).PORTD = hw.PORTD &&& 0xFE ∧
      ∀ j, (sendClock hw).PORTD.testBit j = (decide (j ≠ 0) && hw.PORTD.testBit j)) ∧
    (∀ c : NESController, c.hw = hw →
      (NESController.readController pins c).hw.PORTD = hw.PORTD &&& 0xFC ∧
      (∀ j, (NESController.readController pins c).hw.PORTD.testBit j =
        (decide (2 ≤ j) && hw.PORTD.testBit j)) ∧
      hw.trace <+: (NESController.readController pins c).hw.trace ∧
      (∀ v, HwEvent.writePORTD v ∈
          (NESController.readController pins c).hw.trace.drop hw.trace.length →
        v < 256 ∧ v &&& 0xFC = hw.PORTD &&& 0xFC)) ∧
    (∀ c : SNESController, c.hw = hw →
      (SNESController.readController pins c).hw.PORTD = hw.PORTD &&& 0xFC ∧
      (∀ j, (SNESController.readController pins c).hw.PORTD.testBit j =
        (decide (2 ≤ j) && hw.PORTD.testBit j)) ∧
      hw.trace <+: (SNESController.readController pins c).hw.trace ∧
      (∀ v, HwEvent.writePORTD v ∈
          (SNESController.readController pins c).hw.trace.drop hw.trace.length →
        v < 256 ∧ v &&& 0xFC = hw.PORTD &&& 0xFC)) := by
  obtain ⟨a1, _, _, a4, _, _, _⟩ := portD_latch_byte _ hP
  obtain ⟨b1, _, _, b4, _, _, _⟩ := portD_clock_byte _ hP
  have hl : (sendLatch hw).PORTD = hw.PORTD &&& 0xFD := a4
  have hc : (sendClock hw).PORTD = hw.PORTD &&& 0xFE := b4
  have bitsFC : ∀ j, (hw.PORTD &&& 0xFC).testBit j = (decide (2 ≤ j) && hw.PORTD.testBit j) :=
    fun j => byte_and_testBit _ _ j hP (fun i => decide (2 ≤ i)) (by decide)
  refine ⟨⟨?_, hl, ?_⟩, ⟨?_, hc, ?_⟩, ?_, ?_⟩
  · show hw.trace ++
      [HwEvent.writePORTD ((hw.PORTD ||| 0x02) % 256), HwEvent.delayCycles 192,
       HwEvent.writePORTD (((hw.PORTD ||| 0x02) % 256) &&& 0xFD), HwEvent.delayCycles 72] = _
    rw [a4, a1]
  · intro j
    rw [hl]
    exact byte_and_testBit _ _ j hP (fun i => decide (i ≠ 1)) (by decide)
  · show hw.trace ++
      [HwEvent.writePORTD ((hw.PORTD ||| 0x01) % 256), HwEvent.delayCycles 96,
       HwEvent.writePORTD (((hw.PORTD ||| 0x01) % 256) &&& 0xFE), HwEvent.delayCycles 72] = _
    rw [b4, b1]
  · intro j
    rw [hc]
    exact byte_and_testBit _ _ j hP (fun i => decide (i ≠ 0)) (by decide)
  · intro c hc'
    subst hc'
    have h : (NESController.readController pins c).hw = clocked 8 (sendLatch c.hw) :=
      nes_round_hw pins c 8
    obtain ⟨p1, p2, p3⟩ := poll_port c.hw hP 8 (by decide)
    rw [h]
    exact ⟨p1, fun j => by rw [p1]; exact bitsFC j, p2, p3⟩
  · intro c hc'
    subst hc'
    rw [snes_poll_hw]
    obtain ⟨p1, p2, p3⟩ := poll_port c.hw hP
      (if SNESController.indicatorHigh pins then 16 else 32) (by split <;> decide)
    exact ⟨p1, fun j => by rw [p1]; exact bitsFC j, p2, p3⟩

theorem C32_shared_lines_left_low_witness :
    (0xA7 : Nat) < 256 ∧
    (NESController.readController (Pins.steady 0xFF 0xFF 0xFF)
      { currentState := { standardButtons := 0, powerPadButtons := 0, powerPadConnected := false }
        controllerConnected := false
        hw := { PORTD := 0xA7, trace := [], clocks := 0, reads := 0 } }).hw.PORTD = 0xA7 &&& 0xFC :=
  ⟨by decide,
   ((C32_shared_lines_left_low (Pins.steady 0xFF 0xFF 0xFF)
      { PORTD := 0xA7, trace := [], clocks := 0, reads := 0 } (by decide)).2.2.1
        { currentState := { standardButtons := 0, powerPadButtons := 0,
                            powerPadConnected := false }
          controllerConnected := false
          hw := { PORTD := 0xA7, trace := [], clocks := 0, reads := 0 } } rfl).1⟩

end FourDapter
